import Mathlib

/-!
# Zoundboard step sequencer: a shallow embedding of `sequencer.js`

The module-level variables of `src/sequencer.js` (`audioContext`, `isPlaying`,
`currentStep`, `tempo`, `intervalId`, `soundBuffers`, the three processing
nodes) together with the parts of the browser they act on (the interval
timers, the Web Audio node graph, the grid cells built by `initializeGrid`
in `src/ui.js`) form one record `World`.  Every function of the source is a
function on `World`.  Numbers that the source computes with `/` are rationals.
-/

namespace Zoundboard

/-! ## Data model -/

/-- A decoded sample, the value `decodeAudioData` resolves with.  Its audio
data is not inspected by the sequencer, so only an identity is kept. -/
structure AudioBuffer where
  id : Nat
  deriving DecidableEq, Repr

/-- One entry of the `soundTypes` table of `createSynthSound`. -/
structure SoundParams where
  name : String
  frequency : ℚ
  decay : ℚ
  deriving DecidableEq, Repr

/-- What a slot of `soundBuffers` holds once it is defined: an `AudioBuffer`
(`sound instanceof AudioBuffer`) or a parameter object. -/
inductive Sound where
  | sample (buffer : AudioBuffer)
  | synth (params : SoundParams)
  deriving DecidableEq, Repr

/-- Where a `connect` call leads: another node, or `audioContext.destination`. -/
inductive Dest where
  | node (id : Nat)
  | destination
  deriving DecidableEq, Repr

/-- The Web Audio nodes the module creates, with the properties it sets on
them.  Times are relative to `audioContext.currentTime` at creation. -/
inductive AudioNode where
  | gain (value : ℚ) (rampTo : Option (ℚ × ℚ))
  | biquadFilter (type : String) (frequency : ℚ) (q : ℚ)
  | analyser (fftSize : Nat)
  | bufferSource (buffer : AudioBuffer)
  | oscillator (type : String) (frequency : ℚ) (stopAfter : ℚ)
  deriving DecidableEq, Repr

/-- The audio context together with the three nodes `initAudioContext`
stores next to it.  `audioContext`, `masterGainNode`, `filterNode` and
`analyserNode` are assigned in `initAudioContext` and nowhere else, so they
are defined together or not at all.  A node is named by its index in `nodes`;
`connections` lists the `connect` calls in order. -/
structure AudioContext where
  nodes : List AudioNode
  connections : List (Nat × Dest)
  masterGainNode : Nat
  filterNode : Nat
  analyserNode : Nat
  deriving DecidableEq, Repr

/-- A repeating timer installed by `setInterval`. -/
structure Timer where
  id : Nat
  interval : ℚ
  deriving DecidableEq, Repr

/-- A `.grid-cell` element: `dataset.row` (read back by `parseInt`),
`dataset.col` and the two classes the sequencer reads or writes. -/
structure Cell where
  row : Nat
  col : Nat
  active : Bool
  playing : Bool
  deriving DecidableEq, Repr

/-- The state `sequencer.js` reads and writes. -/
structure World where
  audioContext : Option AudioContext
  isPlaying : Bool
  currentStep : Nat
  tempo : ℚ
  intervalId : Option Nat
  soundBuffers : List (Option Sound)
  timers : List Timer
  nextTimerId : Nat
  dom : List Cell
  hasUpdateVisualizer : Bool
  deriving DecidableEq, Repr

/-- A call that leaves `playStep`: `triggerSound(row)` or
`updateVisualizer(step)`. -/
inductive Call where
  | triggerSound (row : Nat)
  | updateVisualizer (step : Nat)
  deriving DecidableEq, Repr

/-! ## JavaScript arrays with holes -/

/-- Reading `a[i]`: `none` stands for `undefined`, both for a hole and for an
index past the end. -/
def arrayGet {α : Type} (a : List (Option α)) (i : Nat) : Option α :=
  (a.get? i).join

/-- The assignment `a[i] = v`, which lengthens the array with holes when `i`
is past the end. -/
def arraySet {α : Type} (a : List (Option α)) (i : Nat) (v : α) : List (Option α) :=
  if i < a.length then a.set i (some v)
  else a ++ List.replicate (i - a.length) none ++ [some v]

/-! ## `sequencer.js` -/

/-- The state after the module has been evaluated (`lines 10-23`), before any
click: no audio context, not playing, step 0, 120 BPM, no timer. -/
def initialWorld (dom : List Cell) (hasUpdateVisualizer : Bool) : World :=
  { audioContext := none
    isPlaying := false
    currentStep := 0
    tempo := 120
    intervalId := none
    soundBuffers := []
    timers := []
    nextTimerId := 1
    dom := dom
    hasUpdateVisualizer := hasUpdateVisualizer }

/-- The context `initAudioContext` builds: master gain 0.8, a lowpass filter
at 22050 Hz with Q 1, an analyser with `fftSize` 2048, chained
masterGain -> filter -> analyser -> destination. -/
def freshAudioContext : AudioContext :=
  { nodes := [AudioNode.gain 0.8 none, AudioNode.biquadFilter "lowpass" 22050 1,
      AudioNode.analyser 2048]
    connections := [(0, Dest.node 1), (1, Dest.node 2), (2, Dest.destination)]
    masterGainNode := 0
    filterNode := 1
    analyserNode := 2 }

/-- `initAudioContext()`: replaces the context by a fresh one. -/
def initAudioContext (w : World) : World :=
  { w with audioContext := some freshAudioContext }

/-- The `soundTypes` table of `createSynthSound`. -/
def soundTypes : List SoundParams :=
  [ { name := "kick", frequency := 60, decay := 0.4 },
    { name := "snare", frequency := 200, decay := 0.2 },
    { name := "hihat", frequency := 800, decay := 0.05 },
    { name := "clap", frequency := 300, decay := 0.1 },
    { name := "bass", frequency := 40, decay := 0.6 },
    { name := "synth", frequency := 300, decay := 0.3 },
    { name := "fx1", frequency := 500, decay := 0.2 },
    { name := "fx2", frequency := 1200, decay := 0.1 } ]

/-- `createSynthSound(index)`: `soundBuffers[index] = soundTypes[index]`.
Past the table the source reads `soundTypes[index].name` of `undefined` and
throws, which is the `none` here. -/
def createSynthSound (index : Nat) (w : World) : Option World :=
  match soundTypes.get? index with
  | some p => some { w with soundBuffers := arraySet w.soundBuffers index (Sound.synth p) }
  | none => none

/-- The interval `startSequencer` passes to `setInterval`, in milliseconds:
`(60 / tempo) / 4 * 1000`. -/
def stepTime (tempo : ℚ) : ℚ :=
  (60 / tempo) / 4 * 1000

/-- `setInterval(callback, ms)`: a new timer under a fresh id. -/
def setInterval (ms : ℚ) (w : World) : World × Nat :=
  ({ w with timers := w.timers ++ [{ id := w.nextTimerId, interval := ms }]
            nextTimerId := w.nextTimerId + 1 }, w.nextTimerId)

/-- `clearInterval(id)`: removes the timer with that id; `null` and ids of
no active timer remove nothing. -/
def clearInterval (id : Option Nat) (w : World) : World :=
  { w with timers := w.timers.filter (fun t => !(some t.id == id)) }

/-- `startSequencer()`. -/
def startSequencer (w : World) : World :=
  let w1 := if w.audioContext.isNone then initAudioContext w else w
  if w1.isPlaying then w1
  else
    let w2 := { w1 with isPlaying := true, currentStep := 0 }
    let r := setInterval (stepTime w2.tempo) w2
    { r.1 with intervalId := some r.2 }

/-- `stopSequencer()`: also takes the `playing` class off every cell. -/
def stopSequencer (w : World) : World :=
  let w1 := clearInterval w.intervalId { w with isPlaying := false }
  { w1 with dom := w1.dom.map (fun c => { c with playing := false }) }

/-- `setTempo(newTempo)`. -/
def setTempo (newTempo : ℚ) (w : World) : World :=
  let w1 := { w with tempo := newTempo }
  if w1.isPlaying then startSequencer (stopSequencer w1) else w1

/-- The string the `if` chain of `synthesizeSound` assigns to
`oscillator.type`. -/
def oscillatorTypeAssigned (name : String) : String :=
  if name = "kick" ∨ name = "bass" then "sine"
  else if name = "snare" ∨ name = "clap" then "triangle"
  else if name = "hihat" then "highpass"
  else "square"

/-- The values of the Web Audio `OscillatorType` enumeration that may be
assigned to `OscillatorNode.type`. -/
def oscillatorTypes : List String :=
  ["sine", "square", "sawtooth", "triangle"]

/-- The setter of `OscillatorNode.type`: an assignment of a string outside
the enumeration is ignored and the attribute keeps its value. -/
def setOscillatorType (current assigned : String) : String :=
  if assigned ∈ oscillatorTypes then assigned else current

/-- The `type` of the oscillator `synthesizeSound` starts: a new
`OscillatorNode` has type `sine`, then the assignment is applied. -/
def oscillatorShape (name : String) : String :=
  setOscillatorType "sine" (oscillatorTypeAssigned name)

/-- `synthesizeSound(soundParams)`: an oscillator and a gain node,
oscillator -> gain -> masterGain, the gain ramping from 0.8 to 0.001 over
`decay` seconds, the oscillator stopped after `decay` seconds.  It is called
by `triggerSound` only, with the context present. -/
def synthesizeSound (p : SoundParams) (ctx : AudioContext) : AudioContext :=
  let osc := ctx.nodes.length
  { ctx with
    nodes := ctx.nodes ++ [AudioNode.oscillator (oscillatorShape p.name) p.frequency p.decay,
      AudioNode.gain 0.8 (some (0.001, p.decay))]
    connections := ctx.connections ++
      [(osc, Dest.node (osc + 1)), (osc + 1, Dest.node ctx.masterGainNode)] }

/-- The sample branch of `triggerSound`: a buffer source and a gain node of
value 0.8, source -> gain -> masterGain. -/
def playSample (buffer : AudioBuffer) (ctx : AudioContext) : AudioContext :=
  let src := ctx.nodes.length
  { ctx with
    nodes := ctx.nodes ++ [AudioNode.bufferSource buffer, AudioNode.gain 0.8 none]
    connections := ctx.connections ++
      [(src, Dest.node (src + 1)), (src + 1, Dest.node ctx.masterGainNode)] }

/-- `triggerSound(row)`.  Without a context it creates one and returns; with
an undefined `soundBuffers[row]` it warns on the console and returns. -/
def triggerSound (row : Nat) (w : World) : World :=
  match w.audioContext with
  | none => initAudioContext w
  | some ctx =>
    match arrayGet w.soundBuffers row with
    | none => w
    | some (Sound.sample buffer) => { w with audioContext := some (playSample buffer ctx) }
    | some (Sound.synth p) => { w with audioContext := some (synthesizeSound p ctx) }

/-- The body of the `currentCells.forEach` callback of `playStep` for one
cell, with the calls made so far. -/
def playCell (acc : World × List Call) (c : Cell) : World × List Call :=
  if c.active then (triggerSound c.row acc.1, acc.2 ++ [Call.triggerSound c.row]) else acc

/-- The class updates of `playStep(step)`: `playing` is taken off every cell
and put on the cells of column `step`. -/
def markPlaying (step : Nat) (dom : List Cell) : List Cell :=
  (dom.map (fun c => { c with playing := false })).map
    (fun c => if c.col = step then { c with playing := true } else c)

/-- `playStep(step)`, returning the calls it makes in order.  The class
updates are done first: `triggerSound` neither reads nor writes the cells.
`querySelectorAll` lists the matching cells in document order. -/
def playStep (step : Nat) (w : World) : World × List Call :=
  let marked := markPlaying step w.dom
  let currentCells := marked.filter (fun c => c.col == step)
  let r := currentCells.foldl playCell ({ w with dom := marked }, [])
  if w.hasUpdateVisualizer then (r.1, r.2 ++ [Call.updateVisualizer step]) else r

/-- The callback `startSequencer` hands to `setInterval`:
`playStep(currentStep); currentStep = (currentStep + 1) % 16`. -/
def tick (w : World) : World × List Call :=
  let r := playStep w.currentStep w
  ({ r.1 with currentStep := (r.1.currentStep + 1) % 16 }, r.2)

/-! ## Sample loading -/

/-- How the `fetch(...).then(...).then(...)` chain of one sample ends:
`fetch` rejects, the response is not `ok`, `decodeAudioData` rejects, or a
buffer is decoded. -/
inductive LoadOutcome where
  | fetchRejected
  | notOk
  | decodeError
  | decoded (buffer : AudioBuffer)
  deriving DecidableEq, Repr

/-- The first two `then` callbacks, shared by `loadSounds` and `changeSound`:
a response that arrives and is `ok` makes the second callback create the
audio context when there is none, before decoding. -/
def fetchAndDecode (o : LoadOutcome) (w : World) : World × Option AudioBuffer :=
  match o with
  | LoadOutcome.fetchRejected => (w, none)
  | LoadOutcome.notOk => (w, none)
  | LoadOutcome.decodeError => (if w.audioContext.isNone then initAudioContext w else w, none)
  | LoadOutcome.decoded b => (if w.audioContext.isNone then initAudioContext w else w, some b)

/-- The promise chain `loadSounds` builds for entry `index` of `soundPaths`,
run to its end.  The result `none` is a rejected promise: an error thrown
inside the `catch` callback. -/
def loadSoundsEntry (index : Nat) (o : LoadOutcome) (w : World) : Option World :=
  match fetchAndDecode o w with
  | (w1, some b) => some { w1 with soundBuffers := arraySet w1.soundBuffers index (Sound.sample b) }
  | (w1, none) => createSynthSound index w1

/-- The promise chain of `changeSound(row, soundPath)`, run to its end.  Its
`catch` callback only logs. -/
def changeSound (row : Nat) (o : LoadOutcome) (w : World) : Option World :=
  match fetchAndDecode o w with
  | (w1, some b) => some { w1 with soundBuffers := arraySet w1.soundBuffers row (Sound.sample b) }
  | (w1, none) => some w1

/-! ## `ui.js`: the grid -/

/-- `initializeGrid()`: 8 rows of 16 cells appended row by row, none active. -/
def initializeGrid : List Cell :=
  (List.range 8).flatMap (fun row =>
    (List.range 16).map (fun col => { row := row, col := col, active := false, playing := false }))

/-- The cells of `initializeGrid` carrying the classes given by `active` and
`playing`.  The handlers of `ui.js` only add and remove classes. -/
def gridDom (active playing : Nat → Nat → Bool) : List Cell :=
  initializeGrid.map (fun c => { c with active := active c.row c.col, playing := playing c.row c.col })

/-! ## Runs of the clock -/

/-- The operations on the clock: the three exported functions and a firing of
the interval timer. -/
inductive Op where
  | start
  | stop
  | setTempo (bpm : ℚ)
  | tick
  deriving DecidableEq, Repr

/-- The effect of one operation. -/
def Op.apply (o : Op) (w : World) : World :=
  match o with
  | Op.start => Zoundboard.startSequencer w
  | Op.stop => Zoundboard.stopSequencer w
  | Op.setTempo bpm => Zoundboard.setTempo bpm w
  | Op.tick => (Zoundboard.tick w).1

/-- A timer fires only while it is active; the exported functions can always
be called. -/
def Op.enabled (o : Op) (w : World) : Bool :=
  match o with
  | Op.tick => !w.timers.isEmpty
  | _ => true

/-- Runs a list of operations, stopping at `none` when one is not enabled. -/
def run (ops : List Op) (w : World) : Option World :=
  match ops with
  | [] => some w
  | o :: rest => if o.enabled w then run rest (o.apply w) else none

/-- The states the clock reaches from the initial state. -/
def Reachable (w : World) : Prop :=
  ∃ dom vis ops, run ops (initialWorld dom vis) = some w

/-- The clock part of the state. -/
def clockState (w : World) : Bool × Nat × ℚ × Option Nat × List Timer :=
  (w.isPlaying, w.currentStep, w.tempo, w.intervalId, w.timers)

/-! ## Concrete states -/

/-- A pattern: kick on every fourth step, hi-hat on every second, one synth
note on step 4. -/
def exampleGrid : Nat → Nat → Bool :=
  fun r c => (r == 0 && c % 4 == 0) || (r == 2 && c % 2 == 0) || (r == 5 && c == 4)

/-- The page after loading, with `exampleGrid` drawn and `visualizer.js`
present. -/
def exampleWorld : World :=
  initialWorld (gridDom exampleGrid (fun _ _ => false)) true

/-- The page of `exampleWorld` after play was pressed and three ticks fired. -/
def playingWorld : World :=
  (tick (tick (tick (startSequencer exampleWorld)).1).1).1

/-- The timer discipline of the clock: while playing exactly one timer is
active and `intervalId` names it; while stopped none is. -/
def TimerInv (w : World) : Prop :=
  if w.isPlaying then ∃ t, w.timers = [t] ∧ w.intervalId = some t.id else w.timers = []

/-- Whether a node is a sample player or an oscillator. -/
def AudioNode.isSource (n : AudioNode) : Bool :=
  match n with
  | AudioNode.bufferSource _ => true
  | AudioNode.oscillator _ _ _ => true
  | _ => false

/-- The buffer-source and oscillator nodes created so far. -/
def sourceNodes (w : World) : List AudioNode :=
  match w.audioContext with
  | none => []
  | some ctx => ctx.nodes.filter AudioNode.isSource

/-- The connections made so far that lead into the master gain node. -/
def masterInputs (w : World) : List (Nat × Dest) :=
  match w.audioContext with
  | none => []
  | some ctx => ctx.connections.filter (fun c => c.2 == Dest.node ctx.masterGainNode)

/-- Whether a load ends in the `catch` callback. -/
def LoadOutcome.failed (o : LoadOutcome) : Bool :=
  match o with
  | LoadOutcome.decoded _ => false
  | _ => true

/-- The page of `exampleWorld` after the hi-hat sample of `loadSounds` was
decoded. -/
def sampleWorld : World :=
  (loadSoundsEntry 2 (LoadOutcome.decoded { id := 7 }) exampleWorld).getD exampleWorld

/-! ## `recommendations.js`: pattern scores -/

/-- The `rhythmicPatterns` table, in the order of its literal, which is the
order `Object.entries` lists it in. -/
def rhythmicPatterns : List (String × List Nat) :=
  [ ("four-on-floor", [1, 0, 0, 0, 1, 0, 0, 0, 1, 0, 0, 0, 1, 0, 0, 0]),
    ("backbeat", [0, 0, 0, 0, 1, 0, 0, 0, 0, 0, 0, 0, 1, 0, 0, 0]),
    ("offbeat", [0, 0, 1, 0, 0, 0, 1, 0, 0, 0, 1, 0, 0, 0, 1, 0]),
    ("downbeat", [1, 0, 0, 0, 0, 0, 0, 0, 1, 0, 0, 0, 0, 0, 0, 0]),
    ("eighth", [1, 0, 1, 0, 1, 0, 1, 0, 1, 0, 1, 0, 1, 0, 1, 0]),
    ("sixteenth", [1, 1, 1, 1, 1, 1, 1, 1, 1, 1, 1, 1, 1, 1, 1, 1]),
    ("syncopated", [0, 0, 1, 0, 1, 0, 0, 0, 0, 0, 1, 0, 1, 0, 0, 0]),
    ("fill", [0, 0, 0, 0, 0, 0, 0, 0, 0, 0, 0, 0, 1, 1, 1, 1]) ]

/-- The lookup `rhythmicPatterns[name]`; `none` is `undefined`. -/
def rhythmicPattern (name : String) : Option (List Nat) :=
  rhythmicPatterns.lookup name

/-- The `commonPatterns` of each entry of `soundCharacteristics`, the only
field of that table the module reads. -/
def soundCharacteristics : List (String × List String) :=
  [ ("kicks", ["four-on-floor", "downbeat", "breakbeat"]),
    ("snares", ["backbeat", "offbeat", "fill"]),
    ("hi_hats", ["eighth", "sixteenth", "offbeat"]),
    ("percussion", ["syncopated", "fill", "offbeat"]),
    ("bass", ["root", "walking", "ostinato"]),
    ("synth", ["arpeggio", "pad", "lead"]),
    ("fx", ["impact", "riser", "atmosphere"]) ]

/-- The `trackTypes` array of `generateRecommendations`. -/
def trackTypes : List String :=
  ["kicks", "snares", "hi_hats", "percussion", "bass", "synth", "fx", "fx"]

/-- One round of the loop of `calculatePatternSimilarity` at index `i`; the
accumulator is `(matches, total)`.  Reading past the end of an array gives
`undefined`, the `none` of `get?`. -/
def similarityStep (pattern1 pattern2 : List Nat) (acc : Nat × Nat) (i : Nat) : Nat × Nat :=
  if pattern1[i]? = some 1 ∨ pattern2[i]? = some 1 then
    (if pattern1[i]? = pattern2[i]? then acc.1 + 1 else acc.1, acc.2 + 1)
  else acc

/-- `calculatePatternSimilarity(pattern1, pattern2)`. -/
def calculatePatternSimilarity (pattern1 pattern2 : List Nat) : ℚ :=
  let r := (List.range pattern1.length).foldl (similarityStep pattern1 pattern2) (0, 0)
  if r.2 > 0 then (r.1 : ℚ) / (r.2 : ℚ) else 0

/-- The result object of `identifyRhythmPattern`. -/
structure PatternMatch where
  name : String
  score : ℚ
  deriving DecidableEq, Repr

/-- One round of the loop of `identifyRhythmPattern`: a strictly better score
replaces the best match. -/
def bestMatchStep (row : List Nat) (best : PatternMatch) (entry : String × List Nat) :
    PatternMatch :=
  if calculatePatternSimilarity row entry.2 > best.score then
    { name := entry.1, score := calculatePatternSimilarity row entry.2 }
  else best

/-- `identifyRhythmPattern(row)`: starts from name `''` and score `-1`. -/
def identifyRhythmPattern (row : List Nat) : PatternMatch :=
  rhythmicPatterns.foldl (bestMatchStep row) { name := "", score := -1 }

/-- One round of the loop of `calculateSupportScore` at index `i`; the
accumulator is `(supporting, total)`. -/
def supportStep (supportPattern mainPattern : List Nat) (acc : Nat × Nat) (i : Nat) :
    Nat × Nat :=
  if mainPattern[i]? = some 1 then
    let before : Option Nat := if i > 0 then supportPattern[i - 1]? else some 0
    let after : Option Nat :=
      if i + 1 < supportPattern.length then supportPattern[i + 1]? else some 0
    (if before = some 1 ∨ supportPattern[i]? = some 1 ∨ after = some 1 then acc.1 + 1
      else acc.1, acc.2 + 1)
  else acc

/-- `calculateSupportScore(supportPattern, mainPattern)`. -/
def calculateSupportScore (supportPattern mainPattern : List Nat) : ℚ :=
  let r := (List.range mainPattern.length).foldl (supportStep supportPattern mainPattern) (0, 0)
  if r.2 > 0 then (r.1 : ℚ) / (r.2 : ℚ) else 0

/-! ## `recommendations.js`: recommendations -/

/-- The value `getCurrentPattern` returns: 8 rows, each the list of the
active columns of the row.  Its guard `row >= 0 && row < 8 && col >= 0 &&
col < 16` keeps rows below 8 and columns below 16. -/
abbrev Grid := Fin 8 → List (Fin 16)

/-- `getCurrentPattern()` on the cells of the page: the active cells in
document order, each pushed onto the list of its row. -/
def getCurrentPattern (dom : List Cell) : Grid :=
  fun r => dom.filterMap (fun c =>
    if h : c.col < 16 then (if c.active ∧ c.row = r.val then some ⟨c.col, h⟩ else none)
    else none)

/-- The conversion of a row to its binary representation in
`identifyPatternCharacteristics`: 16 zeros, then `binary[col] = 1` for every
column of the row. -/
def toBinary (row : List (Fin 16)) : List Nat :=
  row.foldl (fun binary col => binary.set col.val 1) (List.replicate 16 0)

/-- The object `identifyPatternCharacteristics` returns, without its
`relationships` field, which no recommendation reads. -/
structure Characteristics where
  density : Fin 8 → ℚ
  binaryPattern : Fin 8 → List Nat
  rhythmPatterns : Fin 8 → PatternMatch
  emptyTracks : List (Fin 8)

/-- `identifyPatternCharacteristics(pattern)`. -/
def identifyPatternCharacteristics (pattern : Grid) : Characteristics :=
  { density := fun i => ((pattern i).length : ℚ) / 16
    binaryPattern := fun i => toBinary (pattern i)
    rhythmPatterns := fun i => identifyRhythmPattern (toBinary (pattern i))
    emptyTracks := (List.finRange 8).filter (fun i => (pattern i).length == 0) }

/-- The `type` of a recommendation. -/
inductive RecType where
  | track
  | improve
  | genre
  deriving DecidableEq, Repr

/-- A recommendation object, without its `message` text, which is built from
`patternName` and `trackType`.  Fields a recommendation does not have are
`none`; a `pattern` of `none` also stands for `null`. -/
structure Recommendation where
  type : RecType
  trackType : Option String
  trackIndex : Option Nat
  pattern : Option (List Nat)
  patternName : Option String
  genre : Option String
  relevance : ℚ
  deriving DecidableEq, Repr

/-- The test `binaryPattern.some(val => val === 1)`. -/
def hasNote (row : List Nat) : Bool :=
  row.any (fun val => val == 1)

/-- The `switch` of `generateTrackRecommendation`: the suggested pattern, its
name and the relevance.  They start as `null`, `''` and `0.7`.  With no
active cell at all the average density of the synth case is `0 / 0`: `NaN`
in the source, 0 here, and both fail the test `avgDensity > 0.5`. -/
def suggestPattern (trackType : String) (ch : Characteristics) :
    Option (List Nat) × String × ℚ :=
  if trackType = "kicks" then
    if hasNote (ch.binaryPattern 2) then (rhythmicPattern "four-on-floor", "four-on-the-floor", 0.9)
    else if hasNote (ch.binaryPattern 1) then (rhythmicPattern "downbeat", "downbeat", 0.85)
    else (rhythmicPattern "four-on-floor", "four-on-the-floor", 0.7)
  else if trackType = "snares" then
    if hasNote (ch.binaryPattern 0) then (rhythmicPattern "backbeat", "backbeat", 0.9)
    else (rhythmicPattern "offbeat", "offbeat", 0.7)
  else if trackType = "hi_hats" then
    if hasNote (ch.binaryPattern 0) ∧ hasNote (ch.binaryPattern 1) then
      (rhythmicPattern "sixteenth", "sixteenth notes", 0.95)
    else if hasNote (ch.binaryPattern 0) then (rhythmicPattern "eighth", "eighth notes", 0.85)
    else (rhythmicPattern "offbeat", "offbeat", 0.7)
  else if trackType = "percussion" then (rhythmicPattern "syncopated", "syncopated", 0.75)
  else if trackType = "bass" then
    if hasNote (ch.binaryPattern 0) then (some (ch.binaryPattern 0), "follow kick", 0.9)
    else (rhythmicPattern "downbeat", "downbeat", 0.7)
  else if trackType = "synth" then
    let avgDensity := ((List.finRange 8).map ch.density).sum /
      ((((List.finRange 8).map ch.density).filter (fun d => d > 0)).length : ℚ)
    if avgDensity > 0.5 then (rhythmicPattern "downbeat", "sparse melody", 0.8)
    else (rhythmicPattern "syncopated", "syncopated melody", 0.75)
  else if trackType = "fx" then (rhythmicPattern "fill", "fill", 0.6)
  else (none, "", 0.7)

/-- `generateTrackRecommendation(trackType, trackIndex, characteristics)`;
`none` is the `null` it returns without track information or pattern. -/
def generateTrackRecommendation (trackType : String) (trackIndex : Fin 8)
    (ch : Characteristics) : Option Recommendation :=
  match soundCharacteristics.lookup trackType with
  | none => none
  | some _ =>
    match suggestPattern trackType ch with
    | (none, _, _) => none
    | (some suggestedPattern, patternName, relevance) =>
      some { type := RecType.track, trackType := some trackType,
             trackIndex := some trackIndex.val, pattern := some suggestedPattern,
             patternName := some patternName, genre := none, relevance := relevance }

/-- One round of the `commonPatterns.forEach` of
`generateImprovementRecommendation`: names missing from `rhythmicPatterns`
are skipped, a strictly better score replaces the best pattern. -/
def improveStep (currentPattern : List Nat) (best : String × ℚ) (patternName : String) :
    String × ℚ :=
  match rhythmicPattern patternName with
  | none => best
  | some template =>
    if calculatePatternSimilarity currentPattern template > best.2 then
      (patternName, calculatePatternSimilarity currentPattern template)
    else best

/-- `generateImprovementRecommendation(trackType, trackIndex, characteristics)`:
the search starts from pattern `''` and score `-1`. -/
def generateImprovementRecommendation (trackType : String) (trackIndex : Fin 8)
    (ch : Characteristics) : Option Recommendation :=
  match soundCharacteristics.lookup trackType with
  | none => none
  | some commonPatterns =>
    let best := commonPatterns.foldl (improveStep (ch.binaryPattern trackIndex)) ("", -1)
    if best.2 > 0.7 then none
    else
      some { type := RecType.improve, trackType := some trackType,
             trackIndex := some trackIndex.val, pattern := rhythmicPattern best.1,
             patternName := some best.1, genre := none,
             relevance := 0.7 + 0.2 * (1 - best.2) }

/-- `detectGenre(characteristics)`. -/
def detectGenre (ch : Characteristics) : String :=
  if (ch.rhythmPatterns 0).name = "four-on-floor" ∧ ch.density 2 > 0.5 then "house"
  else if (ch.rhythmPatterns 1).name = "backbeat" ∧ ch.density 0 < 0.3 then "hip-hop"
  else if ch.density 2 > 0.7 ∧ (ch.rhythmPatterns 0).name = "downbeat" then "trap"
  else if (ch.rhythmPatterns 0).name = "four-on-floor" ∧
      ((List.finRange 8).map ch.density).sum < 2 then "techno"
  else "electronic"

/-- `generateGenreBasedRecommendation(characteristics)`. -/
def generateGenreBasedRecommendation (ch : Characteristics) : Recommendation :=
  let genre := detectGenre ch
  let r : String × ℚ :=
    if genre = "house" then ("house", 0.8)
    else if genre = "hip-hop" then ("hip-hop", 0.75)
    else if genre = "trap" then ("trap", 0.7)
    else if genre = "techno" then ("techno", 0.75)
    else ("electronic", 0.6)
  { type := RecType.genre, trackType := none, trackIndex := none, pattern := none,
    patternName := none, genre := some r.1, relevance := r.2 }

/-- The body of the `emptyTracks.forEach` callback of
`generateRecommendations`: the recommendation pushed for an empty track, if
any. -/
def emptyTrackBody (ch : Characteristics) (trackIndex : Fin 8) : Option Recommendation :=
  match trackTypes[trackIndex.val]? with
  | none => none
  | some trackType => generateTrackRecommendation trackType trackIndex ch

/-- The recommendations `generateRecommendations` pushes in its first loop:
one attempt per empty track, in the order of `emptyTracks`. -/
def trackCandidates (ch : Characteristics) : List Recommendation :=
  ch.emptyTracks.filterMap (emptyTrackBody ch)

/-- The body of the second loop of `generateRecommendations` for row `i`:
empty rows are skipped, rows whose rhythm score is below 0.5 are passed to
`generateImprovementRecommendation`. -/
def improveBody (ch : Characteristics) (currentPattern : Grid) (i : Fin 8) :
    Option Recommendation :=
  if (currentPattern i).length = 0 then none
  else if (ch.rhythmPatterns i).score < 0.5 then
    match trackTypes[i.val]? with
    | none => none
    | some trackType => generateImprovementRecommendation trackType i ch
  else none

/-- The recommendations of the second loop, over the rows in ascending
order. -/
def improveCandidates (ch : Characteristics) (currentPattern : Grid) : List Recommendation :=
  (List.finRange 8).filterMap (improveBody ch currentPattern)

/-- The array `recommendations` of `generateRecommendations` before it is
sorted: the genre recommendation is added when the two loops gave fewer than
two. -/
def candidates (ch : Characteristics) (currentPattern : Grid) : List Recommendation :=
  let specific := trackCandidates ch ++ improveCandidates ch currentPattern
  if specific.length < 2 then specific ++ [generateGenreBasedRecommendation ch] else specific

/-- The order of the comparator `(a, b) => b.relevance - a.relevance`: `a`
may stand before `b`. -/
def relevanceGe (a b : Recommendation) : Prop :=
  b.relevance ≤ a.relevance

instance relevanceGe_decidable : DecidableRel relevanceGe :=
  fun a b => inferInstanceAs (Decidable (b.relevance ≤ a.relevance))

/-- `recommendations.sort((a, b) => b.relevance - a.relevance)`.  The sort of
`Array.prototype.sort` is stable, and a stable sort by a total preorder has a
single result, computed here by insertion. -/
def sortByRelevance (recommendations : List Recommendation) : List Recommendation :=
  recommendations.insertionSort relevanceGe

/-- `generateRecommendations(characteristics, currentPattern)`: the sorted
candidates, cut to the first three by `slice(0, 3)`. -/
def generateRecommendations (ch : Characteristics) (currentPattern : Grid) :
    List Recommendation :=
  (sortByRelevance (candidates ch currentPattern)).take 3

/-- The recommendations `analyzeCurrentPattern` computes for a grid. -/
def recommend (pattern : Grid) : List Recommendation :=
  generateRecommendations (identifyPatternCharacteristics pattern) pattern

/-- The grid whose only active cells are the four-on-floor kick. -/
def kickOnlyGrid : Grid :=
  fun r => if r = 0 then [0, 4, 8, 12] else []

/-- The grid whose only active cell is a bass note on step 1. -/
def bassNoteGrid : Grid :=
  fun r => if r = 4 then [1] else []

/-- The grid whose only active cell is a hi-hat note on step 1. -/
def hatNoteGrid : Grid :=
  fun r => if r = 2 then [1] else []

/-! ## `effects.js`: the effects chain -/

/-- An `AudioBuffer` of two channels, as `generateReverbImpulse` fills it. -/
structure ImpulseBuffer where
  sampleRate : Nat
  left : List ℚ
  right : List ℚ
  deriving DecidableEq, Repr

/-- The `effectsState` object: the four effects with their `enabled` flag and
parameters. -/
structure EffectsState where
  filterEnabled : Bool
  filterType : String
  filterFrequency : ℚ
  filterQ : ℚ
  reverbEnabled : Bool
  reverbLevel : ℚ
  reverbDecay : ℚ
  reverbImpulseResponse : Option ImpulseBuffer
  delayEnabled : Bool
  delayTime : ℚ
  delayFeedback : ℚ
  delayMix : ℚ
  distortionEnabled : Bool
  distortionAmount : ℚ
  distortionOversample : String
  deriving DecidableEq, Repr

/-- The three nodes of the delay network.  `createEffectNodes` is the only
place that assigns `delayNode`, `delayFeedbackNode` and `delayMixNode`, and it
assigns them together. -/
structure DelayNodes where
  delayNode : Nat
  delayFeedbackNode : Nat
  delayMixNode : Nat
  deriving DecidableEq, Repr

/-- The state `effects.js` works on: `effectsState`, its module variables,
and the properties of `window` it reads (`filterNode`, `masterGainNode`, and
`audioContext` with its destination), with the part of the audio graph it
touches.  Nodes, the destination included, are named by numbers;
`connections` holds each connected pair once, `gainValues` and
`delayTimeValues` the values the module has set on `gain.value` and
`delayTime.value`, `reverbBuffer`, `distortionCurve` and
`distortionOversample` what it has set on the convolver and the wave
shaper, `nextNode` the name the next created node gets. -/
structure Effects where
  state : EffectsState
  audioContext : Bool
  sampleRate : Nat
  filterNode : Option Nat
  reverbNode : Option Nat
  delay : Option DelayNodes
  distortionNode : Option Nat
  windowMasterGainNode : Option Nat
  windowDestination : Option Nat
  connections : List (Nat × Nat)
  gainValues : List (Nat × ℚ)
  delayTimeValues : List (Nat × ℚ)
  reverbBuffer : Option ImpulseBuffer
  distortionCurve : Option (List ℚ)
  distortionOversample : Option String
  nextNode : Nat
  deriving DecidableEq, Repr

/-- `a.connect(b)` on the set of connections: connecting a pair that is
already connected changes nothing. -/
def connect (a b : Nat) (connections : List (Nat × Nat)) : List (Nat × Nat) :=
  if (a, b) ∈ connections then connections else connections ++ [(a, b)]

/-- `a.disconnect()`: removes every connection that leaves `a`. -/
def disconnect (a : Nat) (connections : List (Nat × Nat)) : List (Nat × Nat) :=
  connections.filter (fun c => c.1 != a)

/-- The assignment `node.gain.value = v` or `node.delayTime.value = v` on a
table of values. -/
def setValue (node : Nat) (v : ℚ) (values : List (Nat × ℚ)) : List (Nat × ℚ) :=
  values.filter (fun c => c.1 != node) ++ [(node, v)]

/-- The filter step of `connectEffects`; the second component is
`currentNode`. -/
def connectFilter (r : Effects × Nat) : Effects × Nat :=
  match r.1.state.filterEnabled, r.1.filterNode with
  | true, some filterNode =>
    ({ r.1 with connections := connect r.2 filterNode r.1.connections }, filterNode)
  | _, _ => r

/-- The reverb step: a new gain node for the wet level, the dry signal and
the wet branch both connected to the destination. -/
def connectReverb (destinationNode : Nat) (r : Effects × Nat) : Effects × Nat :=
  match r.1.state.reverbEnabled, r.1.reverbNode with
  | true, some reverbNode =>
    let reverbMixNode := r.1.nextNode
    ({ r.1 with
        nextNode := r.1.nextNode + 1
        gainValues := setValue reverbMixNode r.1.state.reverbLevel r.1.gainValues
        connections :=
          connect reverbMixNode destinationNode
            (connect reverbNode reverbMixNode
              (connect r.2 reverbNode (connect r.2 destinationNode r.1.connections))) },
      reverbMixNode)
  | _, _ => r

/-- The delay step: the parameters are written to the nodes, then the
network with its feedback loop is connected. -/
def connectDelay (destinationNode : Nat) (r : Effects × Nat) : Effects × Nat :=
  match r.1.state.delayEnabled, r.1.delay with
  | true, some d =>
    ({ r.1 with
        delayTimeValues := setValue d.delayNode r.1.state.delayTime r.1.delayTimeValues
        gainValues :=
          setValue d.delayMixNode r.1.state.delayMix
            (setValue d.delayFeedbackNode r.1.state.delayFeedback r.1.gainValues)
        connections :=
          connect d.delayMixNode destinationNode
            (connect d.delayNode d.delayMixNode
              (connect d.delayFeedbackNode d.delayNode
                (connect d.delayNode d.delayFeedbackNode
                  (connect r.2 d.delayNode
                    (connect r.2 destinationNode r.1.connections))))) },
      d.delayMixNode)
  | _, _ => r

/-- The distortion step. -/
def connectDistortion (destinationNode : Nat) (r : Effects × Nat) : Effects × Nat :=
  match r.1.state.distortionEnabled, r.1.distortionNode with
  | true, some distortionNode =>
    ({ r.1 with
        connections :=
          connect distortionNode destinationNode (connect r.2 distortionNode r.1.connections) },
      distortionNode)
  | _, _ => r

/-- The body of `connectEffects` once its guard has passed, with the final
`currentNode`: the source is disconnected, the four steps run in the order
filter, reverb, delay, distortion, and the source is connected to the
destination when `currentNode` is still the source. -/
def connectChain (sourceNode destinationNode : Nat) (e : Effects) : Effects × Nat :=
  let r := connectDistortion destinationNode
    (connectDelay destinationNode
      (connectReverb destinationNode
        (connectFilter ({ e with connections := disconnect sourceNode e.connections },
          sourceNode))))
  if r.2 = sourceNode then
    ({ r.1 with connections := connect r.2 destinationNode r.1.connections }, r.2)
  else r

/-- `connectEffects(sourceNode, destinationNode)`: nothing happens without
audio context, source or destination. -/
def connectEffects (sourceNode destinationNode : Option Nat) (e : Effects) : Effects :=
  match e.audioContext, sourceNode, destinationNode with
  | true, some src, some dst => (connectChain src dst e).1
  | _, _, _ => e

/-- The initial `effectsState`: every effect disabled. -/
def initialEffectsState : EffectsState :=
  { filterEnabled := false, filterType := "lowpass", filterFrequency := 22050, filterQ := 1
    reverbEnabled := false, reverbLevel := 0.3, reverbDecay := 2.0
    reverbImpulseResponse := none
    delayEnabled := false, delayTime := 0.3, delayFeedback := 0.4, delayMix := 0.3
    distortionEnabled := false, distortionAmount := 20, distortionOversample := "4x" }

/-- All effect nodes present, with the graph of `initAudioContext`: master
gain 0, filter 1, analyser 2, destination 3, effect nodes 4 to 8, and the
filter alone enabled.  The impulse response and the distortion curve, which
no connection depends on, are left unset. -/
def filterOnlyEffects : Effects :=
  { state := { initialEffectsState with filterEnabled := true }
    audioContext := true
    sampleRate := 44100
    filterNode := some 1
    reverbNode := some 4
    delay := some { delayNode := 5, delayFeedbackNode := 6, delayMixNode := 7 }
    distortionNode := some 8
    windowMasterGainNode := some 0
    windowDestination := some 3
    connections := [(0, 1), (1, 2), (2, 3)]
    gainValues := []
    delayTimeValues := []
    reverbBuffer := none
    distortionCurve := none
    distortionOversample := some "4x"
    nextNode := 9 }

/-- The nodes and graph of `filterOnlyEffects` with reverb and distortion
enabled instead of the filter. -/
def reverbDistortionEffects : Effects :=
  { filterOnlyEffects with
    state := { initialEffectsState with reverbEnabled := true, distortionEnabled := true } }

/-- A grid with an empty kick row and nine hi-hat steps. -/
def busyHatGrid : Grid :=
  fun r => if r = 2 then [0, 2, 4, 6, 8, 10, 12, 14, 15] else []

/-- A grid with an empty kick row, two hi-hat steps and one snare step off
the backbeat. -/
def sparseGrid : Grid :=
  fun r => if r = 2 then [0, 8] else if r = 1 then [2] else []

/-! ## `effects.js`: generators and parameter updates -/

/-- Whether consecutive nodes of the list are joined by a connection: the
list is a path of the audio graph. -/
def isPath (connections : List (Nat × Nat)) : List Nat → Bool
  | a :: b :: rest => decide ((a, b) ∈ connections) && isPath connections (b :: rest)
  | _ => true

/-- The parts of the platform the two generators call: `random i` is the
value of the `Math.random()` call of iteration `i` of the loop of
`generateReverbImpulse`, `pow` is `Math.pow` and `pi` is `Math.PI`. -/
structure Platform where
  random : Nat → ℚ
  pow : ℚ → ℚ → ℚ
  pi : ℚ

/-- The number of frames of `createBuffer(2, length, sampleRate)`: the length
is converted to an integer by dropping its fraction. -/
def frameCount (length : ℚ) : Nat :=
  (Int.floor length).toNat

/-- The value the loop of `generateReverbImpulse` computes in iteration `i`:
`(Math.random() * 2 - 1) * Math.pow(1 - i / length, decay)`. -/
def impulseSample (pf : Platform) (length decay : ℚ) (i : Nat) : ℚ :=
  (pf.random i * 2 - 1) * pf.pow (1 - (i : ℚ) / length) decay

/-- `generateReverbImpulse()`: returns at once without audio context or
convolver; otherwise fills both channels of a new buffer with the same
decaying noise and stores the buffer on the convolver and in
`effectsState.reverb.impulseResponse`.  `createBuffer` throws for a length
below one frame; writes past the last frame of a channel are dropped. -/
def generateReverbImpulse (pf : Platform) (e : Effects) : Except String Effects :=
  match e.audioContext, e.reverbNode with
  | true, some _ =>
    let decay := e.state.reverbDecay
    let length := (e.sampleRate : ℚ) * decay
    if length < 1 then Except.error "NotSupportedError"
    else
      let channel := (List.range (frameCount length)).map (impulseSample pf length decay)
      let impulse : ImpulseBuffer :=
        { sampleRate := e.sampleRate, left := channel, right := channel }
      Except.ok { e with
        reverbBuffer := some impulse
        state := { e.state with reverbImpulseResponse := some impulse } }
  | _, _ => Except.ok e

/-- The value the loop of `updateDistortionCurve` stores at index `i`, with
`samples = 44100` and `deg = Math.PI / 180`. -/
def distortionPoint (pf : Platform) (amount : ℚ) (i : Nat) : ℚ :=
  let deg := pf.pi / 180
  let x := (i : ℚ) * 2 / 44100 - 1
  (3 + amount) * x * 20 * deg / (pf.pi + amount * |x|)

/-- `updateDistortionCurve()`: returns at once without audio context or wave
shaper; otherwise computes a curve of 44100 points and assigns it to
`distortionNode.curve`.  The setter of `WaveShaperNode.curve` accepts a curve
once: on a wave shaper whose curve has been set it throws
`InvalidStateError`, and the node keeps the curve it has. -/
def updateDistortionCurve (pf : Platform) (e : Effects) : Except String Effects :=
  match e.audioContext, e.distortionNode with
  | true, some _ =>
    match e.distortionCurve with
    | some _ => Except.error "InvalidStateError"
    | none =>
      Except.ok { e with
        distortionCurve :=
          some ((List.range 44100).map (distortionPoint pf e.state.distortionAmount)) }
  | _, _ => Except.ok e

/-- The last statement of the three update functions below:
`if (window.masterGainNode && window.audioContext) connectEffects(...)`. -/
def reconnect (e : Effects) : Effects :=
  match e.windowMasterGainNode, e.windowDestination with
  | some masterGainNode, some destination =>
    connectEffects (some masterGainNode) (some destination) e
  | _, _ => e

/-- The argument of `updateReverbEffect`; `none` is a property that is
`undefined`. -/
structure ReverbParams where
  enabled : Option Bool := none
  level : Option ℚ := none
  decay : Option ℚ := none
  deriving DecidableEq, Repr

/-- The argument of `updateDelayEffect`. -/
structure DelayParams where
  enabled : Option Bool := none
  time : Option ℚ := none
  feedback : Option ℚ := none
  mix : Option ℚ := none
  deriving DecidableEq, Repr

/-- The argument of `updateDistortionEffect`. -/
structure DistortionParams where
  enabled : Option Bool := none
  amount : Option ℚ := none
  oversample : Option String := none
  deriving DecidableEq, Repr

/-- The assignments to `effectsState.reverb` in `updateReverbEffect`, which
precede the call of `generateReverbImpulse`. -/
def updateReverbState (params : ReverbParams) (e : Effects) : Effects :=
  { e with state := { e.state with
    reverbEnabled := params.enabled.getD e.state.reverbEnabled
    reverbLevel := params.level.getD e.state.reverbLevel
    reverbDecay := params.decay.getD e.state.reverbDecay } }

/-- `updateReverbEffect(params)`.  An error thrown by `generateReverbImpulse`
leaves the function before the chain is reconnected, in the state
`updateReverbState` gives. -/
def updateReverbEffect (pf : Platform) (params : ReverbParams) (e : Effects) :
    Except String Effects :=
  match params.decay with
  | some _ =>
    match generateReverbImpulse pf (updateReverbState params e) with
    | Except.ok e2 => Except.ok (reconnect e2)
    | Except.error err => Except.error err
  | none => Except.ok (reconnect (updateReverbState params e))

/-- `updateDelayEffect(params)`: each given value is stored in the state and
written to its node, then the chain is reconnected. -/
def updateDelayEffect (params : DelayParams) (e : Effects) : Effects :=
  let e1 := { e with state := { e.state with
    delayEnabled := params.enabled.getD e.state.delayEnabled } }
  let e2 :=
    match params.time with
    | some time =>
      { e1 with
        state := { e1.state with delayTime := time }
        delayTimeValues :=
          match e1.delay with
          | some d => setValue d.delayNode time e1.delayTimeValues
          | none => e1.delayTimeValues }
    | none => e1
  let e3 :=
    match params.feedback with
    | some feedback =>
      { e2 with
        state := { e2.state with delayFeedback := feedback }
        gainValues :=
          match e2.delay with
          | some d => setValue d.delayFeedbackNode feedback e2.gainValues
          | none => e2.gainValues }
    | none => e2
  let e4 :=
    match params.mix with
    | some mix =>
      { e3 with
        state := { e3.state with delayMix := mix }
        gainValues :=
          match e3.delay with
          | some d => setValue d.delayMixNode mix e3.gainValues
          | none => e3.gainValues }
    | none => e3
  reconnect e4

/-- The values of the Web Audio `OverSampleType` enumeration. -/
def overSampleTypes : List String :=
  ["none", "2x", "4x"]

/-- `updateDistortionEffect(params)`, with the state the call leaves and the
error it throws, if any.  An error thrown by `updateDistortionCurve` leaves
the function after the assignments of `enabled` and `amount`, before the
oversample update and before the chain is reconnected.  The setter of
`WaveShaperNode.oversample` ignores a string outside the enumeration. -/
def updateDistortionEffect (pf : Platform) (params : DistortionParams) (e : Effects) :
    Effects × Option String :=
  let e1 := { e with state := { e.state with
    distortionEnabled := params.enabled.getD e.state.distortionEnabled } }
  let r : Effects × Option String :=
    match params.amount with
    | some amount =>
      match updateDistortionCurve pf
        { e1 with state := { e1.state with distortionAmount := amount } } with
      | Except.ok e2 => (e2, none)
      | Except.error err =>
        ({ e1 with state := { e1.state with distortionAmount := amount } }, some err)
    | none => (e1, none)
  match r.2 with
  | some err => (r.1, some err)
  | none =>
    let e3 :=
      match params.oversample with
      | some oversample =>
        { r.1 with
          state := { r.1.state with distortionOversample := oversample }
          distortionOversample :=
            match r.1.distortionNode with
            | some _ =>
              if oversample ∈ overSampleTypes then some oversample else r.1.distortionOversample
            | none => r.1.distortionOversample }
      | none => r.1
    (reconnect e3, none)

/-- `createEffectNodes()`, with the state it leaves and the error it throws,
if any: without audio context nothing happens; otherwise a convolver, the
three delay nodes and a wave shaper are created, the delay values and the
oversampling are written to them, and the impulse response and the first
distortion curve are generated.  A new `WaveShaperNode` has no curve and
oversampling `none`. -/
def createEffectNodes (pf : Platform) (e : Effects) : Effects × Option String :=
  if e.audioContext = false then (e, none)
  else
    let n := e.nextNode
    let e1 : Effects :=
      { e with
        reverbNode := some n
        delay := some { delayNode := n + 1, delayFeedbackNode := n + 2, delayMixNode := n + 3 }
        distortionNode := some (n + 4)
        nextNode := n + 5
        delayTimeValues := setValue (n + 1) e.state.delayTime e.delayTimeValues
        gainValues :=
          setValue (n + 3) e.state.delayMix (setValue (n + 2) e.state.delayFeedback e.gainValues)
        reverbBuffer := none
        distortionCurve := none
        distortionOversample :=
          if e.state.distortionOversample ∈ overSampleTypes then
            some e.state.distortionOversample
          else some "none" }
    match generateReverbImpulse pf e1 with
    | Except.error err => (e1, some err)
    | Except.ok e2 =>
      match updateDistortionCurve pf e2 with
      | Except.error err => (e2, some err)
      | Except.ok e3 => (e3, none)

/-- The state of `effects.js` once it holds the audio context of a page with
master gain 0, filter 1, analyser 2 and destination 3, before
`createEffectNodes` has run. -/
def bareEffects : Effects :=
  { state := initialEffectsState
    audioContext := true
    sampleRate := 44100
    filterNode := some 1
    reverbNode := none
    delay := none
    distortionNode := none
    windowMasterGainNode := some 0
    windowDestination := some 3
    connections := [(0, 1), (1, 2), (2, 3)]
    gainValues := []
    delayTimeValues := []
    reverbBuffer := none
    distortionCurve := none
    distortionOversample := none
    nextNode := 4 }

/-- The nodes and graph of `filterOnlyEffects` with no effect enabled. -/
def noEffects : Effects :=
  { filterOnlyEffects with state := initialEffectsState }

/-- The chain `connectEffects(masterGainNode, destination)` builds with
reverb alone enabled. -/
def reverbOnEffects : Effects :=
  connectEffects (some 0) (some 3)
    { noEffects with state := { initialEffectsState with reverbEnabled := true } }

/-- The chain `connectEffects(masterGainNode, destination)` builds on nodes
without connections, with filter, delay and distortion enabled. -/
def filterDelayDistortionEffects : Effects :=
  connectEffects (some 0) (some 3)
    { noEffects with
      connections := []
      state := { initialEffectsState with
        filterEnabled := true, delayEnabled := true, distortionEnabled := true } }

/-! ## The filter: `updateFilter` and `updateFilterEffect` -/

/-- The argument of `updateFilter`; `none` is a property that is
`undefined`. -/
structure FilterParams where
  type : Option String := none
  frequency : Option ℚ := none
  Q : Option ℚ := none
  deriving DecidableEq, Repr

/-- The values of the Web Audio `BiquadFilterType` enumeration. -/
def biquadFilterTypes : List String :=
  ["lowpass", "highpass", "bandpass", "lowshelf", "highshelf", "peaking", "notch", "allpass"]

/-- `updateFilter(params)` of `sequencer.js`: returns at once while
`filterNode` is undefined, that is before `initAudioContext`; otherwise each
truthy property (a non-empty string, a number other than 0) is assigned to
the filter node.  The setter of `BiquadFilterNode.type` ignores a string
outside the enumeration. -/
def updateFilter (params : FilterParams) (w : World) : World :=
  match w.audioContext with
  | none => w
  | some ctx =>
    match ctx.nodes[ctx.filterNode]? with
    | some (AudioNode.biquadFilter type frequency q) =>
      let type1 :=
        match params.type with
        | some t => if t ≠ "" ∧ t ∈ biquadFilterTypes then t else type
        | none => type
      let frequency1 :=
        match params.frequency with
        | some v => if v ≠ 0 then v else frequency
        | none => frequency
      let q1 :=
        match params.Q with
        | some v => if v ≠ 0 then v else q
        | none => q
      { w with audioContext := some { ctx with
          nodes := ctx.nodes.set ctx.filterNode (AudioNode.biquadFilter type1 frequency1 q1) } }
    | _ => w

/-- The `type`, `frequency.value` and `Q.value` of the filter node of
`sequencer.js`, when there is one. -/
def liveFilter (w : World) : Option (String × ℚ × ℚ) :=
  match w.audioContext with
  | none => none
  | some ctx =>
    match ctx.nodes[ctx.filterNode]? with
    | some (AudioNode.biquadFilter type frequency q) => some (type, frequency, q)
    | _ => none

/-- The page with `sequencer.js`, `ui.js` and `effects.js` loaded: their
states side by side, and the property `window.tempo`, which `export.js`
reads and no module assigns. -/
structure Page where
  world : World
  effects : Effects
  windowTempo : Option ℚ
  deriving DecidableEq, Repr

/-- The argument of `updateFilterEffect`. -/
structure FilterEffectParams where
  enabled : Option Bool := none
  type : Option String := none
  frequency : Option ℚ := none
  Q : Option ℚ := none
  deriving DecidableEq, Repr

/-- The update of `effectsState.filter` in `updateFilterEffect`: `enabled`
when it is not `undefined`, the other properties when they are truthy. -/
def updateFilterState (params : FilterEffectParams) (s : EffectsState) : EffectsState :=
  { s with
    filterEnabled := params.enabled.getD s.filterEnabled
    filterType :=
      match params.type with
      | some t => if t ≠ "" then t else s.filterType
      | none => s.filterType
    filterFrequency :=
      match params.frequency with
      | some v => if v ≠ 0 then v else s.filterFrequency
      | none => s.filterFrequency
    filterQ :=
      match params.Q with
      | some v => if v ≠ 0 then v else s.filterQ
      | none => s.filterQ }

/-- `updateFilterEffect(params)`: the state is updated, then
`window.updateFilter` is called with the stored type and, depending on
`enabled`, the stored frequency and Q or 22050 and 0.01. -/
def updateFilterEffect (params : FilterEffectParams) (pg : Page) : Page :=
  let s := updateFilterState params pg.effects.state
  { pg with
    effects := { pg.effects with state := s }
    world :=
      updateFilter
        { type := some s.filterType
          frequency := some (if s.filterEnabled then s.filterFrequency else 22050)
          Q := some (if s.filterEnabled then s.filterQ else 0.01) }
        pg.world }

/-- The page after the first click: the audio context of `initAudioContext`,
an empty grid, every effect disabled. -/
def freshPage : Page :=
  { world := initAudioContext (initialWorld initializeGrid true)
    effects := noEffects
    windowTempo := none }

/-- A platform for examples: every `Math.random()` returns 0.5, `pow` is
only used with exponent 1, and `pi` is the double `Math.PI`. -/
def examplePlatform : Platform :=
  { random := fun _ => 1 / 2
    pow := fun x _ => x
    pi := 884279719003555 / 281474976710656 }

/-! ## `export.js`: pattern export and import -/

/-- The object `exportPattern` builds, without its `timestamp`. -/
structure ExportedPattern where
  version : String
  tempo : ℚ
  tracks : List (List Nat)
  effects : EffectsState
  deriving DecidableEq, Repr

/-- The `tracks` of `exportPattern`: eight arrays; every active cell, in
document order, pushes its column onto the array of its row when the row is
below 8 and the column below 16. -/
def exportTracks (dom : List Cell) : List (List Nat) :=
  (List.range 8).map (fun row =>
    (dom.filter (fun c => c.active && c.row == row && decide (c.col < 16))).map (fun c => c.col))

/-- The pattern object of `exportPattern()`: `tempo` is `window.tempo || 120`,
`effects` is the result of `window.getEffectsState()`. -/
def exportPattern (pg : Page) : ExportedPattern :=
  { version := "1.0"
    tempo :=
      match pg.windowTempo with
      | some t => if t ≠ 0 then t else 120
      | none => 120
    tracks := exportTracks pg.world.dom
    effects := pg.effects.state }

/-- A JSON value that is not an array. -/
inductive JsonScalar where
  | null
  | bool (b : Bool)
  | number (x : ℚ)
  | string (s : String)
  | object
  deriving DecidableEq, Repr

/-- An entry of the `tracks` array of a payload: an array of numbers, as
`exportPattern` writes it, or a value that is not an array. -/
inductive TrackEntry where
  | columns (cols : List ℚ)
  | notArray (v : JsonScalar)
  deriving DecidableEq, Repr

/-- The property `tracks` of a payload. -/
inductive TracksField where
  | missing
  | notArray (v : JsonScalar)
  | array (entries : List TrackEntry)
  deriving DecidableEq, Repr

/-- The property `effects` of a payload: the four parameter objects. -/
structure EffectsPayload where
  filter : Option FilterEffectParams := none
  reverb : Option ReverbParams := none
  delay : Option DelayParams := none
  distortion : Option DistortionParams := none
  deriving DecidableEq, Repr

/-- The properties of a payload object that `importPattern` reads; `tempo`,
when present, is a number. -/
structure PatternPayload where
  tempo : Option ℚ
  tracks : TracksField
  effects : Option EffectsPayload
  deriving DecidableEq, Repr

/-- How `JSON.parse(event.target.result)` ends: it throws, or returns `null`,
an object, or another value, which has no property `tracks`. -/
inductive Parsed where
  | syntaxError
  | null
  | other
  | object (p : PatternPayload)
  deriving DecidableEq, Repr

/-- The payload `JSON.parse` reads back from the text `JSON.stringify` makes
of an exported pattern. -/
def toPayload (x : ExportedPattern) : PatternPayload :=
  { tempo := some x.tempo
    tracks := TracksField.array
      (x.tracks.map (fun cols => TrackEntry.columns (cols.map (fun (c : Nat) => (c : ℚ)))))
    effects := some
      { filter := some
          { enabled := some x.effects.filterEnabled, type := some x.effects.filterType
            frequency := some x.effects.filterFrequency, Q := some x.effects.filterQ }
        reverb := some
          { enabled := some x.effects.reverbEnabled, level := some x.effects.reverbLevel
            decay := some x.effects.reverbDecay }
        delay := some
          { enabled := some x.effects.delayEnabled, time := some x.effects.delayTime
            feedback := some x.effects.delayFeedback, mix := some x.effects.delayMix }
        distortion := some
          { enabled := some x.effects.distortionEnabled
            amount := some x.effects.distortionAmount
            oversample := some x.effects.distortionOversample } } }

/-- `clearPattern()` of `ui.js`: takes the class `active` off every cell. -/
def clearPattern (w : World) : World :=
  { w with dom := w.dom.map (fun c => { c with active := false }) }

/-- The callback of `track.forEach` in `importPattern`: `querySelector` finds
the first cell with the given `data-row` and `data-col`, which gets the class
`active`; without such a cell nothing happens. -/
def activateCell (row : Nat) (col : ℚ) : List Cell → List Cell
  | [] => []
  | c :: rest =>
    if c.row = row ∧ (c.col : ℚ) = col then { c with active := true } :: rest
    else c :: activateCell row col rest

/-- The loop `track.forEach(col => ...)` for the track of one row. -/
def applyTrack (row : Nat) (cols : List ℚ) (dom : List Cell) : List Cell :=
  cols.foldl (fun d col => activateCell row col d) dom

/-- The loop `pattern.tracks.forEach((track, row) => ...)` from index `row`
on: at an entry that is not an array `track.forEach` throws, which ends the
loop with the cells as they are then; the flag tells whether the loop ran to
its end. -/
def applyTracks : Nat → List TrackEntry → List Cell → List Cell × Bool
  | _, [], dom => (dom, true)
  | row, TrackEntry.columns cols :: rest, dom =>
    applyTracks (row + 1) rest (applyTrack row cols dom)
  | _, TrackEntry.notArray _ :: _, dom => (dom, false)

/-- The block `if (pattern.effects && ...)` of `importPattern`: the four
update functions in order, with the error that ends the block, if any. -/
def applyEffects (pf : Platform) (fx : EffectsPayload) (pg : Page) : Page × Option String :=
  let pg1 :=
    match fx.filter with
    | some p => updateFilterEffect p pg
    | none => pg
  let r : Effects × Option String :=
    match fx.reverb with
    | some p =>
      match updateReverbEffect pf p pg1.effects with
      | Except.ok e => (e, none)
      | Except.error err => (updateReverbState p pg1.effects, some err)
    | none => (pg1.effects, none)
  match r.2 with
  | some err => ({ pg1 with effects := r.1 }, some err)
  | none =>
    let e3 :=
      match fx.delay with
      | some p => updateDelayEffect p r.1
      | none => r.1
    match fx.distortion with
    | some p =>
      ({ pg1 with effects := (updateDistortionEffect pf p e3).1 },
        (updateDistortionEffect pf p e3).2)
    | none => ({ pg1 with effects := e3 }, none)

/-- How the promise of `importPattern` settles. -/
inductive ImportResult where
  | resolved
  | rejected (message : String)
  deriving DecidableEq, Repr

/-- The `onload` handler of `importPattern`, with the page it leaves: the
payload is parsed and its `tracks` checked, the pattern is cleared, a truthy
tempo is passed to `setTempo`, the tracks are applied and then the effects.
Every error thrown on the way is caught and rejects the promise. -/
def importPattern (pf : Platform) (parsed : Parsed) (pg : Page) : ImportResult × Page :=
  match parsed with
  | Parsed.syntaxError => (ImportResult.rejected "SyntaxError", pg)
  | Parsed.null => (ImportResult.rejected "TypeError", pg)
  | Parsed.other => (ImportResult.rejected "Invalid pattern format", pg)
  | Parsed.object p =>
    match p.tracks with
    | TracksField.missing => (ImportResult.rejected "Invalid pattern format", pg)
    | TracksField.notArray _ => (ImportResult.rejected "Invalid pattern format", pg)
    | TracksField.array entries =>
      if entries.length ≠ 8 then (ImportResult.rejected "Invalid pattern format", pg)
      else
        let w1 := clearPattern pg.world
        let w2 :=
          match p.tempo with
          | some t => if t ≠ 0 then setTempo t w1 else w1
          | none => w1
        let r := applyTracks 0 entries w2.dom
        let pg3 := { pg with world := { w2 with dom := r.1 } }
        if r.2 = false then (ImportResult.rejected "TypeError", pg3)
        else
          match p.effects with
          | none => (ImportResult.resolved, pg3)
          | some fx =>
            match applyEffects pf fx pg3 with
            | (pg4, none) => (ImportResult.resolved, pg4)
            | (pg4, some err) => (ImportResult.rejected err, pg4)

/-- The page of `freshPage` with `exampleGrid` drawn. -/
def examplePage : Page :=
  { freshPage with world := initAudioContext exampleWorld }

/-- A payload with eight entries in `tracks`, the second of which is the
number 5. -/
def malformedPayload : PatternPayload :=
  { tempo := some 90
    tracks := TracksField.array
      [TrackEntry.columns [1], TrackEntry.notArray (JsonScalar.number 5), TrackEntry.columns [],
        TrackEntry.columns [], TrackEntry.columns [], TrackEntry.columns [],
        TrackEntry.columns [], TrackEntry.columns []]
    effects := none }

/-- A payload with seven entries in `tracks`. -/
def shortPayload : PatternPayload :=
  { tempo := some 90
    tracks := TracksField.array
      [TrackEntry.columns [1], TrackEntry.columns [], TrackEntry.columns [],
        TrackEntry.columns [], TrackEntry.columns [], TrackEntry.columns [],
        TrackEntry.columns []]
    effects := none }

/-! # Theorems -/

/-! ## Frame lemmas -/

theorem triggerSound_frame (row : Nat) (w : World) :
    ∃ ac, triggerSound row w = { w with audioContext := ac } := by
  unfold triggerSound
  cases hc : w.audioContext with
  | none => exact ⟨some freshAudioContext, rfl⟩
  | some ctx =>
    cases hs : arrayGet w.soundBuffers row with
    | none => exact ⟨some ctx, by cases w; simp_all⟩
    | some s =>
      cases s with
      | sample b => exact ⟨_, rfl⟩
      | synth p => exact ⟨_, rfl⟩

theorem foldl_playCell_frame (cells : List Cell) (w : World) (log : List Call) :
    ∃ ac, (cells.foldl playCell (w, log)).1 = { w with audioContext := ac } := by
  induction cells generalizing w log with
  | nil => exact ⟨w.audioContext, rfl⟩
  | cons c rest ih =>
    simp only [List.foldl_cons, playCell]
    split
    · obtain ⟨ac, h⟩ := triggerSound_frame c.row w
      rw [h]
      obtain ⟨ac2, h2⟩ := ih { w with audioContext := ac } (log ++ [Call.triggerSound c.row])
      exact ⟨ac2, by rw [h2]⟩
    · exact ih w log

theorem playStep_frame (step : Nat) (w : World) :
    ∃ ac dom, (playStep step w).1 = { w with audioContext := ac, dom := dom } := by
  unfold playStep
  obtain ⟨ac, h⟩ := foldl_playCell_frame
    ((markPlaying step w.dom).filter (fun c => c.col == step))
    { w with dom := markPlaying step w.dom } []
  refine ⟨ac, markPlaying step w.dom, ?_⟩
  simp only []
  split <;> simp only [h]

theorem tick_frame (w : World) :
    ∃ ac dom, (tick w).1 =
      { w with audioContext := ac, dom := dom, currentStep := (w.currentStep + 1) % 16 } := by
  obtain ⟨ac, dom, h⟩ := playStep_frame w.currentStep w
  exact ⟨ac, dom, by simp only [tick, h]⟩

theorem tick_currentStep (w : World) : (tick w).1.currentStep = (w.currentStep + 1) % 16 := by
  obtain ⟨ac, dom, h⟩ := tick_frame w
  rw [h]

theorem tick_timers (w : World) : (tick w).1.timers = w.timers := by
  obtain ⟨ac, dom, h⟩ := tick_frame w
  rw [h]

theorem tick_isPlaying (w : World) : (tick w).1.isPlaying = w.isPlaying := by
  obtain ⟨ac, dom, h⟩ := tick_frame w
  rw [h]

theorem tick_intervalId (w : World) : (tick w).1.intervalId = w.intervalId := by
  obtain ⟨ac, dom, h⟩ := tick_frame w
  rw [h]

/-- An invariant that holds initially and is kept by every enabled operation
holds in every state a run ends in. -/
theorem run_invariant (P : World → Prop)
    (hstep : ∀ (o : Op) (w : World), P w → o.enabled w = true → P (o.apply w))
    (ops : List Op) (w w' : World) (h0 : P w) (h : run ops w = some w') : P w' := by
  induction ops generalizing w with
  | nil =>
    simp only [run, Option.some.injEq] at h
    exact h ▸ h0
  | cons o rest ih =>
    simp only [run] at h
    split at h
    · rename_i he
      exact ih (o.apply w) (hstep o w h0 he) h
    · exact absurd h (by simp)

/-! ## The clock -/

/-- C2: for every tempo in [60, 180] the interval `(60 / tempo) / 4 * 1000`
that `startSequencer` computes equals `15000 / tempo` in exact rational
arithmetic, and it is the interval of the timer `startSequencer` installs. -/
theorem stepTime_eq_div (w : World) (tempo : ℚ) (h60 : 60 ≤ tempo) (h180 : tempo ≤ 180) :
    stepTime tempo = 15000 / tempo ∧
    (startSequencer { w with tempo := tempo, isPlaying := false }).timers =
      w.timers ++ [{ id := w.nextTimerId, interval := 15000 / tempo }] := by
  have hne : tempo ≠ 0 := by
    intro h0
    rw [h0] at h60
    norm_num at h60
  have hst : stepTime tempo = 15000 / tempo := by
    unfold stepTime
    field_simp
    ring
  refine ⟨hst, ?_⟩
  have _ := h180
  cases hc : w.audioContext <;>
    simp [startSequencer, initAudioContext, setInterval, hc, hst]

theorem stepTime_eq_div_witness :
    (60 : ℚ) ≤ 120 ∧ (120 : ℚ) ≤ 180 ∧ stepTime 120 = 15000 / 120 ∧
    (startSequencer { exampleWorld with tempo := 120, isPlaying := false }).timers =
      exampleWorld.timers ++ [{ id := exampleWorld.nextTimerId, interval := 15000 / 120 }] :=
  ⟨by norm_num, by norm_num, stepTime_eq_div exampleWorld 120 (by norm_num) (by norm_num)⟩

/-- C3: `startSequencer` leaves the clock state (isPlaying, currentStep,
tempo, intervalId, the active timers) as it is when `isPlaying` is already
true; otherwise it sets `isPlaying = true` and `currentStep = 0` and adds
exactly one timer, whose id it stores in `intervalId`.  Calling it twice in
a row gives the same state as calling it once. -/
theorem startSequencer_clock (w : World) :
    clockState (startSequencer w) =
      (if w.isPlaying then clockState w
       else (true, 0, w.tempo, some w.nextTimerId,
         w.timers ++ [{ id := w.nextTimerId, interval := stepTime w.tempo }])) ∧
    startSequencer (startSequencer w) = startSequencer w := by
  cases hc : w.audioContext <;> cases hp : w.isPlaying <;>
    simp [startSequencer, initAudioContext, setInterval, clockState, hc, hp]

/-- C4: `stopSequencer` sets `isPlaying = false` and removes the timer named
by `intervalId` from the active timers, leaves `currentStep` and `tempo`
unchanged, for every prior state; calling it twice in a row gives the same
state as calling it once. -/
theorem stopSequencer_clock (w : World) :
    (stopSequencer w).isPlaying = false ∧
    (stopSequencer w).timers = w.timers.filter (fun t => !(some t.id == w.intervalId)) ∧
    (stopSequencer w).timers.all (fun t => some t.id != w.intervalId) = true ∧
    (stopSequencer w).currentStep = w.currentStep ∧
    (stopSequencer w).tempo = w.tempo ∧
    stopSequencer (stopSequencer w) = stopSequencer w := by
  refine ⟨rfl, rfl, ?_, rfl, rfl, ?_⟩
  · simp [stopSequencer, clearInterval, List.all_eq_true]
  · simp [stopSequencer, clearInterval, List.filter_filter]

theorem startSequencer_currentStep_lt (w : World) (h : w.currentStep < 16) :
    (startSequencer w).currentStep < 16 := by
  cases hc : w.audioContext <;> cases hp : w.isPlaying <;>
    simp [startSequencer, initAudioContext, setInterval, hc, hp, h]

theorem apply_currentStep_lt (o : Op) (w : World) (h : w.currentStep < 16) :
    (o.apply w).currentStep < 16 := by
  cases o with
  | start => exact startSequencer_currentStep_lt w h
  | stop => exact h
  | setTempo bpm =>
    simp only [Op.apply, setTempo]
    split
    · exact startSequencer_currentStep_lt _ h
    · exact h
  | tick =>
    simp only [Op.apply, tick_currentStep]
    exact Nat.mod_lt _ (by decide)

theorem iterate_tick_currentStep (n : Nat) (w : World) (h : w.currentStep < 16) :
    ((fun x => (tick x).1)^[n] w).currentStep = (w.currentStep + n) % 16 := by
  induction n generalizing w with
  | zero => simp [Nat.mod_eq_of_lt h]
  | succ k ih =>
    have hlt : (tick w).1.currentStep < 16 := by
      rw [tick_currentStep]
      exact Nat.mod_lt _ (by decide)
    rw [Function.iterate_succ_apply, ih (tick w).1 hlt, tick_currentStep]
    omega

theorem iterate_tick_timers (n : Nat) (w : World) :
    ((fun x => (tick x).1)^[n] w).timers = w.timers := by
  induction n generalizing w with
  | zero => rfl
  | succ k ih => rw [Function.iterate_succ_apply, ih, tick_timers]

theorem run_replicate_tick (n : Nat) (w : World) (h : w.timers.isEmpty = false) :
    run (List.replicate n Op.tick) w = some ((fun x => (tick x).1)^[n] w) := by
  induction n generalizing w with
  | zero => rfl
  | succ k ih =>
    have h2 : (tick w).1.timers.isEmpty = false := by rw [tick_timers]; exact h
    simp only [List.replicate_succ, run, Op.enabled, h, Bool.not_false, if_true, Op.apply,
      Function.iterate_succ_apply]
    exact ih (tick w).1 h2

/-- C5: in every state reached from the initial state by `startSequencer`,
`stopSequencer`, `setTempo` and timer ticks, `currentStep` lies in 0..15, and
16 consecutive ticks bring `currentStep` back to the value it started from;
while a timer is active those 16 ticks do fire. -/
theorem currentStep_wraps (w : World) (h : Reachable w) :
    w.currentStep < 16 ∧
    ((fun x => (tick x).1)^[16] w).currentStep = w.currentStep ∧
    run (List.replicate 16 Op.tick) w =
      (if w.timers.isEmpty then none else some ((fun x => (tick x).1)^[16] w)) := by
  obtain ⟨dom, vis, ops, hrun⟩ := h
  have hlt : w.currentStep < 16 :=
    run_invariant (fun x => x.currentStep < 16) (fun o x hx _ => apply_currentStep_lt o x hx)
      ops (initialWorld dom vis) w (by simp [initialWorld]) hrun
  refine ⟨hlt, ?_, ?_⟩
  · rw [iterate_tick_currentStep 16 w hlt]
    omega
  · cases he : w.timers.isEmpty with
    | true => simp [List.replicate, run, Op.enabled, he]
    | false =>
      simp only [Bool.false_eq_true, if_false]
      exact run_replicate_tick 16 w he

theorem currentStep_wraps_witness :
    Reachable playingWorld ∧ playingWorld.currentStep < 16 ∧
    ((fun x => (tick x).1)^[16] playingWorld).currentStep = playingWorld.currentStep :=
  have hr : Reachable playingWorld :=
    ⟨gridDom exampleGrid (fun _ _ => false), true, [Op.start, Op.tick, Op.tick, Op.tick], rfl⟩
  ⟨hr, (currentStep_wraps playingWorld hr).1, (currentStep_wraps playingWorld hr).2.1⟩

theorem timerInv_stop (w : World) (h : TimerInv w) :
    (stopSequencer w).timers = [] ∧ (stopSequencer w).isPlaying = false := by
  refine ⟨?_, rfl⟩
  unfold TimerInv at h
  split at h
  · obtain ⟨t, ht, hid⟩ := h
    simp [stopSequencer, clearInterval, ht, hid]
  · simp [stopSequencer, clearInterval, h]

theorem timerInv_of_stopped (w : World) (ht : w.timers = []) (hp : w.isPlaying = false) :
    TimerInv w := by
  simp [TimerInv, hp, ht]

theorem timerInv_start (w : World) (h : TimerInv w) : TimerInv (startSequencer w) := by
  unfold TimerInv at h
  cases hc : w.audioContext <;> cases hp : w.isPlaying <;>
    simp_all [startSequencer, initAudioContext, setInterval, TimerInv]

theorem timerInv_apply (o : Op) (w : World) (h : TimerInv w) : TimerInv (o.apply w) := by
  cases o with
  | start => exact timerInv_start w h
  | stop =>
    obtain ⟨ht, hp⟩ := timerInv_stop w h
    exact timerInv_of_stopped _ ht hp
  | setTempo bpm =>
    have h1 : TimerInv { w with tempo := bpm } := h
    simp only [Op.apply, setTempo]
    split
    · obtain ⟨ht, hp⟩ := timerInv_stop _ h1
      exact timerInv_start _ (timerInv_of_stopped _ ht hp)
    · exact h1
  | tick =>
    obtain ⟨ac, dom, hf⟩ := tick_frame w
    simp only [Op.apply, hf]
    exact h

theorem timerInv_reachable (w : World) (h : Reachable w) : TimerInv w := by
  obtain ⟨dom, vis, ops, hrun⟩ := h
  exact run_invariant TimerInv (fun o x hx _ => timerInv_apply o x hx) ops
    (initialWorld dom vis) w (by simp [TimerInv, initialWorld]) hrun

theorem no_tick_while_stopped (pre : List Op) (w : World) (ht : w.timers = [])
    (hp : w.isPlaying = false) (hpre : Op.start ∉ pre) :
    run (pre ++ [Op.tick]) w = none := by
  induction pre generalizing w with
  | nil => simp [run, Op.enabled, ht]
  | cons o rest ih =>
    have hrest : Op.start ∉ rest := fun hm => hpre (List.mem_cons_of_mem _ hm)
    cases o with
    | start => exact absurd (List.mem_cons_self _ _) hpre
    | tick => simp [run, Op.enabled, ht]
    | stop =>
      obtain ⟨ht2, hp2⟩ := timerInv_stop w (timerInv_of_stopped w ht hp)
      simp only [List.cons_append, run, Op.enabled, if_true, Op.apply]
      exact ih _ ht2 hp2 hrest
    | setTempo bpm =>
      have hs : setTempo bpm w = { w with tempo := bpm } := by simp [setTempo, hp]
      simp only [List.cons_append, run, Op.enabled, if_true, Op.apply, hs]
      exact ih { w with tempo := bpm } ht hp hrest

/-- C7: in every state reached by `startSequencer`, `stopSequencer`,
`setTempo` (and ticks), a repeating timer is active exactly when `isPlaying`
is true and at most one is active; after `stopSequencer` returns no timer is
active, and no tick can fire after any further calls other than
`startSequencer`. -/
theorem timer_active_iff_playing (w : World) (h : Reachable w) :
    (w.timers ≠ [] ↔ w.isPlaying = true) ∧
    w.timers.length ≤ 1 ∧
    (stopSequencer w).timers = [] ∧
    ∀ pre : List Op, Op.start ∉ pre → run (pre ++ [Op.tick]) (stopSequencer w) = none := by
  have hinv := timerInv_reachable w h
  obtain ⟨hst, hsp⟩ := timerInv_stop w hinv
  refine ⟨?_, ?_, hst, fun pre hpre => no_tick_while_stopped pre _ hst hsp hpre⟩
  · unfold TimerInv at hinv
    split at hinv
    · obtain ⟨t, ht, _⟩ := hinv
      simp_all
    · simp_all
  · unfold TimerInv at hinv
    split at hinv
    · obtain ⟨t, ht, _⟩ := hinv
      simp [ht]
    · simp [hinv]

theorem timer_active_iff_playing_witness :
    Reachable playingWorld ∧ (playingWorld.timers ≠ [] ↔ playingWorld.isPlaying = true) ∧
    playingWorld.timers.length ≤ 1 ∧ (stopSequencer playingWorld).timers = [] ∧
    run ([Op.setTempo 90, Op.stop] ++ [Op.tick]) (stopSequencer playingWorld) = none :=
  have hr : Reachable playingWorld :=
    ⟨gridDom exampleGrid (fun _ _ => false), true, [Op.start, Op.tick, Op.tick, Op.tick], rfl⟩
  have ht := timer_active_iff_playing playingWorld hr
  ⟨hr, ht.1, ht.2.1, ht.2.2.1, ht.2.2.2 [Op.setTempo 90, Op.stop] (by decide)⟩

/-- C6, as stated, fails: after three ticks the step in flight is 3 (a column
with no active cell), yet the first tick after `setTempo(100)` plays step 0
(kick and hi-hat), because `setTempo` restarts through `startSequencer`,
which sets `currentStep = 0`. -/
theorem setTempo_resets_currentStep :
    Reachable playingWorld ∧ playingWorld.isPlaying = true ∧ playingWorld.currentStep = 3 ∧
    (setTempo 100 playingWorld).currentStep = 0 ∧
    (tick (setTempo 100 playingWorld)).2 =
      [Call.triggerSound 0, Call.triggerSound 2, Call.updateVisualizer 0] ∧
    (playStep playingWorld.currentStep (setTempo 100 playingWorld)).2 =
      [Call.updateVisualizer 3] :=
  ⟨⟨gridDom exampleGrid (fun _ _ => false), true, [Op.start, Op.tick, Op.tick, Op.tick], rfl⟩,
    by decide, by decide, by decide, by decide, by decide⟩

/-- C6, amended: while the sequencer is running `setTempo(bpm)` leaves it
running at the new tempo, cancels the timer named by `intervalId`, installs
one new timer with the interval of the new tempo and resets `currentStep` to
0, so the first tick afterwards plays step 0; when it is not running
`setTempo` changes only `tempo`. -/
theorem setTempo_restarts (w : World) (bpm : ℚ) :
    if w.isPlaying then
      (setTempo bpm w).isPlaying = true ∧ (setTempo bpm w).tempo = bpm ∧
      (setTempo bpm w).currentStep = 0 ∧
      (setTempo bpm w).timers =
        w.timers.filter (fun t => !(some t.id == w.intervalId)) ++
          [{ id := w.nextTimerId, interval := stepTime bpm }] ∧
      (tick (setTempo bpm w)).2 = (playStep 0 (setTempo bpm w)).2
    else setTempo bpm w = { w with tempo := bpm } := by
  cases hp : w.isPlaying with
  | false => simp [setTempo, hp]
  | true =>
    have hs : setTempo bpm w = startSequencer (stopSequencer { w with tempo := bpm }) := by
      simp [setTempo, hp]
    have h0 : (setTempo bpm w).currentStep = 0 := by
      rw [hs]
      cases hc : w.audioContext <;>
        simp [startSequencer, stopSequencer, clearInterval, initAudioContext, setInterval, hc]
    simp only [if_true]
    refine ⟨?_, ?_, h0, ?_, ?_⟩
    · rw [hs]
      cases hc : w.audioContext <;>
        simp [startSequencer, stopSequencer, clearInterval, initAudioContext, setInterval, hc]
    · rw [hs]
      cases hc : w.audioContext <;>
        simp [startSequencer, stopSequencer, clearInterval, initAudioContext, setInterval, hc]
    · rw [hs]
      cases hc : w.audioContext <;>
        simp [startSequencer, stopSequencer, clearInterval, initAudioContext, setInterval, hc]
    · simp only [tick, h0]

theorem initializeGrid_column (s : Nat) (hs : s < 16) :
    initializeGrid.filter (fun c => c.col == s) =
      (List.range 8).map (fun r => { row := r, col := s, active := false, playing := false }) := by
  interval_cases s <;> rfl

theorem gridDom_column (active playing : Nat → Nat → Bool) (s : Nat) (hs : s < 16) :
    (gridDom active playing).filter (fun c => c.col == s) =
      (List.range 8).map
        (fun r => { row := r, col := s, active := active r s, playing := playing r s }) := by
  unfold gridDom
  rw [List.filter_map]
  have hcomp : ((fun c : Cell => c.col == s) ∘
      fun c : Cell => { c with active := active c.row c.col, playing := playing c.row c.col }) =
      fun c : Cell => c.col == s := rfl
  rw [hcomp, initializeGrid_column s hs, List.map_map]
  rfl

theorem markPlaying_column (s : Nat) (dom : List Cell) :
    (markPlaying s dom).filter (fun c => c.col == s) =
      (dom.filter (fun c => c.col == s)).map (fun c => { c with playing := true }) := by
  unfold markPlaying
  rw [List.map_map]
  induction dom with
  | nil => rfl
  | cons c rest ih =>
    by_cases hc : c.col = s
    · simp [hc, ih]
    · simp [hc, ih]

theorem foldl_playCell_calls (cells : List Cell) (w : World) (log : List Call) :
    (cells.foldl playCell (w, log)).2 =
      log ++ (cells.filter (fun c => c.active)).map (fun c => Call.triggerSound c.row) := by
  induction cells generalizing w log with
  | nil => simp
  | cons c rest ih =>
    simp only [List.foldl_cons, playCell]
    cases ha : c.active with
    | true => simp [ih, ha]
    | false => simp [ih, ha]

/-- C1: for every grid and every step `s` in 0..15, `playStep(s)` calls
`triggerSound(r)` exactly for the rows `r` whose cell `(r, s)` is active, once
each and in ascending row order, and then calls `updateVisualizer(s)`; the
interval callback makes the calls of `playStep(currentStep)` and then sets
`currentStep` to `(currentStep + 1) mod 16`. -/
theorem playStep_calls (w : World) (active playing : Nat → Nat → Bool) (s : Nat)
    (hs : s < 16) (hv : w.hasUpdateVisualizer = true) :
    (playStep s { w with dom := gridDom active playing }).2 =
      ((List.range 8).filter (fun r => active r s)).map Call.triggerSound ++
        [Call.updateVisualizer s] ∧
    (tick w).2 = (playStep w.currentStep w).2 ∧
    (tick w).1.currentStep = (w.currentStep + 1) % 16 := by
  refine ⟨?_, rfl, tick_currentStep w⟩
  simp only [playStep, hv, if_true]
  rw [foldl_playCell_calls, markPlaying_column, gridDom_column active playing s hs]
  simp only [List.nil_append, List.map_map, List.filter_map, List.append_cancel_right_eq]
  rfl

theorem playStep_calls_witness :
    4 < 16 ∧ exampleWorld.hasUpdateVisualizer = true ∧
    (playStep 4 { exampleWorld with dom := gridDom exampleGrid (fun _ _ => false) }).2 =
      [Call.triggerSound 0, Call.triggerSound 2, Call.triggerSound 5, Call.updateVisualizer 4] :=
  ⟨by decide, rfl, (playStep_calls exampleWorld exampleGrid (fun _ _ => false) 4 (by decide) rfl).1⟩

/-- C8: for every row whose entry of `soundBuffers` is undefined,
`triggerSound(row)` returns (at most creating the audio context when there
is none), creates no buffer-source or oscillator node, makes no connection
into the master gain and leaves `soundBuffers` unchanged. -/
theorem triggerSound_unloaded (w : World) (row : Nat)
    (h : arrayGet w.soundBuffers row = none) :
    triggerSound row w = (if w.audioContext.isNone then initAudioContext w else w) ∧
    sourceNodes (triggerSound row w) = sourceNodes w ∧
    masterInputs (triggerSound row w) = masterInputs w ∧
    (triggerSound row w).soundBuffers = w.soundBuffers := by
  cases hc : w.audioContext with
  | none =>
    have ht : triggerSound row w = initAudioContext w := by simp [triggerSound, hc]
    rw [ht]
    refine ⟨by simp, ?_, ?_, rfl⟩
    · simp only [sourceNodes, hc]
      rfl
    · simp only [masterInputs, hc]
      rfl
  | some ctx =>
    have ht : triggerSound row w = w := by simp [triggerSound, hc, h]
    rw [ht]
    simp

theorem triggerSound_unloaded_witness :
    arrayGet exampleWorld.soundBuffers 3 = none ∧
    triggerSound 3 exampleWorld = initAudioContext exampleWorld ∧
    sourceNodes (triggerSound 3 exampleWorld) = [] ∧
    masterInputs (triggerSound 3 exampleWorld) = [] ∧
    (triggerSound 3 exampleWorld).soundBuffers = [] :=
  have ht := triggerSound_unloaded exampleWorld 3 rfl
  ⟨rfl, ht.1, ht.2.1, ht.2.2.1, ht.2.2.2⟩

theorem arrayGet_arraySet_self {α : Type} (a : List (Option α)) (i : Nat) (v : α) :
    arrayGet (arraySet a i v) i = some v := by
  unfold arrayGet arraySet
  split
  · rename_i h
    simp [List.getElem?_set, h]
  · rename_i h
    have hle : a.length ≤ i := Nat.le_of_not_lt h
    simp [List.getElem?_append_right, hle]

theorem arrayGet_arraySet_ne {α : Type} (a : List (Option α)) (i j : Nat) (v : α)
    (hne : j ≠ i) : arrayGet (arraySet a i v) j = arrayGet a j := by
  unfold arrayGet arraySet
  split
  · simp [List.getElem?_set, Ne.symm hne]
  · rename_i h
    have hle : a.length ≤ i := Nat.le_of_not_lt h
    by_cases hj : j < a.length
    · simp [List.getElem?_append_left, hj]
    · have hjl : a.length ≤ j := Nat.le_of_not_lt hj
      have hnone : a.get? j = none := List.get?_eq_none.mpr hjl
      rw [hnone]
      by_cases hji : j < i
      · have h1 : j - a.length < i - a.length := by omega
        simp [List.getElem?_append_right, hjl, List.getElem?_append_left, h1]
      · have h2 : i < j := by omega
        have h3 : (a ++ List.replicate (i - a.length) none ++ [some v]).length ≤ j := by
          simp
          omega
        rw [List.get?_eq_none.mpr h3]

theorem fetchAndDecode_failed (o : LoadOutcome) (w : World) (ho : o.failed = true) :
    (fetchAndDecode o w).2 = none ∧ (fetchAndDecode o w).1.soundBuffers = w.soundBuffers := by
  cases o with
  | fetchRejected => exact ⟨rfl, rfl⟩
  | notOk => exact ⟨rfl, rfl⟩
  | decodeError =>
    refine ⟨rfl, ?_⟩
    simp only [fetchAndDecode]
    split <;> rfl
  | decoded b => exact absurd ho (by simp [LoadOutcome.failed])

/-- C9 at a failing input: on the page whose hi-hat track holds a decoded
sample, a `changeSound(2, path)` whose response is not `ok` ends without
error and leaves that sample in place; the track does not get entry 2 of the
default table, which the `catch` callback of `loadSounds` would install. -/
theorem changeSound_failure_keeps_source :
    arrayGet sampleWorld.soundBuffers 2 = some (Sound.sample { id := 7 }) ∧
    (changeSound 2 LoadOutcome.notOk sampleWorld).map (fun x => arrayGet x.soundBuffers 2) =
      some (some (Sound.sample { id := 7 })) ∧
    soundTypes.get? 2 = some { name := "hihat", frequency := 800, decay := 0.05 } ∧
    (changeSound 2 LoadOutcome.notOk sampleWorld).map (fun x => arrayGet x.soundBuffers 2) ≠
      some ((soundTypes.get? 2).map Sound.synth) :=
  ⟨rfl, rfl, rfl, by
    intro h
    have h2 : some (some (Sound.sample { id := 7 })) =
        some (some (Sound.synth { name := "hihat", frequency := 800, decay := 0.05 })) := h
    simp at h2⟩

/-- The two load chains on failure: for every track index `i` in 0..7 and
every failed load (fetch rejected, response not `ok`, or decode error), the
chain of `loadSounds` ends without error with entry `i` of the fixed default
table as the source of track `i` and the sources of all other tracks
unchanged, while the chain of `changeSound(i, path)` ends without error with
the source of every track, track `i` included, unchanged. -/
theorem load_failure_sources (w : World) (i : Nat) (o : LoadOutcome) (hi : i < 8)
    (ho : o.failed = true) :
    (∃ p w1, soundTypes.get? i = some p ∧ loadSoundsEntry i o w = some w1 ∧
      arrayGet w1.soundBuffers i = some (Sound.synth p) ∧
      ∀ j, j ≠ i → arrayGet w1.soundBuffers j = arrayGet w.soundBuffers j) ∧
    (∃ w2, changeSound i o w = some w2 ∧ w2.soundBuffers = w.soundBuffers) ∧
    soundTypes.map (fun p => (p.name, p.frequency, p.decay)) =
      [("kick", 60, 2 / 5), ("snare", 200, 1 / 5), ("hihat", 800, 1 / 20), ("clap", 300, 1 / 10),
       ("bass", 40, 3 / 5), ("synth", 300, 3 / 10), ("fx1", 500, 1 / 5), ("fx2", 1200, 1 / 10)] := by
  obtain ⟨hnone, hbuf⟩ := fetchAndDecode_failed o w ho
  have hlen : i < soundTypes.length := by simpa [soundTypes] using hi
  have hget : soundTypes.get? i = some (soundTypes.get ⟨i, hlen⟩) := List.get?_eq_get hlen
  refine ⟨⟨soundTypes.get ⟨i, hlen⟩, ?_⟩, ?_, ?_⟩
  · refine ⟨{ (fetchAndDecode o w).1 with
        soundBuffers := arraySet (fetchAndDecode o w).1.soundBuffers i
          (Sound.synth (soundTypes.get ⟨i, hlen⟩)) }, hget, ?_, ?_, ?_⟩
    · unfold loadSoundsEntry
      rcases hfd : fetchAndDecode o w with ⟨w1, r⟩
      rw [hfd] at hnone
      simp only at hnone
      subst hnone
      simp only [createSynthSound, hget]
    · exact arrayGet_arraySet_self _ _ _
    · intro j hj
      simp only [arrayGet_arraySet_ne _ _ _ _ hj, hbuf]
  · refine ⟨(fetchAndDecode o w).1, ?_, hbuf⟩
    unfold changeSound
    rcases hfd : fetchAndDecode o w with ⟨w1, r⟩
    rw [hfd] at hnone
    simp only at hnone
    subst hnone
    rfl
  · norm_num [soundTypes]

theorem load_failure_sources_witness :
    2 < 8 ∧ LoadOutcome.notOk.failed = true ∧
    (∃ p w1, soundTypes.get? 2 = some p ∧
      loadSoundsEntry 2 LoadOutcome.notOk sampleWorld = some w1 ∧
      arrayGet w1.soundBuffers 2 = some (Sound.synth p) ∧
      ∀ j, j ≠ 2 → arrayGet w1.soundBuffers j = arrayGet sampleWorld.soundBuffers j) ∧
    (∃ w2, changeSound 2 LoadOutcome.notOk sampleWorld = some w2 ∧
      w2.soundBuffers = sampleWorld.soundBuffers) :=
  have ht := load_failure_sources sampleWorld 2 LoadOutcome.notOk (by decide) rfl
  ⟨by decide, rfl, ht.1, ht.2.1⟩

/-- C10, as stated, fails for the hi-hat entry of the table: its own branch
of `synthesizeSound` assigns the string `highpass`, which is no oscillator
type, so the oscillator keeps its initial type `sine`; neither is `square`. -/
theorem hihat_shape_not_square :
    soundTypes.get? 2 = some { name := "hihat", frequency := 800, decay := 0.05 } ∧
    oscillatorTypeAssigned "hihat" = "highpass" ∧
    oscillatorShape "hihat" = "sine" ∧
    oscillatorShape "hihat" ≠ "square" ∧
    (synthesizeSound { name := "hihat", frequency := 800, decay := 0.05 }
      freshAudioContext).nodes.get? 3 = some (AudioNode.oscillator "sine" 800 0.05) :=
  ⟨rfl, by decide, by decide, by decide, rfl⟩

/-- C10, amended: for every entry of the synthesis default table other than
the hi-hat, the oscillator `synthesizeSound` creates has type `sine` when the
sound name is kick or bass, `triangle` when it is snare or clap, and
`square` for every other name (synth, fx1, fx2), and this is the string the
source assigns. -/
theorem synthesizeSound_shape (p : SoundParams) (ctx : AudioContext) (hp : p ∈ soundTypes)
    (hh : p.name ≠ "hihat") :
    (synthesizeSound p ctx).nodes =
      ctx.nodes ++ [AudioNode.oscillator (oscillatorTypeAssigned p.name) p.frequency p.decay,
        AudioNode.gain 0.8 (some (0.001, p.decay))] ∧
    (p.name = "kick" ∨ p.name = "bass" → oscillatorTypeAssigned p.name = "sine") ∧
    (p.name = "snare" ∨ p.name = "clap" → oscillatorTypeAssigned p.name = "triangle") ∧
    (p.name ≠ "kick" ∧ p.name ≠ "bass" ∧ p.name ≠ "snare" ∧ p.name ≠ "clap" →
      oscillatorTypeAssigned p.name = "square") ∧
    (p.name = "synth" ∨ p.name = "fx1" ∨ p.name = "fx2" →
      oscillatorTypeAssigned p.name = "square") := by
  have hshape : oscillatorShape p.name = oscillatorTypeAssigned p.name := by
    simp only [soundTypes, List.mem_cons, List.mem_singleton, List.not_mem_nil, or_false] at hp
    rcases hp with rfl | rfl | rfl | rfl | rfl | rfl | rfl | rfl
    all_goals first
      | exact absurd rfl hh
      | decide
  refine ⟨?_, ?_, ?_, ?_, ?_⟩
  · simp only [synthesizeSound, hshape]
  · intro h
    simp only [oscillatorTypeAssigned, h, if_true]
  · simp only [soundTypes, List.mem_cons, List.mem_singleton, List.not_mem_nil, or_false] at hp
    rcases hp with rfl | rfl | rfl | rfl | rfl | rfl | rfl | rfl
    all_goals decide
  · simp only [soundTypes, List.mem_cons, List.mem_singleton, List.not_mem_nil, or_false] at hp
    rcases hp with rfl | rfl | rfl | rfl | rfl | rfl | rfl | rfl
    all_goals first
      | exact absurd rfl hh
      | decide
  · simp only [soundTypes, List.mem_cons, List.mem_singleton, List.not_mem_nil, or_false] at hp
    rcases hp with rfl | rfl | rfl | rfl | rfl | rfl | rfl | rfl
    all_goals decide

theorem synthesizeSound_shape_witness :
    ({ name := "synth", frequency := 300, decay := 0.3 } : SoundParams) ∈ soundTypes ∧
    "synth" ≠ "hihat" ∧ oscillatorTypeAssigned "synth" = "square" ∧
    (synthesizeSound { name := "synth", frequency := 300, decay := 0.3 } freshAudioContext).nodes =
      freshAudioContext.nodes ++ [AudioNode.oscillator "square" 300 0.3,
        AudioNode.gain 0.8 (some (0.001, 0.3))] :=
  have hm : ({ name := "synth", frequency := 300, decay := 0.3 } : SoundParams) ∈ soundTypes := by
    simp [soundTypes]
  have ht := synthesizeSound_shape { name := "synth", frequency := 300, decay := 0.3 }
    freshAudioContext hm (by decide)
  ⟨hm, by decide, ht.2.2.2.2 (Or.inl rfl), ht.1⟩

/-! ## Pattern scores -/

theorem foldl_similarityStep (a b : List Nat) (idx : List Nat) (acc : Nat × Nat) :
    idx.foldl (similarityStep a b) acc =
      (acc.1 + idx.countP (fun i => decide ((a[i]? = some 1 ∨ b[i]? = some 1) ∧
          a[i]? = b[i]?)),
        acc.2 + idx.countP (fun i => decide (a[i]? = some 1 ∨ b[i]? = some 1))) := by
  induction idx generalizing acc with
  | nil => simp
  | cons i rest ih =>
    rw [List.foldl_cons, ih]
    by_cases ht : a[i]? = some 1 ∨ b[i]? = some 1
    · by_cases he : a[i]? = b[i]?
      · simp only [similarityStep, if_pos ht, if_pos he, List.countP_cons, decide_eq_true ht,
          decide_eq_true (And.intro ht he), if_true, Prod.mk.injEq]
        omega
      · have hn : ¬((a[i]? = some 1 ∨ b[i]? = some 1) ∧ a[i]? = b[i]?) := fun h => he h.2
        simp only [similarityStep, if_pos ht, if_neg he, List.countP_cons, decide_eq_true ht,
          decide_eq_false hn, if_true, Prod.mk.injEq]
        simp only [Bool.false_eq_true, if_false]
        omega
    · have hn : ¬((a[i]? = some 1 ∨ b[i]? = some 1) ∧ a[i]? = b[i]?) := fun h => ht h.1
      simp only [similarityStep, if_neg ht, List.countP_cons, decide_eq_false ht,
        decide_eq_false hn, Bool.false_eq_true, if_false, Nat.add_zero]

/-- A quotient of two counts, the upper one at most the lower one, lies in
[0, 1]. -/
theorem ratio_mem_unit (m t : Nat) (hmt : m ≤ t) :
    (0 : ℚ) ≤ (if t > 0 then (m : ℚ) / (t : ℚ) else 0) ∧
    (if t > 0 then (m : ℚ) / (t : ℚ) else 0) ≤ 1 := by
  by_cases ht : t > 0
  · have htq : (0 : ℚ) < (t : ℚ) := by exact_mod_cast ht
    have hmq : (m : ℚ) ≤ (t : ℚ) := by exact_mod_cast hmt
    simp only [ht, if_true]
    exact ⟨div_nonneg (by exact_mod_cast Nat.zero_le m) (le_of_lt htq),
      (div_le_one htq).mpr hmq⟩
  · simp [ht]

theorem ite_pos_eq_ite_zero (t : Nat) (x : ℚ) :
    (if t > 0 then x else 0) = (if t = 0 then 0 else x) := by
  split_ifs <;> first | rfl | omega

/-- C11: for sequences `a` and `b` of length 16, `calculatePatternSimilarity(a, b)`
is `matches / total`, where `total` counts the positions at which `a` or `b`
is 1 and `matches` counts those of them at which `a` and `b` are equal; it
is 0 when `total` is 0, and it lies in [0, 1]. -/
theorem calculatePatternSimilarity_spec (a b : List Nat) (ha : a.length = 16)
    (hb : b.length = 16) :
    calculatePatternSimilarity a b =
      (if (List.range 16).countP (fun i => decide (a[i]? = some 1 ∨ b[i]? = some 1)) = 0
        then 0
        else (((List.range 16).countP (fun i => decide ((a[i]? = some 1 ∨ b[i]? = some 1) ∧
            a[i]? = b[i]?)) : Nat) : ℚ) /
          (((List.range 16).countP (fun i => decide (a[i]? = some 1 ∨ b[i]? = some 1)) :
            Nat) : ℚ)) ∧
    0 ≤ calculatePatternSimilarity a b ∧ calculatePatternSimilarity a b ≤ 1 := by
  have _ := hb
  have hle : (List.range 16).countP (fun i => decide ((a[i]? = some 1 ∨ b[i]? = some 1) ∧
      a[i]? = b[i]?)) ≤
      (List.range 16).countP (fun i => decide (a[i]? = some 1 ∨ b[i]? = some 1)) :=
    List.countP_mono_left (fun i _ h => by simp only [decide_eq_true_eq] at h ⊢; exact h.1)
  have hb := ratio_mem_unit _ _ hle
  have hsim : calculatePatternSimilarity a b =
      (if (List.range 16).countP (fun i => decide (a[i]? = some 1 ∨ b[i]? = some 1)) > 0
        then (((List.range 16).countP (fun i => decide ((a[i]? = some 1 ∨ b[i]? = some 1) ∧
            a[i]? = b[i]?)) : Nat) : ℚ) /
          (((List.range 16).countP (fun i => decide (a[i]? = some 1 ∨ b[i]? = some 1)) :
            Nat) : ℚ)
        else 0) := by
    simp only [calculatePatternSimilarity, foldl_similarityStep, ha, Nat.zero_add]
  refine ⟨?_, hsim ▸ hb.1, hsim ▸ hb.2⟩
  rw [hsim]
  exact ite_pos_eq_ite_zero _ _

theorem calculatePatternSimilarity_spec_witness :
    [1, 0, 0, 0, 1, 0, 0, 0, 1, 0, 0, 0, 1, 0, 0, 0].length = 16 ∧
    [1, 0, 0, 0, 0, 0, 0, 0, 1, 0, 0, 0, 0, 0, 0, 0].length = 16 ∧
    0 ≤ calculatePatternSimilarity [1, 0, 0, 0, 1, 0, 0, 0, 1, 0, 0, 0, 1, 0, 0, 0]
      [1, 0, 0, 0, 0, 0, 0, 0, 1, 0, 0, 0, 0, 0, 0, 0] ∧
    calculatePatternSimilarity [1, 0, 0, 0, 1, 0, 0, 0, 1, 0, 0, 0, 1, 0, 0, 0]
      [1, 0, 0, 0, 0, 0, 0, 0, 1, 0, 0, 0, 0, 0, 0, 0] ≤ 1 :=
  ⟨rfl, rfl,
    (calculatePatternSimilarity_spec [1, 0, 0, 0, 1, 0, 0, 0, 1, 0, 0, 0, 1, 0, 0, 0]
      [1, 0, 0, 0, 0, 0, 0, 0, 1, 0, 0, 0, 0, 0, 0, 0] rfl rfl).2⟩

/-- C12: for every sequence `x` with at least one 1 (of length 16 or any
other), `calculatePatternSimilarity(x, x) = 1`; for the all-zero sequence of
length 16 it is 0. -/
theorem calculatePatternSimilarity_self (x : List Nat) (h1 : 1 ∈ x) :
    calculatePatternSimilarity x x = 1 ∧
    calculatePatternSimilarity (List.replicate 16 0) (List.replicate 16 0) = 0 := by
  refine ⟨?_, rfl⟩
  have hpos : 0 < (List.range x.length).countP
      (fun i => decide (x[i]? = some 1 ∨ x[i]? = some 1)) := by
    obtain ⟨i, hi, hxi⟩ := List.getElem_of_mem h1
    refine List.countP_pos_iff.mpr ⟨i, List.mem_range.mpr hi, ?_⟩
    simp [List.getElem?_eq_getElem hi, hxi]
  simp only [calculatePatternSimilarity, foldl_similarityStep, Nat.zero_add, and_true, gt_iff_lt,
    hpos, if_true]
  have hq : ((List.range x.length).countP
      (fun i => decide (x[i]? = some 1 ∨ x[i]? = some 1)) : ℚ) ≠ 0 := by
    exact_mod_cast Nat.pos_iff_ne_zero.mp hpos
  exact div_self hq

theorem calculatePatternSimilarity_self_witness :
    1 ∈ [0, 0, 1, 0, 0, 0, 1, 0, 0, 0, 1, 0, 0, 0, 1, 0] ∧
    calculatePatternSimilarity [0, 0, 1, 0, 0, 0, 1, 0, 0, 0, 1, 0, 0, 0, 1, 0]
      [0, 0, 1, 0, 0, 0, 1, 0, 0, 0, 1, 0, 0, 0, 1, 0] = 1 :=
  ⟨by decide,
    (calculatePatternSimilarity_self [0, 0, 1, 0, 0, 0, 1, 0, 0, 0, 1, 0, 0, 0, 1, 0]
      (by decide)).1⟩

theorem supportStep_cond (a : List Nat) (i : Nat) :
    ((if i > 0 then a[i - 1]? else some 0) = some 1 ∨ a[i]? = some 1 ∨
      (if i + 1 < a.length then a[i + 1]? else some 0) = some 1) ↔
    ((0 < i ∧ a[i - 1]? = some 1) ∨ a[i]? = some 1 ∨ a[i + 1]? = some 1) := by
  have hb : (if i > 0 then a[i - 1]? else some 0) = some 1 ↔ (0 < i ∧ a[i - 1]? = some 1) := by
    by_cases h : i > 0
    · simp [h]
    · simp [h]
  have ha : (if i + 1 < a.length then a[i + 1]? else some 0) = some 1 ↔ a[i + 1]? = some 1 := by
    by_cases h : i + 1 < a.length
    · simp [h]
    · have hn : a[i + 1]? = none := List.getElem?_eq_none (Nat.le_of_not_lt h)
      simp [h, hn]
  rw [hb, ha]

theorem foldl_supportStep (a b : List Nat) (idx : List Nat) (acc : Nat × Nat) :
    idx.foldl (supportStep a b) acc =
      (acc.1 + idx.countP (fun i => decide (b[i]? = some 1 ∧
          ((0 < i ∧ a[i - 1]? = some 1) ∨ a[i]? = some 1 ∨ a[i + 1]? = some 1))),
        acc.2 + idx.countP (fun i => decide (b[i]? = some 1))) := by
  induction idx generalizing acc with
  | nil => simp
  | cons i rest ih =>
    rw [List.foldl_cons, ih]
    by_cases hm : b[i]? = some 1
    · by_cases hs : (0 < i ∧ a[i - 1]? = some 1) ∨ a[i]? = some 1 ∨ a[i + 1]? = some 1
      · have hc := (supportStep_cond a i).mpr hs
        simp only [supportStep, if_pos hm, if_pos hc, List.countP_cons, decide_eq_true hm,
          decide_eq_true (And.intro hm hs), if_true, Prod.mk.injEq]
        omega
      · have hc : ¬_ := fun h => hs ((supportStep_cond a i).mp h)
        have hn : ¬(b[i]? = some 1 ∧
            ((0 < i ∧ a[i - 1]? = some 1) ∨ a[i]? = some 1 ∨ a[i + 1]? = some 1)) :=
          fun h => hs h.2
        simp only [supportStep, if_pos hm, if_neg hc, List.countP_cons, decide_eq_true hm,
          decide_eq_false hn, if_true, Prod.mk.injEq]
        simp only [Bool.false_eq_true, if_false]
        omega
    · have hn : ¬(b[i]? = some 1 ∧
          ((0 < i ∧ a[i - 1]? = some 1) ∨ a[i]? = some 1 ∨ a[i + 1]? = some 1)) :=
        fun h => hm h.1
      simp only [supportStep, if_neg hm, List.countP_cons, decide_eq_false hm,
        decide_eq_false hn, Bool.false_eq_true, if_false, Nat.add_zero]

/-- C19: for sequences `a` (support) and `b` (main) of length 16,
`calculateSupportScore(a, b)` is the number of positions `i` with `b[i] = 1`
at which `a[i-1]`, `a[i]` or `a[i+1]` is 1 (positions outside 0..15 count as
inactive, there is no wrap-around) divided by the number of positions with
`b[i] = 1`; it is 0 when `b` has no active position and it lies in [0, 1]. -/
theorem calculateSupportScore_spec (a b : List Nat) (ha : a.length = 16) (hb : b.length = 16) :
    calculateSupportScore a b =
      (if (List.range 16).countP (fun i => decide (b[i]? = some 1)) = 0 then 0
        else (((List.range 16).countP (fun i => decide (b[i]? = some 1 ∧
            ((0 < i ∧ a[i - 1]? = some 1) ∨ a[i]? = some 1 ∨ a[i + 1]? = some 1))) : Nat) : ℚ) /
          (((List.range 16).countP (fun i => decide (b[i]? = some 1)) : Nat) : ℚ)) ∧
    a[16]? = none ∧
    0 ≤ calculateSupportScore a b ∧ calculateSupportScore a b ≤ 1 := by
  have hle : (List.range 16).countP (fun i => decide (b[i]? = some 1 ∧
      ((0 < i ∧ a[i - 1]? = some 1) ∨ a[i]? = some 1 ∨ a[i + 1]? = some 1))) ≤
      (List.range 16).countP (fun i => decide (b[i]? = some 1)) :=
    List.countP_mono_left (fun i _ h => by simp only [decide_eq_true_eq] at h ⊢; exact h.1)
  have hr := ratio_mem_unit _ _ hle
  have hsim : calculateSupportScore a b =
      (if (List.range 16).countP (fun i => decide (b[i]? = some 1)) > 0
        then (((List.range 16).countP (fun i => decide (b[i]? = some 1 ∧
            ((0 < i ∧ a[i - 1]? = some 1) ∨ a[i]? = some 1 ∨ a[i + 1]? = some 1))) : Nat) : ℚ) /
          (((List.range 16).countP (fun i => decide (b[i]? = some 1)) : Nat) : ℚ)
        else 0) := by
    simp only [calculateSupportScore, foldl_supportStep, hb, Nat.zero_add]
  refine ⟨?_, List.getElem?_eq_none (Nat.le_of_eq ha), hsim ▸ hr.1, hsim ▸ hr.2⟩
  rw [hsim]
  exact ite_pos_eq_ite_zero _ _

theorem calculateSupportScore_spec_witness :
    [0, 1, 0, 0, 0, 0, 0, 0, 0, 0, 0, 0, 0, 0, 0, 1].length = 16 ∧
    [1, 0, 0, 0, 1, 0, 0, 0, 1, 0, 0, 0, 1, 0, 0, 1].length = 16 ∧
    0 ≤ calculateSupportScore [0, 1, 0, 0, 0, 0, 0, 0, 0, 0, 0, 0, 0, 0, 0, 1]
      [1, 0, 0, 0, 1, 0, 0, 0, 1, 0, 0, 0, 1, 0, 0, 1] ∧
    calculateSupportScore [0, 1, 0, 0, 0, 0, 0, 0, 0, 0, 0, 0, 0, 0, 0, 1]
      [1, 0, 0, 0, 1, 0, 0, 0, 1, 0, 0, 0, 1, 0, 0, 1] ≤ 1 :=
  ⟨rfl, rfl,
    (calculateSupportScore_spec [0, 1, 0, 0, 0, 0, 0, 0, 0, 0, 0, 0, 0, 0, 0, 1]
      [1, 0, 0, 0, 1, 0, 0, 0, 1, 0, 0, 0, 1, 0, 0, 1] rfl rfl).2.2⟩

theorem calculatePatternSimilarity_mem_unit (a b : List Nat) :
    0 ≤ calculatePatternSimilarity a b ∧ calculatePatternSimilarity a b ≤ 1 := by
  have hle : (List.range a.length).countP
      (fun i => decide ((a[i]? = some 1 ∨ b[i]? = some 1) ∧ a[i]? = b[i]?)) ≤
      (List.range a.length).countP (fun i => decide (a[i]? = some 1 ∨ b[i]? = some 1)) :=
    List.countP_mono_left (fun i _ h => by simp only [decide_eq_true_eq] at h ⊢; exact h.1)
  have hr := ratio_mem_unit _ _ hle
  have hsim : calculatePatternSimilarity a b =
      (if (List.range a.length).countP
          (fun i => decide (a[i]? = some 1 ∨ b[i]? = some 1)) > 0
        then (((List.range a.length).countP
            (fun i => decide ((a[i]? = some 1 ∨ b[i]? = some 1) ∧ a[i]? = b[i]?)) : Nat) : ℚ) /
          (((List.range a.length).countP
            (fun i => decide (a[i]? = some 1 ∨ b[i]? = some 1)) : Nat) : ℚ)
        else 0) := by
    simp only [calculatePatternSimilarity, foldl_similarityStep, Nat.zero_add]
  exact ⟨hsim ▸ hr.1, hsim ▸ hr.2⟩

/-- The best-match loop over any list of templates either keeps the initial
match, no template scoring above it, or ends on the first template of
highest score. -/
theorem foldl_bestMatchStep (row : List Nat) (es : List (String × List Nat))
    (b0 : PatternMatch) :
    (es.foldl (bestMatchStep row) b0 = b0 ∧
      ∀ e ∈ es, calculatePatternSimilarity row e.2 ≤ b0.score) ∨
    ∃ pre e post, es = pre ++ e :: post ∧
      es.foldl (bestMatchStep row) b0 =
        { name := e.1, score := calculatePatternSimilarity row e.2 } ∧
      b0.score < calculatePatternSimilarity row e.2 ∧
      (∀ x ∈ pre, calculatePatternSimilarity row x.2 < calculatePatternSimilarity row e.2) ∧
      (∀ x ∈ post, calculatePatternSimilarity row x.2 ≤ calculatePatternSimilarity row e.2) := by
  induction es generalizing b0 with
  | nil => exact Or.inl ⟨rfl, fun e he => absurd he (List.not_mem_nil e)⟩
  | cons x rest ih =>
    rw [List.foldl_cons]
    by_cases hx : calculatePatternSimilarity row x.2 > b0.score
    · have hstep : bestMatchStep row b0 x =
          { name := x.1, score := calculatePatternSimilarity row x.2 } := by
        simp only [bestMatchStep, if_pos hx]
      rw [hstep]
      rcases ih { name := x.1, score := calculatePatternSimilarity row x.2 } with
        ⟨hr, hall⟩ | ⟨pre, e, post, hes, hr, hlt, hpre, hpost⟩
      · exact Or.inr ⟨[], x, rest, rfl, hr, hx,
          fun y hy => absurd hy (List.not_mem_nil y), hall⟩
      · refine Or.inr ⟨x :: pre, e, post, by rw [hes]; rfl, hr, lt_trans hx hlt, ?_, hpost⟩
        intro y hy
        rcases List.mem_cons.mp hy with rfl | hy
        · exact hlt
        · exact hpre y hy
    · have hstep : bestMatchStep row b0 x = b0 := by
        simp only [bestMatchStep, if_neg hx]
      have hxle : calculatePatternSimilarity row x.2 ≤ b0.score := not_lt.mp hx
      rw [hstep]
      rcases ih b0 with ⟨hr, hall⟩ | ⟨pre, e, post, hes, hr, hlt, hpre, hpost⟩
      · refine Or.inl ⟨hr, ?_⟩
        intro y hy
        rcases List.mem_cons.mp hy with rfl | hy
        · exact hxle
        · exact hall y hy
      · refine Or.inr ⟨x :: pre, e, post, by rw [hes]; rfl, hr, hlt, ?_, hpost⟩
        intro y hy
        rcases List.mem_cons.mp hy with rfl | hy
        · exact lt_of_le_of_lt hxle hlt
        · exact hpre y hy

/-- C13: for every row, `identifyRhythmPattern(row)` returns the name of a
template of the table whose similarity to the row is the maximum over the
eight templates, the returned score is that maximum, and every template
earlier in the enumeration order has a strictly smaller similarity, so among
several templates attaining the maximum the earliest is returned. -/
theorem identifyRhythmPattern_first_max (row : List Nat) :
    ∃ pre e post, rhythmicPatterns = pre ++ e :: post ∧
      identifyRhythmPattern row =
        { name := e.1, score := calculatePatternSimilarity row e.2 } ∧
      (∀ x ∈ rhythmicPatterns,
        calculatePatternSimilarity row x.2 ≤ (identifyRhythmPattern row).score) ∧
      (∀ x ∈ pre, calculatePatternSimilarity row x.2 < (identifyRhythmPattern row).score) ∧
      rhythmicPatterns.map (fun x => x.1) =
        ["four-on-floor", "backbeat", "offbeat", "downbeat", "eighth", "sixteenth",
          "syncopated", "fill"] := by
  rcases foldl_bestMatchStep row rhythmicPatterns { name := "", score := -1 } with
    ⟨_, hall⟩ | ⟨pre, e, post, hes, hr, _, hpre, hpost⟩
  · have h0 := (calculatePatternSimilarity_mem_unit row
      [1, 0, 0, 0, 1, 0, 0, 0, 1, 0, 0, 0, 1, 0, 0, 0]).1
    have h1 := hall ("four-on-floor", [1, 0, 0, 0, 1, 0, 0, 0, 1, 0, 0, 0, 1, 0, 0, 0])
      (by simp [rhythmicPatterns])
    simp only at h1
    linarith
  · have hid : identifyRhythmPattern row =
        { name := e.1, score := calculatePatternSimilarity row e.2 } := hr
    refine ⟨pre, e, post, hes, hid, ?_, ?_, rfl⟩
    · intro x hx
      rw [hid, hes] at *
      rcases List.mem_append.mp hx with hx | hx
      · exact le_of_lt (hpre x hx)
      · rcases List.mem_cons.mp hx with rfl | hx
        · exact le_refl _
        · exact hpost x hx
    · intro x hx
      rw [hid]
      exact hpre x hx

/-! ## Recommendations -/

theorem foldl_set_length (row : List (Fin 16)) (init : List Nat) :
    (row.foldl (fun binary col => binary.set col.val 1) init).length = init.length := by
  induction row generalizing init with
  | nil => rfl
  | cons c rest ih => rw [List.foldl_cons, ih, List.length_set]

theorem toBinary_length (row : List (Fin 16)) : (toBinary row).length = 16 := by
  unfold toBinary
  rw [foldl_set_length, List.length_replicate]

theorem one_mem_set (b : List Nat) (k : Nat) (h : 1 ∈ b) : 1 ∈ b.set k 1 := by
  obtain ⟨j, hj, hbj⟩ := List.getElem_of_mem h
  refine List.mem_iff_getElem.mpr ⟨j, by rw [List.length_set]; exact hj, ?_⟩
  rw [List.getElem_set]
  split
  · rfl
  · exact hbj

theorem one_mem_foldl_set (row : List (Fin 16)) (init : List Nat) (h : 1 ∈ init) :
    1 ∈ row.foldl (fun binary col => binary.set col.val 1) init := by
  induction row generalizing init with
  | nil => exact h
  | cons c rest ih =>
    rw [List.foldl_cons]
    exact ih _ (one_mem_set init c.val h)

theorem hasNote_iff (row : List Nat) : hasNote row = true ↔ 1 ∈ row := by
  simp [hasNote, List.any_eq_true]

/-- A row of the grid has a 1 in its binary representation exactly when it
has an active column. -/
theorem hasNote_toBinary (row : List (Fin 16)) : hasNote (toBinary row) = true ↔ row ≠ [] := by
  rw [hasNote_iff]
  cases row with
  | nil => simp [toBinary]
  | cons c rest =>
    simp only [ne_eq, reduceCtorEq, not_false_eq_true, iff_true]
    unfold toBinary
    rw [List.foldl_cons]
    refine one_mem_foldl_set rest _ ?_
    exact List.mem_iff_getElem.mpr
      ⟨c.val, by rw [List.length_set, List.length_replicate]; exact c.isLt, by simp⟩

theorem rhythmicPattern_table :
    rhythmicPattern "four-on-floor" = some [1, 0, 0, 0, 1, 0, 0, 0, 1, 0, 0, 0, 1, 0, 0, 0] ∧
    rhythmicPattern "backbeat" = some [0, 0, 0, 0, 1, 0, 0, 0, 0, 0, 0, 0, 1, 0, 0, 0] ∧
    rhythmicPattern "offbeat" = some [0, 0, 1, 0, 0, 0, 1, 0, 0, 0, 1, 0, 0, 0, 1, 0] ∧
    rhythmicPattern "downbeat" = some [1, 0, 0, 0, 0, 0, 0, 0, 1, 0, 0, 0, 0, 0, 0, 0] ∧
    rhythmicPattern "eighth" = some [1, 0, 1, 0, 1, 0, 1, 0, 1, 0, 1, 0, 1, 0, 1, 0] ∧
    rhythmicPattern "sixteenth" = some [1, 1, 1, 1, 1, 1, 1, 1, 1, 1, 1, 1, 1, 1, 1, 1] ∧
    rhythmicPattern "syncopated" = some [0, 0, 1, 0, 1, 0, 0, 0, 0, 0, 1, 0, 1, 0, 0, 0] ∧
    rhythmicPattern "fill" = some [0, 0, 0, 0, 0, 0, 0, 0, 0, 0, 0, 0, 1, 1, 1, 1] := by
  decide

/-- For each of the seven track types the `switch` of
`generateTrackRecommendation` yields a pattern, with a relevance in
[0.6, 0.95]; the pattern has 16 steps when the kick row has. -/
theorem suggestPattern_some (t : String) (ch : Characteristics)
    (ht : t = "kicks" ∨ t = "snares" ∨ t = "hi_hats" ∨ t = "percussion" ∨ t = "bass" ∨
      t = "synth" ∨ t = "fx") :
    ∃ pat name rel, suggestPattern t ch = (some pat, name, rel) ∧
      (0.6 : ℚ) ≤ rel ∧ rel ≤ 0.95 ∧
      ((ch.binaryPattern 0).length = 16 → pat.length = 16) := by
  obtain ⟨h1, h2, h3, h4, h5, h6, h7, h8⟩ := rhythmicPattern_table
  rcases ht with rfl | rfl | rfl | rfl | rfl | rfl | rfl
  all_goals
    simp only [suggestPattern, h1, h2, h3, h4, h5, h6, h7, h8]
    simp only [String.reduceEq, if_true, if_false]
    try split_ifs
    all_goals
      refine ⟨_, _, _, rfl, by norm_num, by norm_num, fun h => ?_⟩
      first
        | rfl
        | exact h

theorem trackType_of_row (j : Fin 8) :
    ∃ t, trackTypes[j.val]? = some t ∧
      (t = "kicks" ∨ t = "snares" ∨ t = "hi_hats" ∨ t = "percussion" ∨ t = "bass" ∨
        t = "synth" ∨ t = "fx") := by
  fin_cases j
  all_goals
    refine ⟨_, rfl, ?_⟩
    decide

theorem soundCharacteristics_lookup (t : String)
    (ht : t = "kicks" ∨ t = "snares" ∨ t = "hi_hats" ∨ t = "percussion" ∨ t = "bass" ∨
      t = "synth" ∨ t = "fx") :
    ∃ commonPatterns, soundCharacteristics.lookup t = some commonPatterns := by
  rcases ht with rfl | rfl | rfl | rfl | rfl | rfl | rfl
  all_goals exact ⟨_, rfl⟩

/-- The first loop of `generateRecommendations` pushes, for every row it
visits, a recommendation of type `track` for that row, with a pattern and a
relevance in [0.6, 0.95]. -/
theorem emptyTrackBody_some (j : Fin 8) (ch : Characteristics) :
    ∃ t pat name rel,
      emptyTrackBody ch j =
        some { type := RecType.track, trackType := some t, trackIndex := some j.val,
               pattern := some pat, patternName := some name, genre := none,
               relevance := rel } ∧
      (0.6 : ℚ) ≤ rel ∧ rel ≤ 0.95 ∧
      ((ch.binaryPattern 0).length = 16 → pat.length = 16) := by
  obtain ⟨t, htt, ht⟩ := trackType_of_row j
  obtain ⟨cp, hl⟩ := soundCharacteristics_lookup t ht
  obtain ⟨pat, name, rel, hs, h1, h2, h3⟩ := suggestPattern_some t ch ht
  exact ⟨t, pat, name, rel,
    by simp only [emptyTrackBody, htt, generateTrackRecommendation, hl, hs], h1, h2, h3⟩

theorem filter_emptyTrackBody (ch : Characteristics) (l : List (Fin 8)) (hnd : l.Nodup)
    (i : Fin 8) :
    (l.filterMap (emptyTrackBody ch)).filter
        (fun x => decide (x.type = RecType.track ∧ x.trackIndex = some i.val)) =
      if i ∈ l then (emptyTrackBody ch i).toList else [] := by
  induction l with
  | nil => simp
  | cons j rest ih =>
    obtain ⟨t, pat, name, rel, hj, _, _, _⟩ := emptyTrackBody_some j ch
    have hnd2 := List.nodup_cons.mp hnd
    rw [List.filterMap_cons_some hj, List.filter_cons, ih hnd2.2]
    by_cases hji : j = i
    · subst hji
      simp [hnd2.1, hj]
    · have hv : ¬(j.val = i.val) := fun h => hji (Fin.ext h)
      have hij : ¬(i = j) := fun h => hji h.symm
      simp [hv, hij]

theorem improveBody_some (ch : Characteristics) (p : Grid) (i : Fin 8) (r : Recommendation)
    (h : improveBody ch p i = some r) :
    r.type = RecType.improve ∧ r.trackIndex = some i.val ∧ (p i).length ≠ 0 ∧
      (ch.rhythmPatterns i).score < 0.5 := by
  unfold improveBody at h
  split at h
  · exact absurd h (by simp)
  · rename_i hlen
    split at h
    · rename_i hscore
      split at h
      · exact absurd h (by simp)
      · rename_i t _
        unfold generateImprovementRecommendation at h
        split at h
        · exact absurd h (by simp)
        · simp only [] at h
          split at h
          · exact absurd h (by simp)
          · simp only [Option.some.injEq] at h
            subst h
            exact ⟨rfl, rfl, hlen, hscore⟩
    · exact absurd h (by simp)

theorem improveCandidates_type (ch : Characteristics) (p : Grid) (r : Recommendation)
    (h : r ∈ improveCandidates ch p) :
    ∃ i, improveBody ch p i = some r ∧ r.type = RecType.improve := by
  obtain ⟨i, _, hi⟩ := List.mem_filterMap.mp h
  exact ⟨i, hi, (improveBody_some ch p i r hi).1⟩

theorem filter_track_improveCandidates (ch : Characteristics) (p : Grid) (i : Fin 8) :
    (improveCandidates ch p).filter
      (fun x => decide (x.type = RecType.track ∧ x.trackIndex = some i.val)) = [] := by
  refine List.filter_eq_nil_iff.mpr (fun r hr => ?_)
  obtain ⟨_, _, ht⟩ := improveCandidates_type ch p r hr
  simp [ht]

theorem mem_emptyTracks (p : Grid) (i : Fin 8) :
    i ∈ (identifyPatternCharacteristics p).emptyTracks ↔ p i = [] := by
  simp [identifyPatternCharacteristics, List.mem_filter, List.mem_finRange]

theorem emptyTracks_nodup (p : Grid) :
    (identifyPatternCharacteristics p).emptyTracks.Nodup := by
  have h : (identifyPatternCharacteristics p).emptyTracks =
      (List.finRange 8).filter (fun i => (p i).length == 0) := rfl
  rw [h]
  exact (List.nodup_finRange 8).filter _

/-- C16: for every grid and every row `i`, the candidate list built by
`generateRecommendations` holds, when row `i` is empty, exactly one
recommendation of type `track` for row `i`, which carries a pattern of 16
steps and a relevance in [0.6, 0.95], and holds none when row `i` is not
empty. -/
theorem track_candidate_iff_empty (p : Grid) (i : Fin 8) :
    if p i = [] then
      ∃ r pat, (candidates (identifyPatternCharacteristics p) p).filter
          (fun x => decide (x.type = RecType.track ∧ x.trackIndex = some i.val)) = [r] ∧
        r.pattern = some pat ∧ pat.length = 16 ∧ (0.6 : ℚ) ≤ r.relevance ∧ r.relevance ≤ 0.95
    else
      (candidates (identifyPatternCharacteristics p) p).filter
        (fun x => decide (x.type = RecType.track ∧ x.trackIndex = some i.val)) = [] := by
  have hfilter : (candidates (identifyPatternCharacteristics p) p).filter
      (fun x => decide (x.type = RecType.track ∧ x.trackIndex = some i.val)) =
      if p i = [] then (emptyTrackBody (identifyPatternCharacteristics p) i).toList else [] := by
    have htrack := filter_emptyTrackBody (identifyPatternCharacteristics p) _
      (emptyTracks_nodup p) i
    have himp := filter_track_improveCandidates (identifyPatternCharacteristics p) p i
    have hgenre : [generateGenreBasedRecommendation (identifyPatternCharacteristics p)].filter
        (fun x => decide (x.type = RecType.track ∧ x.trackIndex = some i.val)) = [] := by
      simp [generateGenreBasedRecommendation]
    simp only [mem_emptyTracks] at htrack
    unfold candidates trackCandidates
    simp only []
    split
    · rw [List.filter_append, List.filter_append, htrack, himp, hgenre, List.append_nil,
        List.append_nil]
    · rw [List.filter_append, htrack, himp, List.append_nil]
  rw [hfilter]
  obtain ⟨t, pat, name, rel, hj, h1, h2, h3⟩ :=
    emptyTrackBody_some i (identifyPatternCharacteristics p)
  split
  · exact ⟨_, pat, by rw [hj]; rfl, rfl, h3 (toBinary_length (p 0)), h1, h2⟩
  · rfl

theorem mem_candidates_of_mem_trackCandidates (ch : Characteristics) (p : Grid)
    (r : Recommendation) (h : r ∈ trackCandidates ch) : r ∈ candidates ch p := by
  unfold candidates
  simp only []
  split
  · exact List.mem_append_left _ (List.mem_append_left _ h)
  · exact List.mem_append_left _ h

theorem mem_candidates_of_mem_improveCandidates (ch : Characteristics) (p : Grid)
    (r : Recommendation) (h : r ∈ improveCandidates ch p) : r ∈ candidates ch p := by
  unfold candidates
  simp only []
  split
  · exact List.mem_append_left _ (List.mem_append_right _ h)
  · exact List.mem_append_right _ h

theorem hihat_suggestion_eq (ch : Characteristics) :
    emptyTrackBody ch 2 =
      some { type := RecType.track, trackType := some "hi_hats", trackIndex := some 2,
             pattern := some (if hasNote (ch.binaryPattern 0) ∧ hasNote (ch.binaryPattern 1)
               then [1, 1, 1, 1, 1, 1, 1, 1, 1, 1, 1, 1, 1, 1, 1, 1]
               else if hasNote (ch.binaryPattern 0)
                 then [1, 0, 1, 0, 1, 0, 1, 0, 1, 0, 1, 0, 1, 0, 1, 0]
                 else [0, 0, 1, 0, 0, 0, 1, 0, 0, 0, 1, 0, 0, 0, 1, 0]),
             patternName := some (if hasNote (ch.binaryPattern 0) ∧ hasNote (ch.binaryPattern 1)
               then "sixteenth notes"
               else if hasNote (ch.binaryPattern 0) then "eighth notes" else "offbeat"),
             genre := none,
             relevance := if hasNote (ch.binaryPattern 0) ∧ hasNote (ch.binaryPattern 1)
               then 0.95 else if hasNote (ch.binaryPattern 0) then 0.85 else 0.7 } := by
  obtain ⟨_, _, h3, _, h5, h6, _, _⟩ := rhythmicPattern_table
  have ht : trackTypes[(2 : Fin 8).val]? = some "hi_hats" := rfl
  have hl : soundCharacteristics.lookup "hi_hats" = some ["eighth", "sixteenth", "offbeat"] := rfl
  simp only [emptyTrackBody, ht, generateTrackRecommendation, hl, suggestPattern, h3, h5, h6]
  simp only [String.reduceEq, if_true, if_false]
  split_ifs <;> rfl

/-- C17: for every grid whose hi-hat row (row 2) is empty, the hi-hat
suggestion among the candidates is the sixteenth template exactly when the
kick row (0) and the snare row (1) are both non-empty, and it is the eighth
template with relevance 0.85 when the kick row is non-empty and the snare row
is empty; for the grid whose only active cells are the four-on-floor kick,
the list `generateRecommendations` returns contains the hi-hat suggestion
with the eighth pattern and relevance 0.85. -/
theorem hihat_suggestion (p : Grid) (h2 : p 2 = []) :
    ∃ r, emptyTrackBody (identifyPatternCharacteristics p) 2 = some r ∧
      r ∈ candidates (identifyPatternCharacteristics p) p ∧
      r.type = RecType.track ∧ r.trackIndex = some 2 ∧
      (r.pattern = some [1, 1, 1, 1, 1, 1, 1, 1, 1, 1, 1, 1, 1, 1, 1, 1] ↔
        (p 0 ≠ [] ∧ p 1 ≠ [])) ∧
      (p 0 ≠ [] ∧ p 1 = [] →
        r.pattern = some [1, 0, 1, 0, 1, 0, 1, 0, 1, 0, 1, 0, 1, 0, 1, 0] ∧
        r.relevance = 0.85) ∧
      ({ type := RecType.track, trackType := some "hi_hats", trackIndex := some 2,
         pattern := some [1, 0, 1, 0, 1, 0, 1, 0, 1, 0, 1, 0, 1, 0, 1, 0],
         patternName := some "eighth notes", genre := none, relevance := 0.85 } :
        Recommendation) ∈ recommend kickOnlyGrid := by
  have heq := hihat_suggestion_eq (identifyPatternCharacteristics p)
  have hk : hasNote ((identifyPatternCharacteristics p).binaryPattern 0) = true ↔ p 0 ≠ [] :=
    hasNote_toBinary (p 0)
  have hs : hasNote ((identifyPatternCharacteristics p).binaryPattern 1) = true ↔ p 1 ≠ [] :=
    hasNote_toBinary (p 1)
  refine ⟨_, heq, ?_, rfl, rfl, ?_, ?_, by decide!⟩
  · refine mem_candidates_of_mem_trackCandidates _ p _ ?_
    exact List.mem_filterMap.mpr ⟨2, (mem_emptyTracks p 2).mpr h2, heq⟩
  · simp only [hk, hs]
    by_cases h0 : p 0 = [] <;> by_cases h1 : p 1 = [] <;> simp [h0, h1]
  · rintro ⟨h0, h1⟩
    simp only [hk, hs]
    simp [h0, h1]

theorem hihat_suggestion_witness :
    kickOnlyGrid 2 = [] ∧
    ∃ r, emptyTrackBody (identifyPatternCharacteristics kickOnlyGrid) 2 = some r ∧
      r ∈ candidates (identifyPatternCharacteristics kickOnlyGrid) kickOnlyGrid ∧
      r.type = RecType.track ∧ r.trackIndex = some 2 ∧
      (r.pattern = some [1, 1, 1, 1, 1, 1, 1, 1, 1, 1, 1, 1, 1, 1, 1, 1] ↔
        (kickOnlyGrid 0 ≠ [] ∧ kickOnlyGrid 1 ≠ [])) ∧
      (kickOnlyGrid 0 ≠ [] ∧ kickOnlyGrid 1 = [] →
        r.pattern = some [1, 0, 1, 0, 1, 0, 1, 0, 1, 0, 1, 0, 1, 0, 1, 0] ∧
        r.relevance = 0.85) ∧
      ({ type := RecType.track, trackType := some "hi_hats", trackIndex := some 2,
         pattern := some [1, 0, 1, 0, 1, 0, 1, 0, 1, 0, 1, 0, 1, 0, 1, 0],
         patternName := some "eighth notes", genre := none, relevance := 0.85 } :
        Recommendation) ∈ recommend kickOnlyGrid :=
  ⟨rfl, hihat_suggestion kickOnlyGrid rfl⟩

theorem filterMap_trackIndex_sublist (f : Fin 8 → Option Recommendation)
    (hf : ∀ j r, f j = some r → r.trackIndex = some j.val) (l : List (Fin 8)) :
    ((l.filterMap f).map (fun r => r.trackIndex)).Sublist (l.map (fun j => some j.val)) := by
  induction l with
  | nil => exact List.Sublist.slnil
  | cons j rest ih =>
    cases hj : f j with
    | none =>
      rw [List.filterMap_cons_none hj, List.map_cons]
      exact List.Sublist.cons _ ih
    | some r =>
      rw [List.filterMap_cons_some hj, List.map_cons, List.map_cons, hf j r hj]
      exact List.Sublist.cons₂ _ ih

theorem trackCandidates_rows (p : Grid) :
    ((trackCandidates (identifyPatternCharacteristics p)).map
      (fun r => r.trackIndex)).Sublist ((List.range 8).map some) := by
  have hf : ∀ j r, emptyTrackBody (identifyPatternCharacteristics p) j = some r →
      r.trackIndex = some j.val := by
    intro j r hr
    obtain ⟨t, pat, name, rel, hj, _⟩ := emptyTrackBody_some j (identifyPatternCharacteristics p)
    rw [hj] at hr
    simp only [Option.some.injEq] at hr
    rw [← hr]
  have h1 := filterMap_trackIndex_sublist _ hf (identifyPatternCharacteristics p).emptyTracks
  have h2 : (identifyPatternCharacteristics p).emptyTracks.Sublist (List.finRange 8) :=
    List.filter_sublist _
  have h3 : (List.finRange 8).map (fun j : Fin 8 => some j.val) = (List.range 8).map some := by
    decide
  exact h3 ▸ h1.trans (h2.map _)

theorem improveCandidates_rows (ch : Characteristics) (p : Grid) :
    ((improveCandidates ch p).map (fun r => r.trackIndex)).Sublist
      ((List.range 8).map some) := by
  have hf : ∀ j r, improveBody ch p j = some r → r.trackIndex = some j.val :=
    fun j r hr => (improveBody_some ch p j r hr).2.1
  have h1 := filterMap_trackIndex_sublist _ hf (List.finRange 8)
  have h3 : (List.finRange 8).map (fun j : Fin 8 => some j.val) = (List.range 8).map some := by
    decide
  exact h3 ▸ h1

/-- C14: for every grid the list `generateRecommendations` returns has at
most 3 elements and is ordered by non-increasing relevance; together with a
remainder `rest` of candidates it is a rearrangement of the candidates
generated for the grid, every candidate of `rest` has relevance at most that
of every returned one, and two candidates whose relevance does not increase
from the first to the second (equal relevance included) keep their
generation order.  The generation order is: suggestions for empty rows by
ascending row, then improvements by ascending row, then the genre hint.
Being a function of the grid, the list is the same for the same grid. -/
theorem generateRecommendations_top3 (p : Grid) :
    (recommend p).length ≤ 3 ∧
    (recommend p).Pairwise (fun a b => b.relevance ≤ a.relevance) ∧
    (∃ rest, (recommend p ++ rest).Perm (candidates (identifyPatternCharacteristics p) p) ∧
      (∀ a ∈ recommend p, ∀ b ∈ rest, b.relevance ≤ a.relevance) ∧
      (∀ a b, List.Sublist [a, b] (candidates (identifyPatternCharacteristics p) p) →
        b.relevance ≤ a.relevance → List.Sublist [a, b] (recommend p ++ rest)) ∧
      (rest = [] ∨ (recommend p).length = 3)) ∧
    candidates (identifyPatternCharacteristics p) p =
      trackCandidates (identifyPatternCharacteristics p) ++
        improveCandidates (identifyPatternCharacteristics p) p ++
        (if (trackCandidates (identifyPatternCharacteristics p) ++
            improveCandidates (identifyPatternCharacteristics p) p).length < 2
          then [generateGenreBasedRecommendation (identifyPatternCharacteristics p)] else []) ∧
    ((trackCandidates (identifyPatternCharacteristics p)).map
      (fun r => r.trackIndex)).Sublist ((List.range 8).map some) ∧
    ((improveCandidates (identifyPatternCharacteristics p) p).map
      (fun r => r.trackIndex)).Sublist ((List.range 8).map some) := by
  haveI : IsTotal Recommendation relevanceGe := ⟨fun a b => le_total b.relevance a.relevance⟩
  haveI : IsTrans Recommendation relevanceGe := ⟨fun a b c hab hbc => le_trans hbc hab⟩
  have hsorted : (sortByRelevance (candidates (identifyPatternCharacteristics p) p)).Pairwise
      relevanceGe := List.sorted_insertionSort relevanceGe _
  have hsplit : recommend p ++
      (sortByRelevance (candidates (identifyPatternCharacteristics p) p)).drop 3 =
      sortByRelevance (candidates (identifyPatternCharacteristics p) p) :=
    List.take_append_drop 3 _
  refine ⟨List.length_take_le 3 _, ?_,
    ⟨(sortByRelevance (candidates (identifyPatternCharacteristics p) p)).drop 3,
      ?_, ?_, ?_, ?_⟩, ?_,
    trackCandidates_rows p, improveCandidates_rows _ p⟩
  · exact hsorted.sublist (List.take_sublist 3 _)
  · rw [hsplit]
    exact List.perm_insertionSort relevanceGe _
  · rw [← hsplit] at hsorted
    exact (List.pairwise_append.mp hsorted).2.2
  · intro a b hab hrel
    rw [hsplit]
    exact List.pair_sublist_insertionSort hrel hab
  · by_cases hlen : (sortByRelevance (candidates (identifyPatternCharacteristics p) p)).length ≤ 3
    · exact Or.inl (List.drop_eq_nil_of_le hlen)
    · right
      show ((sortByRelevance (candidates (identifyPatternCharacteristics p) p)).take 3).length = 3
      rw [List.length_take]
      omega
  · unfold candidates
    simp only []
    split
    · rfl
    · rw [List.append_nil]

theorem lookup_mem {β : Type} (l : List (String × β)) (n : String) (t : β)
    (h : l.lookup n = some t) : (n, t) ∈ l := by
  induction l with
  | nil => simp [List.lookup] at h
  | cons e rest ih =>
    obtain ⟨k, b⟩ := e
    rw [List.lookup_cons] at h
    by_cases hk : (n == k) = true
    · rw [hk] at h
      simp only [Option.some.injEq] at h
      have hnk : n = k := by simpa using hk
      rw [hnk, h]
      exact List.mem_cons_self _ _
    · have hk2 : (n == k) = false := by simpa using hk
      rw [hk2] at h
      exact List.mem_cons_of_mem _ (ih h)

/-- No template is more similar to a row than the best match
`identifyRhythmPattern` reports. -/
theorem identifyRhythmPattern_max (row : List Nat) (x : String × List Nat)
    (hx : x ∈ rhythmicPatterns) :
    calculatePatternSimilarity row x.2 ≤ (identifyRhythmPattern row).score := by
  rcases foldl_bestMatchStep row rhythmicPatterns { name := "", score := -1 } with
    ⟨hr, hall⟩ | ⟨pre, e, post, hes, hr, _, hpre, hpost⟩
  · have hid : identifyRhythmPattern row = { name := "", score := -1 } := hr
    rw [hid]
    exact hall x hx
  · have hid : identifyRhythmPattern row =
        { name := e.1, score := calculatePatternSimilarity row e.2 } := hr
    rw [hid]
    rw [hes] at hx
    rcases List.mem_append.mp hx with hx | hx
    · exact le_of_lt (hpre x hx)
    · rcases List.mem_cons.mp hx with rfl | hx
      · exact le_refl _
      · exact hpost x hx

/-- The search of `generateImprovementRecommendation` over any list of names:
its score is at least the initial one and at least the similarity of every
name that has a template, and it ends on the initial pair or on a name of the
list with its similarity. -/
theorem foldl_improveStep (cur : List Nat) (names : List String) (b0 : String × ℚ) :
    b0.2 ≤ (names.foldl (improveStep cur) b0).2 ∧
    (∀ n ∈ names, ∀ t, rhythmicPattern n = some t →
      calculatePatternSimilarity cur t ≤ (names.foldl (improveStep cur) b0).2) ∧
    (names.foldl (improveStep cur) b0 = b0 ∨
      ∃ n ∈ names, ∃ t, rhythmicPattern n = some t ∧
        names.foldl (improveStep cur) b0 = (n, calculatePatternSimilarity cur t)) := by
  induction names generalizing b0 with
  | nil => exact ⟨le_refl _, fun n hn => absurd hn (List.not_mem_nil n), Or.inl rfl⟩
  | cons x rest ih =>
    rw [List.foldl_cons]
    obtain ⟨h1, h2, h3⟩ := ih (improveStep cur b0 x)
    have hstep : b0.2 ≤ (improveStep cur b0 x).2 ∧
        (∀ t, rhythmicPattern x = some t →
          calculatePatternSimilarity cur t ≤ (improveStep cur b0 x).2) ∧
        (improveStep cur b0 x = b0 ∨
          ∃ t, rhythmicPattern x = some t ∧
            improveStep cur b0 x = (x, calculatePatternSimilarity cur t)) := by
      cases hx : rhythmicPattern x with
      | none =>
        have hs : improveStep cur b0 x = b0 := by simp only [improveStep, hx]
        rw [hs]
        exact ⟨le_refl _, fun t ht => absurd ht (by simp), Or.inl rfl⟩
      | some u =>
        by_cases hgt : calculatePatternSimilarity cur u > b0.2
        · have hs : improveStep cur b0 x = (x, calculatePatternSimilarity cur u) := by
            simp only [improveStep, hx, if_pos hgt]
          rw [hs]
          refine ⟨le_of_lt hgt, fun t ht => ?_, Or.inr ⟨u, rfl, rfl⟩⟩
          simp only [Option.some.injEq] at ht
          rw [← ht]
        · have hs : improveStep cur b0 x = b0 := by
            simp only [improveStep, hx, if_neg hgt]
          rw [hs]
          refine ⟨le_refl _, fun t ht => ?_, Or.inl rfl⟩
          simp only [Option.some.injEq] at ht
          rw [← ht]
          exact not_lt.mp hgt
    obtain ⟨s1, s2, s3⟩ := hstep
    refine ⟨le_trans s1 h1, ?_, ?_⟩
    · intro n hn t ht
      rcases List.mem_cons.mp hn with rfl | hn
      · exact le_trans (s2 t ht) h1
      · exact h2 n hn t ht
    · rcases h3 with h3 | ⟨n, hn, t, ht, hr⟩
      · rcases s3 with s3 | ⟨t, ht, hr⟩
        · exact Or.inl (by rw [h3, s3])
        · exact Or.inr ⟨x, List.mem_cons_self _ _, t, ht, by rw [h3, hr]⟩
      · exact Or.inr ⟨n, List.mem_cons_of_mem _ hn, t, ht, hr⟩

/-- What the second loop of `generateRecommendations` pushes for a non-empty
row whose best similarity over the eight templates is below 0.5: the early
return on `bestScore > 0.7` is not taken, and the pattern is the most similar
template among the common patterns of the track type when one of them has a
template, and no pattern when none has. -/
theorem improveBody_low (p : Grid) (i : Fin 8) (t : String) (cp : List String)
    (ht : trackTypes[i.val]? = some t) (hl : soundCharacteristics.lookup t = some cp)
    (hne : p i ≠ []) (hlow : (identifyRhythmPattern (toBinary (p i))).score < 0.5) :
    ∃ r, improveBody (identifyPatternCharacteristics p) p i = some r ∧
      r.type = RecType.improve ∧ r.trackIndex = some i.val ∧
      ((∃ n ∈ cp, ∃ u, rhythmicPattern n = some u) →
        ∃ name tmpl, name ∈ cp ∧ rhythmicPattern name = some tmpl ∧ r.pattern = some tmpl ∧
          (∀ n ∈ cp, ∀ u, rhythmicPattern n = some u →
            calculatePatternSimilarity (toBinary (p i)) u ≤
              calculatePatternSimilarity (toBinary (p i)) tmpl) ∧
          r.relevance = 0.7 + 0.2 * (1 - calculatePatternSimilarity (toBinary (p i)) tmpl)) ∧
      ((∀ n ∈ cp, rhythmicPattern n = none) → r.pattern = none) := by
  obtain ⟨_, hmax, hend⟩ := foldl_improveStep (toBinary (p i)) cp ("", -1)
  have hle : ¬((cp.foldl (improveStep (toBinary (p i))) ("", -1)).2 > 0.7) := by
    rcases hend with h | ⟨n, _, u, hu, h⟩
    · rw [h]
      norm_num
    · rw [h]
      have h1 := identifyRhythmPattern_max (toBinary (p i)) (n, u)
        (lookup_mem rhythmicPatterns n u hu)
      simp only at h1
      have h2 : (0.5 : ℚ) ≤ 0.7 := by norm_num
      exact not_lt.mpr (le_trans (le_of_lt (lt_of_le_of_lt h1 hlow)) h2)
  have hlen : ¬((p i).length = 0) := fun h => hne (List.length_eq_zero.mp h)
  have hlow2 : ((identifyPatternCharacteristics p).rhythmPatterns i).score < 0.5 := hlow
  have hbody : improveBody (identifyPatternCharacteristics p) p i =
      some { type := RecType.improve, trackType := some t, trackIndex := some i.val,
             pattern := rhythmicPattern (cp.foldl (improveStep (toBinary (p i))) ("", -1)).1,
             patternName := some (cp.foldl (improveStep (toBinary (p i))) ("", -1)).1,
             genre := none,
             relevance := 0.7 +
               0.2 * (1 - (cp.foldl (improveStep (toBinary (p i))) ("", -1)).2) } := by
    have hbin : (identifyPatternCharacteristics p).binaryPattern i = toBinary (p i) := rfl
    simp only [improveBody, if_neg hlen, if_pos hlow2, ht, generateImprovementRecommendation,
      hl, hbin, if_neg hle]
  refine ⟨_, hbody, rfl, rfl, ?_, ?_⟩
  · rintro ⟨n0, hn0, u0, hu0⟩
    rcases hend with h | ⟨n, hn, u, hu, h⟩
    · have h1 := hmax n0 hn0 u0 hu0
      rw [h] at h1
      have h2 := (calculatePatternSimilarity_mem_unit (toBinary (p i)) u0).1
      simp only at h1
      linarith
    · refine ⟨n, u, hn, hu, ?_, ?_, ?_⟩
      · simp only [h, hu]
      · intro m hm v hv
        have h1 := hmax m hm v hv
        rw [h] at h1
        exact h1
      · simp only [h]
  · intro hnone
    rcases hend with h | ⟨n, hn, u, hu, _⟩
    · simp only [h]
      decide
    · rw [hnone n hn] at hu
      exact absurd hu (by simp)

theorem mem_candidates (ch : Characteristics) (p : Grid) (x : Recommendation)
    (h : x ∈ candidates ch p) :
    x ∈ trackCandidates ch ∨ x ∈ improveCandidates ch p ∨
      x = generateGenreBasedRecommendation ch := by
  unfold candidates at h
  simp only [] at h
  split at h
  · rcases List.mem_append.mp h with h | h
    · rcases List.mem_append.mp h with h | h
      · exact Or.inl h
      · exact Or.inr (Or.inl h)
    · exact Or.inr (Or.inr (List.mem_singleton.mp h))
  · rcases List.mem_append.mp h with h | h
    · exact Or.inl h
    · exact Or.inr (Or.inl h)

theorem trackCandidates_type (ch : Characteristics) (x : Recommendation)
    (h : x ∈ trackCandidates ch) : x.type = RecType.track := by
  obtain ⟨j, _, hj⟩ := List.mem_filterMap.mp h
  obtain ⟨t, pat, name, rel, he, _⟩ := emptyTrackBody_some j ch
  rw [he] at hj
  simp only [Option.some.injEq] at hj
  rw [← hj]

/-- A recommendation of type `improve` among the candidates belongs to a
non-empty row whose best similarity over the eight templates is below 0.5. -/
theorem improve_candidate_row (p : Grid) (k : Fin 8) (x : Recommendation)
    (hx : x ∈ candidates (identifyPatternCharacteristics p) p)
    (ht : x.type = RecType.improve) (hk : x.trackIndex = some k.val) :
    p k ≠ [] ∧ (identifyRhythmPattern (toBinary (p k))).score < 0.5 := by
  rcases mem_candidates _ p x hx with h | h | h
  · rw [trackCandidates_type _ x h] at ht
    exact absurd ht (by decide)
  · obtain ⟨j, hj, _⟩ := improveCandidates_type _ p x h
    obtain ⟨_, hidx, hlen, hscore⟩ := improveBody_some _ p j x hj
    rw [hidx] at hk
    have hjk : j = k := Fin.ext (Option.some.inj hk)
    subst hjk
    exact ⟨fun h0 => hlen (by rw [h0]; rfl), hscore⟩
  · rw [h] at ht
    exact absurd ht (by simp [generateGenreBasedRecommendation])

theorem improve_candidate_aux (p : Grid) (i : Fin 8) (t : String) (cp : List String)
    (ht : trackTypes[i.val]? = some t) (hl : soundCharacteristics.lookup t = some cp)
    (hne : p i ≠ []) (hlow : (identifyRhythmPattern (toBinary (p i))).score < 0.5)
    (hcase : (i.val < 4 ∧ ∃ n ∈ cp, ∃ u, rhythmicPattern n = some u) ∨
      (4 ≤ i.val ∧ ∀ n ∈ cp, rhythmicPattern n = none)) :
    ∃ r, improveBody (identifyPatternCharacteristics p) p i = some r ∧
      r ∈ candidates (identifyPatternCharacteristics p) p ∧
      r.type = RecType.improve ∧ r.trackIndex = some i.val ∧
      (i.val < 4 →
        ∃ name tmpl, name ∈ cp ∧ rhythmicPattern name = some tmpl ∧ r.pattern = some tmpl ∧
          (∀ n ∈ cp, ∀ u, rhythmicPattern n = some u →
            calculatePatternSimilarity (toBinary (p i)) u ≤
              calculatePatternSimilarity (toBinary (p i)) tmpl) ∧
          r.relevance = 0.7 + 0.2 * (1 - calculatePatternSimilarity (toBinary (p i)) tmpl)) ∧
      (4 ≤ i.val → r.pattern = none) := by
  obtain ⟨r, hb, h1, h2, hA, hB⟩ := improveBody_low p i t cp ht hl hne hlow
  refine ⟨r, hb, ?_, h1, h2, ?_, ?_⟩
  · exact mem_candidates_of_mem_improveCandidates _ p r
      (List.mem_filterMap.mpr ⟨i, List.mem_finRange i, hb⟩)
  · intro hi
    rcases hcase with ⟨_, hex⟩ | ⟨h4, _⟩
    · exact hA hex
    · omega
  · intro hi
    rcases hcase with ⟨h4, _⟩ | ⟨_, hall⟩
    · omega
    · exact hB hall

/-- C18, amended: for every grid and every non-empty row `i` whose best
similarity over the eight templates is below 0.5, the candidate list contains
an `improve` recommendation for row `i`; for rows 0..3 (kicks, snares,
hi_hats, percussion) its pattern is the template, among the common patterns
of the track type, most similar to the row, and its relevance is
`0.7 + 0.2 * (1 - s)` for that similarity `s`; for rows 4..7 (bass, synth,
fx), none of whose common patterns is a template, it carries no pattern.
An `improve` recommendation is only produced for such rows. -/
theorem improve_candidate (p : Grid) (i : Fin 8) (hne : p i ≠ [])
    (hlow : (identifyRhythmPattern (toBinary (p i))).score < 0.5) :
    (∃ r t cp, trackTypes[i.val]? = some t ∧ soundCharacteristics.lookup t = some cp ∧
      improveBody (identifyPatternCharacteristics p) p i = some r ∧
      r ∈ candidates (identifyPatternCharacteristics p) p ∧
      r.type = RecType.improve ∧ r.trackIndex = some i.val ∧
      (i.val < 4 →
        ∃ name tmpl, name ∈ cp ∧ rhythmicPattern name = some tmpl ∧ r.pattern = some tmpl ∧
          (∀ n ∈ cp, ∀ u, rhythmicPattern n = some u →
            calculatePatternSimilarity (toBinary (p i)) u ≤
              calculatePatternSimilarity (toBinary (p i)) tmpl) ∧
          r.relevance = 0.7 + 0.2 * (1 - calculatePatternSimilarity (toBinary (p i)) tmpl)) ∧
      (4 ≤ i.val → r.pattern = none)) ∧
    (∀ (k : Fin 8) (x : Recommendation), x ∈ candidates (identifyPatternCharacteristics p) p →
      x.type = RecType.improve → x.trackIndex = some k.val →
      p k ≠ [] ∧ (identifyRhythmPattern (toBinary (p k))).score < 0.5) := by
  refine ⟨?_, fun k x hx ht hk => improve_candidate_row p k x hx ht hk⟩
  have key : ∃ t cp, trackTypes[i.val]? = some t ∧ soundCharacteristics.lookup t = some cp ∧
      ((i.val < 4 ∧ ∃ n ∈ cp, ∃ u, rhythmicPattern n = some u) ∨
        (4 ≤ i.val ∧ ∀ n ∈ cp, rhythmicPattern n = none)) := by
    fin_cases i
    · exact ⟨_, _, rfl, rfl, Or.inl ⟨by decide, "four-on-floor", by decide, _, rfl⟩⟩
    · exact ⟨_, _, rfl, rfl, Or.inl ⟨by decide, "backbeat", by decide, _, rfl⟩⟩
    · exact ⟨_, _, rfl, rfl, Or.inl ⟨by decide, "eighth", by decide, _, rfl⟩⟩
    · exact ⟨_, _, rfl, rfl, Or.inl ⟨by decide, "syncopated", by decide, _, rfl⟩⟩
    · exact ⟨_, _, rfl, rfl, Or.inr ⟨by decide, by decide⟩⟩
    · exact ⟨_, _, rfl, rfl, Or.inr ⟨by decide, by decide⟩⟩
    · exact ⟨_, _, rfl, rfl, Or.inr ⟨by decide, by decide⟩⟩
    · exact ⟨_, _, rfl, rfl, Or.inr ⟨by decide, by decide⟩⟩
  obtain ⟨t, cp, ht, hl, hcase⟩ := key
  obtain ⟨r, h⟩ := improve_candidate_aux p i t cp ht hl hne hlow hcase
  exact ⟨r, t, cp, ht, hl, h⟩

theorem improve_candidate_witness :
    hatNoteGrid 2 ≠ [] ∧ (identifyRhythmPattern (toBinary (hatNoteGrid 2))).score < 0.5 ∧
    ∃ r t cp, trackTypes[(2 : Fin 8).val]? = some t ∧
      soundCharacteristics.lookup t = some cp ∧
      improveBody (identifyPatternCharacteristics hatNoteGrid) hatNoteGrid 2 = some r ∧
      r ∈ candidates (identifyPatternCharacteristics hatNoteGrid) hatNoteGrid ∧
      r.type = RecType.improve ∧ r.trackIndex = some (2 : Fin 8).val ∧
      ((2 : Fin 8).val < 4 →
        ∃ name tmpl, name ∈ cp ∧ rhythmicPattern name = some tmpl ∧ r.pattern = some tmpl ∧
          (∀ n ∈ cp, ∀ u, rhythmicPattern n = some u →
            calculatePatternSimilarity (toBinary (hatNoteGrid 2)) u ≤
              calculatePatternSimilarity (toBinary (hatNoteGrid 2)) tmpl) ∧
          r.relevance =
            0.7 + 0.2 * (1 - calculatePatternSimilarity (toBinary (hatNoteGrid 2)) tmpl)) ∧
      (4 ≤ (2 : Fin 8).val → r.pattern = none) :=
  ⟨by decide, by decide!, (improve_candidate hatNoteGrid 2 (by decide) (by decide!)).1⟩

/-- C18, as stated, fails on rows 4..7: on the grid whose only active cell is
a bass note on step 1, row 4 is non-empty with best similarity 1/16, and the
`improve` recommendation among the candidates has no pattern (none of root,
walking, ostinato is a template) and relevance 11/10, which is not
`0.7 + 0.2 * (1 - s)` for the similarity `s` of the row to any template. -/
theorem bass_improvement_without_pattern :
    bassNoteGrid 4 ≠ [] ∧
    (identifyRhythmPattern (toBinary (bassNoteGrid 4))).score = 1 / 16 ∧
    improveBody (identifyPatternCharacteristics bassNoteGrid) bassNoteGrid 4 =
      some { type := RecType.improve, trackType := some "bass", trackIndex := some 4,
             pattern := none, patternName := some "", genre := none, relevance := 11 / 10 } ∧
    ({ type := RecType.improve, trackType := some "bass", trackIndex := some 4,
       pattern := none, patternName := some "", genre := none, relevance := 11 / 10 } :
      Recommendation) ∈ candidates (identifyPatternCharacteristics bassNoteGrid) bassNoteGrid ∧
    (candidates (identifyPatternCharacteristics bassNoteGrid) bassNoteGrid).filter
      (fun x => decide (x.type = RecType.improve ∧ x.pattern ≠ none)) = [] ∧
    ∀ x ∈ rhythmicPatterns,
      (0.7 : ℚ) + 0.2 * (1 - calculatePatternSimilarity (toBinary (bassNoteGrid 4)) x.2) ≠
        11 / 10 := by
  decide!

/-- C15 at a failing input: on the grid whose only active cell is a bass note
on step 1, the list `generateRecommendations` returns starts with the
`improve` recommendation for the bass row, whose relevance is 11/10, above
1: the search of `generateImprovementRecommendation` finds no template among
root, walking, ostinato and its initial score `-1` enters
`0.7 + 0.2 * (1 - bestScore)`. -/
theorem recommend_relevance_above_one :
    (recommend bassNoteGrid).map (fun r => (r.type, r.trackIndex, r.relevance)) =
      [(RecType.improve, some 4, 11 / 10), (RecType.track, some 3, 3 / 4),
        (RecType.track, some 5, 3 / 4)] ∧
    ¬((11 / 10 : ℚ) ≤ 1) ∧
    (soundCharacteristics.lookup "bass" = some ["root", "walking", "ostinato"] ∧
      rhythmicPattern "root" = none ∧ rhythmicPattern "walking" = none ∧
      rhythmicPattern "ostinato" = none) := by
  decide!

/-! ## The effects chain -/

theorem mem_connect (x : Nat × Nat) (a b : Nat) (cs : List (Nat × Nat)) :
    x ∈ connect a b cs ↔ x = (a, b) ∨ x ∈ cs := by
  unfold connect
  split
  · rename_i h
    constructor
    · exact fun hx => Or.inr hx
    · rintro (rfl | hx)
      · exact h
      · exact hx
  · rw [List.mem_append, List.mem_singleton]
    exact or_comm

/-- C20, as stated, fails when the filter is the only enabled effect: on the
graph of `initAudioContext` (master gain 0 -> filter 1 -> analyser 2 ->
destination 3) `connectEffects` ends with `currentNode` the filter and adds
only master gain -> filter, so the filter has no connection to the
destination; on nodes not yet connected to anything the one connection
afterwards is source -> filter and nothing leaves the filter. -/
theorem filter_only_no_destination :
    filterOnlyEffects.state.filterEnabled = true ∧
    filterOnlyEffects.state.reverbEnabled = false ∧
    filterOnlyEffects.state.delayEnabled = false ∧
    filterOnlyEffects.state.distortionEnabled = false ∧
    (connectChain 0 3 filterOnlyEffects).2 = 1 ∧
    (connectEffects (some 0) (some 3) filterOnlyEffects).connections =
      [(1, 2), (2, 3), (0, 1)] ∧
    (1, 3) ∉ (connectEffects (some 0) (some 3) filterOnlyEffects).connections ∧
    (connectEffects (some 0) (some 3) { filterOnlyEffects with connections := [] }).connections =
      [(0, 1)] := by
  decide

theorem mem_connect_of_mem (x : Nat × Nat) (a b : Nat) (cs : List (Nat × Nat)) (h : x ∈ cs) :
    x ∈ connect a b cs :=
  (mem_connect x a b cs).mpr (Or.inr h)

theorem mem_connect_self (a b : Nat) (cs : List (Nat × Nat)) : (a, b) ∈ connect a b cs :=
  (mem_connect (a, b) a b cs).mpr (Or.inl rfl)

/-- The nodes and flags a step of `connectEffects` leaves alone. -/
theorem connectFilter_frame (r : Effects × Nat) :
    (connectFilter r).1.state = r.1.state ∧ (connectFilter r).1.reverbNode = r.1.reverbNode ∧
    (connectFilter r).1.delay = r.1.delay ∧
    (connectFilter r).1.distortionNode = r.1.distortionNode ∧
    (connectFilter r).1.nextNode = r.1.nextNode := by
  unfold connectFilter
  split <;> exact ⟨rfl, rfl, rfl, rfl, rfl⟩

theorem connectReverb_frame (dst : Nat) (r : Effects × Nat) :
    (connectReverb dst r).1.state = r.1.state ∧ (connectReverb dst r).1.delay = r.1.delay ∧
    (connectReverb dst r).1.distortionNode = r.1.distortionNode := by
  unfold connectReverb
  split <;> exact ⟨rfl, rfl, rfl⟩

theorem connectDelay_frame (dst : Nat) (r : Effects × Nat) :
    (connectDelay dst r).1.state = r.1.state ∧
    (connectDelay dst r).1.distortionNode = r.1.distortionNode := by
  unfold connectDelay
  split <;> exact ⟨rfl, rfl⟩

theorem connectFilter_node (r : Effects × Nat) (f : Nat) (hf : r.1.filterNode = some f) :
    (connectFilter r).2 = (if r.1.state.filterEnabled then f else r.2) ∧
    (if r.1.state.filterEnabled then
      connectFilter r = ({ r.1 with connections := connect r.2 f r.1.connections }, f)
     else connectFilter r = r) := by
  cases h : r.1.state.filterEnabled <;> simp [connectFilter, h, hf]

theorem connectReverb_node (dst : Nat) (r : Effects × Nat) (rv : Nat)
    (hr : r.1.reverbNode = some rv) :
    (connectReverb dst r).2 = (if r.1.state.reverbEnabled then r.1.nextNode else r.2) ∧
    (if r.1.state.reverbEnabled then
      ((connectReverb dst r).2, dst) ∈ (connectReverb dst r).1.connections
     else connectReverb dst r = r) := by
  cases h : r.1.state.reverbEnabled
  · simp [connectReverb, h]
  · simp only [connectReverb, h, hr, if_true]
    exact ⟨trivial, mem_connect_self _ _ _⟩

theorem connectDelay_node (dst : Nat) (r : Effects × Nat) (d : DelayNodes)
    (hd : r.1.delay = some d) :
    (connectDelay dst r).2 = (if r.1.state.delayEnabled then d.delayMixNode else r.2) ∧
    (if r.1.state.delayEnabled then
      ((connectDelay dst r).2, dst) ∈ (connectDelay dst r).1.connections
     else connectDelay dst r = r) := by
  cases h : r.1.state.delayEnabled
  · simp [connectDelay, h]
  · simp only [connectDelay, h, hd, if_true]
    exact ⟨trivial, mem_connect_self _ _ _⟩

theorem connectDistortion_node (dst : Nat) (r : Effects × Nat) (ds : Nat)
    (hds : r.1.distortionNode = some ds) :
    (connectDistortion dst r).2 = (if r.1.state.distortionEnabled then ds else r.2) ∧
    (if r.1.state.distortionEnabled then
      ((connectDistortion dst r).2, dst) ∈ (connectDistortion dst r).1.connections
     else connectDistortion dst r = r) := by
  cases h : r.1.state.distortionEnabled
  · simp [connectDistortion, h]
  · simp only [connectDistortion, h, hds, if_true]
    exact ⟨trivial, mem_connect_self _ _ _⟩

/-- C20, amended: with all effect nodes present, `connectEffects(source,
destination)` ends with `currentNode` the source when no effect is enabled
and otherwise the output node of the last enabled effect in the order
filter, reverb, delay, distortion; whenever reverb, delay or distortion is
enabled, or no effect is, that node has a connection to the destination.
When the filter alone is enabled, `connectEffects` disconnects the source and
connects it to the filter, and adds no connection from the filter to the
destination. -/
theorem connectEffects_final_node (e : Effects) (src dst f rv ds : Nat) (d : DelayNodes)
    (hctx : e.audioContext = true) (hf : e.filterNode = some f) (hr : e.reverbNode = some rv)
    (hd : e.delay = some d) (hds : e.distortionNode = some ds) :
    connectEffects (some src) (some dst) e = (connectChain src dst e).1 ∧
    (connectChain src dst e).2 =
      (if e.state.distortionEnabled then ds
        else if e.state.delayEnabled then d.delayMixNode
        else if e.state.reverbEnabled then e.nextNode
        else if e.state.filterEnabled then f else src) ∧
    (if e.state.reverbEnabled ∨ e.state.delayEnabled ∨ e.state.distortionEnabled ∨
        e.state.filterEnabled = false then
      ((connectChain src dst e).2, dst) ∈ (connectEffects (some src) (some dst) e).connections
    else
      (connectEffects (some src) (some dst) e).connections =
        if f = src then connect src dst (connect src f (disconnect src e.connections))
        else connect src f (disconnect src e.connections)) := by
  have h0 : connectEffects (some src) (some dst) e = (connectChain src dst e).1 := by
    simp only [connectEffects, hctx]
  -- the four steps, one after the other
  have hF := connectFilter_node ({ e with connections := disconnect src e.connections }, src) f hf
  have hFf := connectFilter_frame ({ e with connections := disconnect src e.connections }, src)
  have hR := connectReverb_node dst
    (connectFilter ({ e with connections := disconnect src e.connections }, src)) rv
    (by rw [hFf.2.1]; exact hr)
  have hRf := connectReverb_frame dst
    (connectFilter ({ e with connections := disconnect src e.connections }, src))
  have hD := connectDelay_node dst
    (connectReverb dst
      (connectFilter ({ e with connections := disconnect src e.connections }, src))) d
    (by rw [hRf.2.1, hFf.2.2.1]; exact hd)
  have hDf := connectDelay_frame dst
    (connectReverb dst
      (connectFilter ({ e with connections := disconnect src e.connections }, src)))
  have hS := connectDistortion_node dst
    (connectDelay dst (connectReverb dst
      (connectFilter ({ e with connections := disconnect src e.connections }, src)))) ds
    (by rw [hDf.2, hRf.2.2, hFf.2.2.2.1]; exact hds)
  simp only [hDf.1, hRf.1, hFf.1, hFf.2.2.2.2] at hF hR hD hS
  have hcur : (connectChain src dst e).2 =
      (connectDistortion dst (connectDelay dst (connectReverb dst
        (connectFilter ({ e with connections := disconnect src e.connections }, src))))).2 := by
    unfold connectChain
    simp only []
    split <;> rfl
  have hmono : ∀ x, x ∈ (connectDistortion dst (connectDelay dst (connectReverb dst
      (connectFilter ({ e with connections := disconnect src e.connections },
        src))))).1.connections → x ∈ (connectChain src dst e).1.connections := by
    intro x hx
    unfold connectChain
    simp only []
    split
    · exact mem_connect_of_mem _ _ _ _ hx
    · exact hx
  refine ⟨h0, ?_, ?_⟩
  · rw [hcur, hS.1, hD.1, hR.1, hF.1]
  · rw [h0]
    cases h4 : e.state.distortionEnabled
    · cases h3 : e.state.delayEnabled
      · cases h2 : e.state.reverbEnabled
        · simp only [h2, h3, h4, Bool.false_eq_true, if_false, false_or] at hF hR hD hS ⊢
          have hall : connectDistortion dst (connectDelay dst (connectReverb dst
              (connectFilter ({ e with connections := disconnect src e.connections }, src)))) =
              connectFilter ({ e with connections := disconnect src e.connections }, src) := by
            rw [hS.2, hD.2, hR.2]
          have hchain : connectChain src dst e =
              (if (connectFilter
                  ({ e with connections := disconnect src e.connections }, src)).2 = src then
                ({ (connectFilter
                      ({ e with connections := disconnect src e.connections }, src)).1 with
                    connections := connect
                      (connectFilter
                        ({ e with connections := disconnect src e.connections }, src)).2 dst
                      (connectFilter
                        ({ e with connections := disconnect src e.connections },
                          src)).1.connections },
                  (connectFilter
                    ({ e with connections := disconnect src e.connections }, src)).2)
              else connectFilter ({ e with connections := disconnect src e.connections }, src)) := by
            unfold connectChain
            simp only []
            rw [hall]
          rw [hchain]
          cases h1 : e.state.filterEnabled
          · simp only [h1, Bool.false_eq_true, if_false, if_true] at hF ⊢
            rw [hF.2]
            simp only [if_true]
            exact mem_connect_self _ _ _
          · simp only [h1, if_true, Bool.true_eq_false, if_false] at hF ⊢
            rw [hF.2]
            simp only []
            by_cases hfs : f = src
            · subst hfs
              simp only [if_true]
            · simp only [if_neg hfs]
        · simp only [h2, h3, h4, Bool.false_eq_true, if_false, if_true, true_or] at hR hD hS ⊢
          rw [hcur]
          refine hmono _ ?_
          rw [hS.2, hD.2]
          exact hR.2
      · simp only [h3, h4, Bool.false_eq_true, if_false, if_true, true_or, or_true] at hD hS ⊢
        rw [hcur]
        refine hmono _ ?_
        rw [hS.2]
        exact hD.2
    · simp only [h4, if_true, true_or, or_true] at hS ⊢
      rw [hcur]
      exact hmono _ hS.2

theorem connectEffects_final_node_witness :
    reverbDistortionEffects.audioContext = true ∧
    reverbDistortionEffects.filterNode = some 1 ∧
    reverbDistortionEffects.reverbNode = some 4 ∧
    reverbDistortionEffects.delay =
      some { delayNode := 5, delayFeedbackNode := 6, delayMixNode := 7 } ∧
    reverbDistortionEffects.distortionNode = some 8 ∧
    (connectChain 0 3 reverbDistortionEffects).2 = 8 ∧
    ((connectChain 0 3 reverbDistortionEffects).2, 3) ∈
      (connectEffects (some 0) (some 3) reverbDistortionEffects).connections :=
  have h := connectEffects_final_node reverbDistortionEffects 0 3 1 4 8
    { delayNode := 5, delayFeedbackNode := 6, delayMixNode := 7 } rfl rfl rfl rfl rfl
  ⟨rfl, rfl, rfl, rfl, rfl, h.2.1, h.2.2⟩

theorem commonPatterns_rows_0_3 (i : Fin 8) (hi : i.val < 4) :
    ∃ t cp n u, trackTypes[i.val]? = some t ∧ soundCharacteristics.lookup t = some cp ∧
      n ∈ cp ∧ rhythmicPattern n = some u := by
  fin_cases i
  · exact ⟨_, _, "four-on-floor", _, rfl, rfl, by decide, rfl⟩
  · exact ⟨_, _, "backbeat", _, rfl, rfl, by decide, rfl⟩
  · exact ⟨_, _, "eighth", _, rfl, rfl, by decide, rfl⟩
  · exact ⟨_, _, "syncopated", _, rfl, rfl, by decide, rfl⟩
  all_goals exact absurd hi (by decide)

/-- C29: for rows 0..3 (kicks, snares, hi_hats, percussion), whenever the
second loop of `generateRecommendations` reaches
`generateImprovementRecommendation` (the row is non-empty and its best
similarity over the eight templates is below 0.5), the best score within the
common patterns of the track type lies in [0, 0.5), so the early return on
`bestScore > 0.7` is not taken, a recommendation is produced, and its
relevance `0.7 + 0.2 * (1 - bestScore)` lies in (0.8, 0.9]. -/
theorem improvement_relevance_rows_0_3 (p : Grid) (i : Fin 8) (hi : i.val < 4)
    (hne : p i ≠ []) (hlow : (identifyRhythmPattern (toBinary (p i))).score < 0.5) :
    ∃ t cp r, trackTypes[i.val]? = some t ∧ soundCharacteristics.lookup t = some cp ∧
      0 ≤ (cp.foldl (improveStep (toBinary (p i))) ("", -1)).2 ∧
      (cp.foldl (improveStep (toBinary (p i))) ("", -1)).2 < 0.5 ∧
      ¬((cp.foldl (improveStep (toBinary (p i))) ("", -1)).2 > 0.7) ∧
      generateImprovementRecommendation t i (identifyPatternCharacteristics p) = some r ∧
      improveBody (identifyPatternCharacteristics p) p i = some r ∧
      r ∈ candidates (identifyPatternCharacteristics p) p ∧
      r.relevance = 0.7 + 0.2 * (1 - (cp.foldl (improveStep (toBinary (p i))) ("", -1)).2) ∧
      0.8 < r.relevance ∧ r.relevance ≤ 0.9 := by
  obtain ⟨t, cp, n0, u0, ht, hl, hn0, hu0⟩ := commonPatterns_rows_0_3 i hi
  obtain ⟨_, hmax, hend⟩ := foldl_improveStep (toBinary (p i)) cp ("", -1)
  have hge : 0 ≤ (cp.foldl (improveStep (toBinary (p i))) ("", -1)).2 :=
    le_trans (calculatePatternSimilarity_mem_unit (toBinary (p i)) u0).1 (hmax n0 hn0 u0 hu0)
  have hlt : (cp.foldl (improveStep (toBinary (p i))) ("", -1)).2 < 0.5 := by
    rcases hend with h | ⟨n, _, u, hu, h⟩
    · rw [h]
      norm_num
    · rw [h]
      have h1 := identifyRhythmPattern_max (toBinary (p i)) (n, u)
        (lookup_mem rhythmicPatterns n u hu)
      exact lt_of_le_of_lt h1 hlow
  have hle : ¬((cp.foldl (improveStep (toBinary (p i))) ("", -1)).2 > 0.7) := by
    have h2 : (0.5 : ℚ) ≤ 0.7 := by norm_num
    exact not_lt.mpr (le_trans (le_of_lt hlt) h2)
  have hbin : (identifyPatternCharacteristics p).binaryPattern i = toBinary (p i) := rfl
  have hgen : generateImprovementRecommendation t i (identifyPatternCharacteristics p) =
      some { type := RecType.improve, trackType := some t, trackIndex := some i.val,
             pattern := rhythmicPattern (cp.foldl (improveStep (toBinary (p i))) ("", -1)).1,
             patternName := some (cp.foldl (improveStep (toBinary (p i))) ("", -1)).1,
             genre := none,
             relevance := 0.7 +
               0.2 * (1 - (cp.foldl (improveStep (toBinary (p i))) ("", -1)).2) } := by
    simp only [generateImprovementRecommendation, hl, hbin, if_neg hle]
  have hlen : ¬((p i).length = 0) := fun h => hne (List.length_eq_zero.mp h)
  have hlow2 : ((identifyPatternCharacteristics p).rhythmPatterns i).score < 0.5 := hlow
  have hbody : improveBody (identifyPatternCharacteristics p) p i =
      generateImprovementRecommendation t i (identifyPatternCharacteristics p) := by
    simp only [improveBody, if_neg hlen, if_pos hlow2, ht]
  refine ⟨t, cp, _, ht, hl, hge, hlt, hle, hgen, hbody.trans hgen, ?_, rfl, ?_, ?_⟩
  · exact mem_candidates_of_mem_improveCandidates _ p _
      (List.mem_filterMap.mpr ⟨i, List.mem_finRange i, hbody.trans hgen⟩)
  · show (0.8 : ℚ) < 0.7 + 0.2 * (1 - (cp.foldl (improveStep (toBinary (p i))) ("", -1)).2)
    norm_num at hlt ⊢
    linarith
  · show (0.7 : ℚ) + 0.2 * (1 - (cp.foldl (improveStep (toBinary (p i))) ("", -1)).2) ≤ 0.9
    norm_num at hge ⊢
    linarith

theorem improvement_relevance_rows_0_3_witness :
    (2 : Fin 8).val < 4 ∧ hatNoteGrid 2 ≠ [] ∧
    (identifyRhythmPattern (toBinary (hatNoteGrid 2))).score < 0.5 ∧
    ∃ t cp r, trackTypes[(2 : Fin 8).val]? = some t ∧
      soundCharacteristics.lookup t = some cp ∧
      0 ≤ (cp.foldl (improveStep (toBinary (hatNoteGrid 2))) ("", -1)).2 ∧
      (cp.foldl (improveStep (toBinary (hatNoteGrid 2))) ("", -1)).2 < 0.5 ∧
      ¬((cp.foldl (improveStep (toBinary (hatNoteGrid 2))) ("", -1)).2 > 0.7) ∧
      generateImprovementRecommendation t 2 (identifyPatternCharacteristics hatNoteGrid) =
        some r ∧
      improveBody (identifyPatternCharacteristics hatNoteGrid) hatNoteGrid 2 = some r ∧
      r ∈ candidates (identifyPatternCharacteristics hatNoteGrid) hatNoteGrid ∧
      r.relevance =
        0.7 + 0.2 * (1 - (cp.foldl (improveStep (toBinary (hatNoteGrid 2))) ("", -1)).2) ∧
      0.8 < r.relevance ∧ r.relevance ≤ 0.9 :=
  ⟨by decide, by decide, by decide!,
    improvement_relevance_rows_0_3 hatNoteGrid 2 (by decide) (by decide) (by decide!)⟩

theorem identifyRhythmPattern_zero :
    identifyRhythmPattern (List.replicate 16 0) = { name := "four-on-floor", score := 0 } := by
  decide!

theorem density_sum (p : Grid) :
    ((List.finRange 8).map (identifyPatternCharacteristics p).density).sum =
      ((((List.finRange 8).map (fun i => (p i).length)).sum : Nat) : ℚ) / 16 := by
  have h8 : List.finRange 8 = [0, 1, 2, 3, 4, 5, 6, 7] := by decide
  simp only [h8, identifyPatternCharacteristics, List.map_cons, List.map_nil, List.sum_cons,
    List.sum_nil]
  push_cast
  ring

/-- C30: for the all-zero row `identifyRhythmPattern` returns `four-on-floor`
with score 0; hence for every grid whose kick row is empty, `detectGenre`
returns `house` when the hi-hat row has more than 8 active steps, and it
returns `techno` when the hi-hat row has at most 8 active steps, the best
template of the snare row is not `backbeat` and the grid has fewer than 32
active cells in total. -/
theorem detectGenre_empty_kick (p : Grid) (h0 : p 0 = []) :
    identifyRhythmPattern (List.replicate 16 0) = { name := "four-on-floor", score := 0 } ∧
    ((identifyPatternCharacteristics p).rhythmPatterns 0).name = "four-on-floor" ∧
    (8 < (p 2).length → detectGenre (identifyPatternCharacteristics p) = "house") ∧
    ((p 2).length ≤ 8 → (identifyRhythmPattern (toBinary (p 1))).name ≠ "backbeat" →
      ((List.finRange 8).map (fun i => (p i).length)).sum < 32 →
      detectGenre (identifyPatternCharacteristics p) = "techno") := by
  have hz := identifyRhythmPattern_zero
  have hk : (identifyPatternCharacteristics p).rhythmPatterns 0 =
      { name := "four-on-floor", score := 0 } := by
    show identifyRhythmPattern (toBinary (p 0)) = _
    rw [h0]
    exact hz
  have hd2 : (identifyPatternCharacteristics p).density 2 = ((p 2).length : ℚ) / 16 := rfl
  have hs1 : (identifyPatternCharacteristics p).rhythmPatterns 1 =
      identifyRhythmPattern (toBinary (p 1)) := rfl
  refine ⟨hz, by rw [hk], ?_, ?_⟩
  · intro h8
    have hq : ((p 2).length : ℚ) / 16 > 0.5 := by
      have : (8 : ℚ) < ((p 2).length : ℚ) := by exact_mod_cast h8
      norm_num
      linarith
    simp only [detectGenre, hk, hd2, hq, and_self, if_true]
  · intro h8 hsn hsum
    have hq : ¬(((p 2).length : ℚ) / 16 > 0.5) := by
      have : ((p 2).length : ℚ) ≤ 8 := by exact_mod_cast h8
      norm_num
      linarith
    have hq7 : ¬(((p 2).length : ℚ) / 16 > 0.7) := by
      have : ((p 2).length : ℚ) ≤ 8 := by exact_mod_cast h8
      norm_num
      linarith
    have hsumq : ((List.finRange 8).map (identifyPatternCharacteristics p).density).sum < 2 := by
      rw [density_sum]
      have : ((((List.finRange 8).map (fun i => (p i).length)).sum : Nat) : ℚ) < 32 := by
        exact_mod_cast hsum
      linarith
    simp only [detectGenre, hk, hd2, hs1, hq, hq7, hsn, hsumq, and_false, false_and, and_self,
      if_false, if_true]

theorem detectGenre_empty_kick_witness :
    busyHatGrid 0 = [] ∧ 8 < (busyHatGrid 2).length ∧
    detectGenre (identifyPatternCharacteristics busyHatGrid) = "house" ∧
    sparseGrid 0 = [] ∧ (sparseGrid 2).length ≤ 8 ∧
    (identifyRhythmPattern (toBinary (sparseGrid 1))).name ≠ "backbeat" ∧
    ((List.finRange 8).map (fun i => (sparseGrid i).length)).sum < 32 ∧
    detectGenre (identifyPatternCharacteristics sparseGrid) = "techno" :=
  ⟨rfl, by decide, (detectGenre_empty_kick busyHatGrid rfl).2.2.1 (by decide),
    rfl, by decide, by decide!, by decide,
    (detectGenre_empty_kick sparseGrid rfl).2.2.2 (by decide) (by decide!) (by decide)⟩

/-- Each step of `connectEffects` only adds connections. -/
theorem connectFilter_mono (r : Effects × Nat) (x : Nat × Nat) (h : x ∈ r.1.connections) :
    x ∈ (connectFilter r).1.connections := by
  unfold connectFilter
  split
  · exact mem_connect_of_mem _ _ _ _ h
  · exact h

theorem connectReverb_mono (dst : Nat) (r : Effects × Nat) (x : Nat × Nat)
    (h : x ∈ r.1.connections) : x ∈ (connectReverb dst r).1.connections := by
  unfold connectReverb
  split
  · exact mem_connect_of_mem _ _ _ _ (mem_connect_of_mem _ _ _ _
      (mem_connect_of_mem _ _ _ _ (mem_connect_of_mem _ _ _ _ h)))
  · exact h

theorem connectDelay_mono (dst : Nat) (r : Effects × Nat) (x : Nat × Nat)
    (h : x ∈ r.1.connections) : x ∈ (connectDelay dst r).1.connections := by
  unfold connectDelay
  split
  · exact mem_connect_of_mem _ _ _ _ (mem_connect_of_mem _ _ _ _
      (mem_connect_of_mem _ _ _ _ (mem_connect_of_mem _ _ _ _
        (mem_connect_of_mem _ _ _ _ (mem_connect_of_mem _ _ _ _ h)))))
  · exact h

theorem connectDistortion_mono (dst : Nat) (r : Effects × Nat) (x : Nat × Nat)
    (h : x ∈ r.1.connections) : x ∈ (connectDistortion dst r).1.connections := by
  unfold connectDistortion
  split
  · exact mem_connect_of_mem _ _ _ _ (mem_connect_of_mem _ _ _ _ h)
  · exact h

/-- The connections the final `if` of `connectEffects` keeps. -/
theorem connectChain_mono (src dst : Nat) (e : Effects) (x : Nat × Nat)
    (h : x ∈ (connectDistortion dst (connectDelay dst (connectReverb dst
      (connectFilter ({ e with connections := disconnect src e.connections },
        src))))).1.connections) :
    x ∈ (connectChain src dst e).1.connections := by
  unfold connectChain
  simp only []
  split
  · exact mem_connect_of_mem _ _ _ _ h
  · exact h

/-- The connections an enabled step makes. -/
theorem connectFilter_edges (r : Effects × Nat) (f : Nat) (hf : r.1.filterNode = some f)
    (hen : r.1.state.filterEnabled = true) : (r.2, f) ∈ (connectFilter r).1.connections := by
  simp only [connectFilter, hen, hf]
  exact mem_connect_self _ _ _

theorem connectReverb_edges (dst : Nat) (r : Effects × Nat) (rv : Nat)
    (hr : r.1.reverbNode = some rv) (hen : r.1.state.reverbEnabled = true) :
    (r.2, dst) ∈ (connectReverb dst r).1.connections ∧
    (r.2, rv) ∈ (connectReverb dst r).1.connections ∧
    (rv, r.1.nextNode) ∈ (connectReverb dst r).1.connections ∧
    (r.1.nextNode, dst) ∈ (connectReverb dst r).1.connections := by
  simp only [connectReverb, hen, hr]
  refine ⟨?_, ?_, ?_, ?_⟩
  · exact mem_connect_of_mem _ _ _ _ (mem_connect_of_mem _ _ _ _
      (mem_connect_of_mem _ _ _ _ (mem_connect_self _ _ _)))
  · exact mem_connect_of_mem _ _ _ _ (mem_connect_of_mem _ _ _ _ (mem_connect_self _ _ _))
  · exact mem_connect_of_mem _ _ _ _ (mem_connect_self _ _ _)
  · exact mem_connect_self _ _ _

theorem connectDelay_edges (dst : Nat) (r : Effects × Nat) (d : DelayNodes)
    (hd : r.1.delay = some d) (hen : r.1.state.delayEnabled = true) :
    (r.2, dst) ∈ (connectDelay dst r).1.connections ∧
    (r.2, d.delayNode) ∈ (connectDelay dst r).1.connections ∧
    (d.delayNode, d.delayFeedbackNode) ∈ (connectDelay dst r).1.connections ∧
    (d.delayFeedbackNode, d.delayNode) ∈ (connectDelay dst r).1.connections ∧
    (d.delayNode, d.delayMixNode) ∈ (connectDelay dst r).1.connections ∧
    (d.delayMixNode, dst) ∈ (connectDelay dst r).1.connections := by
  simp only [connectDelay, hen, hd]
  refine ⟨?_, ?_, ?_, ?_, ?_, ?_⟩
  · exact mem_connect_of_mem _ _ _ _ (mem_connect_of_mem _ _ _ _
      (mem_connect_of_mem _ _ _ _ (mem_connect_of_mem _ _ _ _
        (mem_connect_of_mem _ _ _ _ (mem_connect_self _ _ _)))))
  · exact mem_connect_of_mem _ _ _ _ (mem_connect_of_mem _ _ _ _
      (mem_connect_of_mem _ _ _ _ (mem_connect_of_mem _ _ _ _ (mem_connect_self _ _ _))))
  · exact mem_connect_of_mem _ _ _ _ (mem_connect_of_mem _ _ _ _
      (mem_connect_of_mem _ _ _ _ (mem_connect_self _ _ _)))
  · exact mem_connect_of_mem _ _ _ _ (mem_connect_of_mem _ _ _ _ (mem_connect_self _ _ _))
  · exact mem_connect_of_mem _ _ _ _ (mem_connect_self _ _ _)
  · exact mem_connect_self _ _ _

theorem connectDistortion_edges (dst : Nat) (r : Effects × Nat) (ds : Nat)
    (hds : r.1.distortionNode = some ds) (hen : r.1.state.distortionEnabled = true) :
    (r.2, ds) ∈ (connectDistortion dst r).1.connections ∧
    (ds, dst) ∈ (connectDistortion dst r).1.connections := by
  simp only [connectDistortion, hen, hds]
  exact ⟨mem_connect_of_mem _ _ _ _ (mem_connect_self _ _ _), mem_connect_self _ _ _⟩

/-- C21, as stated, fails: with reverb and distortion enabled the reverb step
connects the source straight to the destination (the dry signal), so the path
source 0 -> destination 3 does not pass through the distortion node 8; this
is so on the graph of `initAudioContext` and on nodes not yet connected to
anything. -/
theorem dry_signal_bypasses_distortion :
    reverbDistortionEffects.state.reverbEnabled = true ∧
    reverbDistortionEffects.state.distortionEnabled = true ∧
    reverbDistortionEffects.distortionNode = some 8 ∧
    (connectEffects (some 0) (some 3) reverbDistortionEffects).connections =
      [(1, 2), (2, 3), (0, 3), (0, 4), (4, 9), (9, 3), (9, 8), (8, 3)] ∧
    isPath (connectEffects (some 0) (some 3) reverbDistortionEffects).connections [0, 3] = true ∧
    8 ∉ [0, 3] ∧
    (connectEffects (some 0) (some 3)
      { reverbDistortionEffects with connections := [] }).connections =
      [(0, 3), (0, 4), (4, 9), (9, 3), (9, 8), (8, 3)] := by
  decide

theorem mem_disconnect (x : Nat × Nat) (a : Nat) (cs : List (Nat × Nat)) :
    x ∈ disconnect a cs ↔ x ∈ cs ∧ x.1 ≠ a := by
  simp only [disconnect, List.mem_filter, bne_iff_ne, ne_eq]

/-- The connections after a step of `connectEffects` are those before it and
the ones the step makes when its effect is enabled. -/
theorem connectFilter_mem (r : Effects × Nat) (f : Nat) (hf : r.1.filterNode = some f)
    (x : Nat × Nat) :
    x ∈ (connectFilter r).1.connections ↔
      x ∈ r.1.connections ∨ (r.1.state.filterEnabled = true ∧ x = (r.2, f)) := by
  cases h : r.1.state.filterEnabled
  · simp [connectFilter, h]
  · simp only [connectFilter, h, hf, mem_connect, true_and]
    exact or_comm

theorem connectReverb_mem (dst : Nat) (r : Effects × Nat) (rv : Nat)
    (hr : r.1.reverbNode = some rv) (x : Nat × Nat) :
    x ∈ (connectReverb dst r).1.connections ↔
      x ∈ r.1.connections ∨ (r.1.state.reverbEnabled = true ∧
        (x = (r.2, dst) ∨ x = (r.2, rv) ∨ x = (rv, r.1.nextNode) ∨ x = (r.1.nextNode, dst))) := by
  cases h : r.1.state.reverbEnabled
  · simp [connectReverb, h]
  · simp only [connectReverb, h, hr, mem_connect, true_and]
    tauto

theorem connectDelay_mem (dst : Nat) (r : Effects × Nat) (d : DelayNodes)
    (hd : r.1.delay = some d) (x : Nat × Nat) :
    x ∈ (connectDelay dst r).1.connections ↔
      x ∈ r.1.connections ∨ (r.1.state.delayEnabled = true ∧
        (x = (r.2, dst) ∨ x = (r.2, d.delayNode) ∨ x = (d.delayNode, d.delayFeedbackNode) ∨
          x = (d.delayFeedbackNode, d.delayNode) ∨ x = (d.delayNode, d.delayMixNode) ∨
          x = (d.delayMixNode, dst))) := by
  cases h : r.1.state.delayEnabled
  · simp [connectDelay, h]
  · simp only [connectDelay, h, hd, mem_connect, true_and]
    tauto

theorem connectDistortion_mem (dst : Nat) (r : Effects × Nat) (ds : Nat)
    (hds : r.1.distortionNode = some ds) (x : Nat × Nat) :
    x ∈ (connectDistortion dst r).1.connections ↔
      x ∈ r.1.connections ∨ (r.1.state.distortionEnabled = true ∧
        (x = (r.2, ds) ∨ x = (ds, dst))) := by
  cases h : r.1.state.distortionEnabled
  · simp [connectDistortion, h]
  · simp only [connectDistortion, h, hds, mem_connect, true_and]
    tauto

theorem connectChain_mem (src dst : Nat) (e : Effects) (x : Nat × Nat) :
    x ∈ (connectChain src dst e).1.connections ↔
      x ∈ (connectDistortion dst (connectDelay dst (connectReverb dst
        (connectFilter ({ e with connections := disconnect src e.connections },
          src))))).1.connections ∨
      ((connectDistortion dst (connectDelay dst (connectReverb dst
        (connectFilter ({ e with connections := disconnect src e.connections },
          src))))).2 = src ∧ x = (src, dst)) := by
  unfold connectChain
  simp only []
  split
  · rename_i h
    simp only [mem_connect, h, true_and]
    exact or_comm
  · rename_i h
    simp only [h, false_and, or_false]

/-- C21, amended: with all effect nodes present, `connectEffects(source,
destination)` keeps every connection that does not leave the source and adds
exactly these: source -> filter when the filter is enabled; for an enabled
reverb, input -> destination (the dry signal), input -> convolver, convolver
-> new mix gain and mix gain -> destination, the input being the filter when
it is enabled and the source otherwise; for an enabled delay, input ->
destination (the dry signal), input -> delay, delay -> feedback, feedback ->
delay, delay -> delay mix and delay mix -> destination, the input being the
reverb mix gain when reverb is enabled and the input of the reverb step
otherwise; for an enabled distortion, input -> distortion and distortion ->
destination, the input being the output of the last enabled earlier step or
the source; and source -> destination when the node reached at the end is
the source.  So the dry signal of an enabled reverb or delay goes straight
to the destination: when reverb or delay is enabled, source -> destination
(source -> filter -> destination with the filter enabled) is a path of the
graph, which does not pass through the distortion node when that node is
distinct from source, filter and destination. -/
theorem connectEffects_dry_and_wet (e : Effects) (src dst f rv ds : Nat) (d : DelayNodes)
    (hctx : e.audioContext = true) (hf : e.filterNode = some f) (hr : e.reverbNode = some rv)
    (hd : e.delay = some d) (hds : e.distortionNode = some ds) :
    (∀ x : Nat × Nat, x ∈ (connectEffects (some src) (some dst) e).connections ↔
      (x ∈ e.connections ∧ x.1 ≠ src) ∨
      (e.state.filterEnabled = true ∧ x = (src, f)) ∨
      (e.state.reverbEnabled = true ∧
        (x = ((if e.state.filterEnabled then f else src), dst) ∨
          x = ((if e.state.filterEnabled then f else src), rv) ∨
          x = (rv, e.nextNode) ∨ x = (e.nextNode, dst))) ∨
      (e.state.delayEnabled = true ∧
        (x = ((if e.state.reverbEnabled then e.nextNode
            else if e.state.filterEnabled then f else src), dst) ∨
          x = ((if e.state.reverbEnabled then e.nextNode
            else if e.state.filterEnabled then f else src), d.delayNode) ∨
          x = (d.delayNode, d.delayFeedbackNode) ∨ x = (d.delayFeedbackNode, d.delayNode) ∨
          x = (d.delayNode, d.delayMixNode) ∨ x = (d.delayMixNode, dst))) ∨
      (e.state.distortionEnabled = true ∧
        (x = ((if e.state.delayEnabled then d.delayMixNode
            else if e.state.reverbEnabled then e.nextNode
            else if e.state.filterEnabled then f else src), ds) ∨
          x = (ds, dst))) ∨
      ((if e.state.distortionEnabled then ds
        else if e.state.delayEnabled then d.delayMixNode
        else if e.state.reverbEnabled then e.nextNode
        else if e.state.filterEnabled then f else src) = src ∧ x = (src, dst))) ∧
    (e.state.reverbEnabled = true ∨ e.state.delayEnabled = true →
      isPath (connectEffects (some src) (some dst) e).connections
        (if e.state.filterEnabled then [src, f, dst] else [src, dst]) = true ∧
      (ds ≠ src → ds ≠ f → ds ≠ dst →
        ds ∉ (if e.state.filterEnabled then [src, f, dst] else [src, dst]))) := by
  have h0 : connectEffects (some src) (some dst) e = (connectChain src dst e).1 := by
    simp only [connectEffects, hctx]
  rw [h0]
  -- the four steps, one after the other
  have hF := connectFilter_node ({ e with connections := disconnect src e.connections }, src) f hf
  have hFf := connectFilter_frame ({ e with connections := disconnect src e.connections }, src)
  have hFe := connectFilter_edges ({ e with connections := disconnect src e.connections }, src) f hf
  have hR := connectReverb_node dst
    (connectFilter ({ e with connections := disconnect src e.connections }, src)) rv
    (by rw [hFf.2.1]; exact hr)
  have hRf := connectReverb_frame dst
    (connectFilter ({ e with connections := disconnect src e.connections }, src))
  have hRe := connectReverb_edges dst
    (connectFilter ({ e with connections := disconnect src e.connections }, src)) rv
    (by rw [hFf.2.1]; exact hr)
  have hD := connectDelay_node dst
    (connectReverb dst
      (connectFilter ({ e with connections := disconnect src e.connections }, src))) d
    (by rw [hRf.2.1, hFf.2.2.1]; exact hd)
  have hDf := connectDelay_frame dst
    (connectReverb dst
      (connectFilter ({ e with connections := disconnect src e.connections }, src)))
  have hDe := connectDelay_edges dst
    (connectReverb dst
      (connectFilter ({ e with connections := disconnect src e.connections }, src))) d
    (by rw [hRf.2.1, hFf.2.2.1]; exact hd)
  have hSe := connectDistortion_edges dst
    (connectDelay dst (connectReverb dst
      (connectFilter ({ e with connections := disconnect src e.connections }, src)))) ds
    (by rw [hDf.2, hRf.2.2, hFf.2.2.2.1]; exact hds)
  simp only [hDf.1, hRf.1, hFf.1, hFf.2.2.2.2, hD.1, hR.1, hF.1] at hFe hRe hDe hSe
  have m4 := connectChain_mono src dst e
  have m3 : ∀ x, x ∈ (connectDelay dst (connectReverb dst
      (connectFilter ({ e with connections := disconnect src e.connections },
        src)))).1.connections → x ∈ (connectChain src dst e).1.connections :=
    fun x hx => m4 x (connectDistortion_mono dst _ x hx)
  have m2 : ∀ x, x ∈ (connectReverb dst
      (connectFilter ({ e with connections := disconnect src e.connections },
        src))).1.connections → x ∈ (connectChain src dst e).1.connections :=
    fun x hx => m3 x (connectDelay_mono dst _ x hx)
  have m1 : ∀ x, x ∈ (connectFilter ({ e with connections := disconnect src e.connections },
        src)).1.connections → x ∈ (connectChain src dst e).1.connections :=
    fun x hx => m2 x (connectReverb_mono dst _ x hx)
  have hfil : e.state.filterEnabled = true → (src, f) ∈ (connectChain src dst e).1.connections :=
    fun h => m1 _ (hFe h)
  have hdry : e.state.reverbEnabled = true ∨ e.state.delayEnabled = true →
      ((if e.state.filterEnabled then f else src), dst) ∈
        (connectChain src dst e).1.connections := by
    intro h
    by_cases h2 : e.state.reverbEnabled = true
    · exact m2 _ (hRe h2).1
    · rcases h with h | h
      · exact absurd h h2
      · have h3 := m3 _ (hDe h).1
        simpa only [h2, if_false] using h3
  have hS := connectDistortion_node dst
    (connectDelay dst (connectReverb dst
      (connectFilter ({ e with connections := disconnect src e.connections }, src)))) ds
    (by rw [hDf.2, hRf.2.2, hFf.2.2.2.1]; exact hds)
  simp only [hDf.1, hRf.1, hFf.1] at hS
  have hcur : (connectDistortion dst (connectDelay dst (connectReverb dst
      (connectFilter ({ e with connections := disconnect src e.connections }, src))))).2 =
      (if e.state.distortionEnabled then ds
        else if e.state.delayEnabled then d.delayMixNode
        else if e.state.reverbEnabled then e.nextNode
        else if e.state.filterEnabled then f else src) := by
    rw [hS.1, hD.1, hR.1, hF.1]
    simp only [hRf.1, hFf.1, hFf.2.2.2.2]
  have mF := connectFilter_mem ({ e with connections := disconnect src e.connections }, src) f hf
  have mR := connectReverb_mem dst
    (connectFilter ({ e with connections := disconnect src e.connections }, src)) rv
    (by rw [hFf.2.1]; exact hr)
  have mD := connectDelay_mem dst
    (connectReverb dst
      (connectFilter ({ e with connections := disconnect src e.connections }, src))) d
    (by rw [hRf.2.1, hFf.2.2.1]; exact hd)
  have mS := connectDistortion_mem dst
    (connectDelay dst (connectReverb dst
      (connectFilter ({ e with connections := disconnect src e.connections }, src)))) ds
    (by rw [hDf.2, hRf.2.2, hFf.2.2.2.1]; exact hds)
  simp only [hDf.1, hRf.1, hFf.1, hFf.2.2.2.2, hD.1, hR.1, hF.1] at mF mR mD mS
  refine ⟨?_, ?_⟩
  · intro x
    rw [connectChain_mem, hcur, mS x, mD x, mR x, mF x, mem_disconnect]
    simp only [or_assoc]
  · intro h
    have hd := hdry h
    cases h1 : e.state.filterEnabled
    · simp only [h1, Bool.false_eq_true, if_false] at hd ⊢
      refine ⟨?_, ?_⟩
      · simp only [isPath, hd, decide_True, Bool.and_self]
      · intro a _ c
        simp only [List.mem_cons, List.mem_singleton, List.not_mem_nil, or_false, not_or]
        exact ⟨a, c⟩
    · simp only [h1, if_true] at hd ⊢
      refine ⟨?_, ?_⟩
      · simp only [isPath, hd, hfil h1, decide_True, Bool.and_self]
      · intro a b c
        simp only [List.mem_cons, List.mem_singleton, List.not_mem_nil, or_false, not_or]
        exact ⟨a, b, c⟩

theorem connectEffects_dry_and_wet_witness :
    reverbDistortionEffects.audioContext = true ∧
    reverbDistortionEffects.state.reverbEnabled = true ∧
    reverbDistortionEffects.state.distortionEnabled = true ∧
    (0, 3) ∈ (connectEffects (some 0) (some 3) reverbDistortionEffects).connections ∧
    (9, 8) ∈ (connectEffects (some 0) (some 3) reverbDistortionEffects).connections ∧
    ((0, 8) ∈ (connectEffects (some 0) (some 3) reverbDistortionEffects).connections ↔
      (0, 8) ∈ reverbDistortionEffects.connections ∧ 0 ≠ 0) ∧
    isPath (connectEffects (some 0) (some 3) reverbDistortionEffects).connections [0, 3] = true ∧
    8 ∉ [0, 3] :=
  have h := connectEffects_dry_and_wet reverbDistortionEffects 0 3 1 4 8
    { delayNode := 5, delayFeedbackNode := 6, delayMixNode := 7 } rfl rfl rfl rfl rfl
  ⟨rfl, rfl, rfl, (h.1 (0, 3)).mpr (Or.inr (Or.inr (Or.inl ⟨rfl, Or.inl rfl⟩))),
    (h.1 (9, 8)).mpr (Or.inr (Or.inr (Or.inr (Or.inr (Or.inl ⟨rfl, Or.inl rfl⟩))))),
    (h.1 (0, 8)).trans (by decide),
    (h.2 (Or.inl rfl)).1, (h.2 (Or.inl rfl)).2 (by decide) (by decide) (by decide)⟩

/-- C22 fails for reverb: every `connectEffects` with reverb enabled creates
a new mix gain node, and only the connections of the source are removed.
From the chain built with reverb enabled, `updateReverbEffect` with
`enabled: false` and then `enabled: true` leaves the old wet branch
convolver 4 -> gain 9 -> destination 3 in place and adds convolver 4 ->
gain 10 -> destination 3.  It fails for delay as well: with filter and
distortion enabled, disabling the delay connects filter 1 -> distortion 8,
and enabling it again does not remove that connection. -/
theorem toggle_adds_connections (pf : Platform) :
    reverbOnEffects.state.reverbEnabled = true ∧
    reverbOnEffects.connections = [(1, 2), (2, 3), (0, 3), (0, 4), (4, 9), (9, 3)] ∧
    (∃ e1 e2,
      updateReverbEffect pf { enabled := some false } reverbOnEffects = Except.ok e1 ∧
      updateReverbEffect pf { enabled := some true } e1 = Except.ok e2 ∧
      e2.state = reverbOnEffects.state ∧
      e1.connections = [(1, 2), (2, 3), (4, 9), (9, 3), (0, 3)] ∧
      e2.connections =
        [(1, 2), (2, 3), (4, 9), (9, 3), (0, 3), (0, 4), (4, 10), (10, 3)] ∧
      (4, 10) ∈ e2.connections ∧ (4, 10) ∉ reverbOnEffects.connections) ∧
    filterDelayDistortionEffects.state.delayEnabled = true ∧
    filterDelayDistortionEffects.connections =
      [(0, 1), (1, 3), (1, 5), (5, 6), (6, 5), (5, 7), (7, 3), (7, 8), (8, 3)] ∧
    (updateDelayEffect { enabled := some true }
      (updateDelayEffect { enabled := some false } filterDelayDistortionEffects)).state =
      filterDelayDistortionEffects.state ∧
    (updateDelayEffect { enabled := some true }
      (updateDelayEffect { enabled := some false } filterDelayDistortionEffects)).connections =
      [(1, 3), (1, 5), (5, 6), (6, 5), (5, 7), (7, 3), (7, 8), (8, 3), (1, 8), (0, 1)] ∧
    (1, 8) ∉ filterDelayDistortionEffects.connections := by
  refine ⟨rfl, by decide, ⟨_, _, rfl, rfl, ?_, ?_, ?_, ?_, ?_⟩, rfl, by decide, ?_, ?_, by decide⟩
  · rfl
  · decide
  · decide
  · decide
  · decide
  · rfl
  · decide

theorem liveFilter_updateFilter (params : FilterParams) (w : World) (type : String)
    (frequency q : ℚ) (hlive : liveFilter w = some (type, frequency, q)) :
    liveFilter (updateFilter params w) =
      some
        ((match params.type with
          | some t => if t ≠ "" ∧ t ∈ biquadFilterTypes then t else type
          | none => type),
         (match params.frequency with
          | some v => if v ≠ 0 then v else frequency
          | none => frequency),
         (match params.Q with
          | some v => if v ≠ 0 then v else q
          | none => q)) := by
  unfold liveFilter at hlive
  cases hctx : w.audioContext with
  | none => simp [hctx] at hlive
  | some ctx =>
    rw [hctx] at hlive
    simp only [] at hlive
    cases hn : ctx.nodes[ctx.filterNode]? with
    | none => simp [hn] at hlive
    | some node =>
      rw [hn] at hlive
      have hlt : ctx.filterNode < ctx.nodes.length := by
        by_contra hge
        rw [List.getElem?_eq_none (Nat.le_of_not_lt hge)] at hn
        exact absurd hn (by simp)
      cases node with
      | biquadFilter t f k =>
        simp only [Option.some.injEq, Prod.mk.injEq] at hlive
        obtain ⟨rfl, rfl, rfl⟩ := hlive
        simp only [updateFilter, hctx, hn, liveFilter, List.getElem?_set_self hlt]
      | gain _ _ => simp at hlive
      | analyser _ => simp at hlive
      | bufferSource _ => simp at hlive
      | oscillator _ _ _ => simp at hlive

/-- C23: while the filter is disabled, `updateFilterEffect(params)` without
`enabled` stores the truthy parameters in `effectsState.filter`, leaves the
filter disabled, and sets the frequency and Q of the live filter node to the
bypass values 22050 and 0.01; but it assigns the stored filter type, the new
`params.type` included, to the live node, so the type the node applies
changes whenever that string is a filter type other than the node's. -/
theorem updateFilterEffect_while_disabled (pg : Page) (params : FilterEffectParams)
    (type : String) (frequency q : ℚ)
    (hlive : liveFilter pg.world = some (type, frequency, q))
    (hoff : pg.effects.state.filterEnabled = false) (hen : params.enabled = none) :
    (updateFilterEffect params pg).effects.state =
      updateFilterState params pg.effects.state ∧
    (updateFilterEffect params pg).effects.state.filterEnabled = false ∧
    liveFilter (updateFilterEffect params pg).world =
      some
        ((if (updateFilterState params pg.effects.state).filterType ∈ biquadFilterTypes then
            (updateFilterState params pg.effects.state).filterType
          else type), 22050, 0.01) := by
  have hs : (updateFilterState params pg.effects.state).filterEnabled = false := by
    simp only [updateFilterState, hen, Option.getD_none, hoff]
  refine ⟨rfl, hs, ?_⟩
  unfold updateFilterEffect
  simp only []
  rw [liveFilter_updateFilter _ _ type frequency q hlive]
  simp only [hs, Bool.false_eq_true, if_false]
  have hne : ∀ t : String, (t ≠ "" ∧ t ∈ biquadFilterTypes) ↔ t ∈ biquadFilterTypes := by
    intro t
    constructor
    · exact fun h => h.2
    · intro h
      refine ⟨?_, h⟩
      rintro rfl
      exact absurd h (by decide)
  have h1 : (22050 : ℚ) ≠ 0 := by norm_num
  have h2 : (0.01 : ℚ) ≠ 0 := by norm_num
  simp only [hne, ne_eq, h1, h2, not_false_eq_true, if_true]

theorem updateFilterEffect_while_disabled_witness :
    liveFilter (updateFilterEffect { enabled := some false } freshPage).world =
      some ("lowpass", 22050, 0.01) ∧
    (updateFilterEffect { enabled := some false } freshPage).effects.state.filterEnabled = false ∧
    liveFilter (updateFilterEffect { type := some "highpass" }
      (updateFilterEffect { enabled := some false } freshPage)).world =
      some ("highpass", 22050, 0.01) ∧
    (updateFilterEffect { type := some "highpass" }
      (updateFilterEffect { enabled := some false } freshPage)).effects.state.filterEnabled =
      false :=
  have h := updateFilterEffect_while_disabled
    (updateFilterEffect { enabled := some false } freshPage) { type := some "highpass" }
    "lowpass" 22050 0.01 (by decide!) rfl rfl
  ⟨by decide!, rfl, h.2.2.trans (by decide!), h.2.1⟩

/-- What `connectEffects` leaves alone. -/
theorem connectEffects_keep (src dst : Option Nat) (e : Effects) :
    (connectEffects src dst e).state = e.state ∧
    (connectEffects src dst e).reverbBuffer = e.reverbBuffer ∧
    (connectEffects src dst e).distortionCurve = e.distortionCurve := by
  have hF : ∀ r : Effects × Nat, (connectFilter r).1.state = r.1.state ∧
      (connectFilter r).1.reverbBuffer = r.1.reverbBuffer ∧
      (connectFilter r).1.distortionCurve = r.1.distortionCurve := by
    intro r
    unfold connectFilter
    split <;> exact ⟨rfl, rfl, rfl⟩
  have hR : ∀ (d : Nat) (r : Effects × Nat), (connectReverb d r).1.state = r.1.state ∧
      (connectReverb d r).1.reverbBuffer = r.1.reverbBuffer ∧
      (connectReverb d r).1.distortionCurve = r.1.distortionCurve := by
    intro d r
    unfold connectReverb
    split <;> exact ⟨rfl, rfl, rfl⟩
  have hD : ∀ (d : Nat) (r : Effects × Nat), (connectDelay d r).1.state = r.1.state ∧
      (connectDelay d r).1.reverbBuffer = r.1.reverbBuffer ∧
      (connectDelay d r).1.distortionCurve = r.1.distortionCurve := by
    intro d r
    unfold connectDelay
    split <;> exact ⟨rfl, rfl, rfl⟩
  have hS : ∀ (d : Nat) (r : Effects × Nat), (connectDistortion d r).1.state = r.1.state ∧
      (connectDistortion d r).1.reverbBuffer = r.1.reverbBuffer ∧
      (connectDistortion d r).1.distortionCurve = r.1.distortionCurve := by
    intro d r
    unfold connectDistortion
    split <;> exact ⟨rfl, rfl, rfl⟩
  have hC : ∀ (s d : Nat), (connectChain s d e).1.state = e.state ∧
      (connectChain s d e).1.reverbBuffer = e.reverbBuffer ∧
      (connectChain s d e).1.distortionCurve = e.distortionCurve := by
    intro s d
    have h4 := hS d (connectDelay d (connectReverb d
      (connectFilter ({ e with connections := disconnect s e.connections }, s))))
    have h3 := hD d (connectReverb d
      (connectFilter ({ e with connections := disconnect s e.connections }, s)))
    have h2 := hR d (connectFilter ({ e with connections := disconnect s e.connections }, s))
    have h1 := hF ({ e with connections := disconnect s e.connections }, s)
    unfold connectChain
    simp only []
    split
    · exact ⟨h4.1.trans (h3.1.trans (h2.1.trans h1.1)),
        h4.2.1.trans (h3.2.1.trans (h2.2.1.trans h1.2.1)),
        h4.2.2.trans (h3.2.2.trans (h2.2.2.trans h1.2.2))⟩
    · exact ⟨h4.1.trans (h3.1.trans (h2.1.trans h1.1)),
        h4.2.1.trans (h3.2.1.trans (h2.2.1.trans h1.2.1)),
        h4.2.2.trans (h3.2.2.trans (h2.2.2.trans h1.2.2))⟩
  unfold connectEffects
  split
  · exact hC _ _
  · exact ⟨rfl, rfl, rfl⟩

theorem reconnect_keep (e : Effects) :
    (reconnect e).state = e.state ∧ (reconnect e).reverbBuffer = e.reverbBuffer ∧
    (reconnect e).distortionCurve = e.distortionCurve := by
  unfold reconnect
  split
  · exact connectEffects_keep _ _ e
  · exact ⟨rfl, rfl, rfl⟩

theorem frameCount_natCast (n : Nat) : frameCount (n : ℚ) = n := by
  simp [frameCount]

/-- C24: with audio context and convolver present and a positive sample
rate, for every decay `d > 0` (in particular every `d` in [0.1, 10]) for
which `d * sampleRate` is an integer `n`, `updateReverbEffect` with
`decay: d` succeeds and stores, on the convolver and in
`effectsState.reverb.impulseResponse`, a buffer of two channels of `n`
samples each; sample `i` of both channels is `r * pow(1 - i/n, d)` with
`r = random() * 2 - 1` in [-1, 1), so its absolute value is at most
`pow(1 - i/n, d)`, which is at most 1. -/
theorem updateReverbEffect_decay (pf : Platform) (e : Effects) (rv : Nat) (d : ℚ) (n : Nat)
    (hctx : e.audioContext = true) (hr : e.reverbNode = some rv) (hsr : 0 < e.sampleRate)
    (hd : 0 < d) (hn : (e.sampleRate : ℚ) * d = n)
    (hrand : ∀ i, 0 ≤ pf.random i ∧ pf.random i < 1)
    (hpow : ∀ x y : ℚ, 0 ≤ x → x ≤ 1 → 0 < y → 0 ≤ pf.pow x y ∧ pf.pow x y ≤ 1) :
    ∃ e1 buf, updateReverbEffect pf { decay := some d } e = Except.ok e1 ∧
      e1.state.reverbDecay = d ∧
      e1.state.reverbImpulseResponse = some buf ∧ e1.reverbBuffer = some buf ∧
      0 < n ∧ buf.left.length = n ∧ buf.right.length = n ∧
      ∀ i, i < n →
        buf.left[i]? = some ((pf.random i * 2 - 1) * pf.pow (1 - (i : ℚ) / n) d) ∧
        buf.right[i]? = some ((pf.random i * 2 - 1) * pf.pow (1 - (i : ℚ) / n) d) ∧
        -1 ≤ pf.random i * 2 - 1 ∧ pf.random i * 2 - 1 < 1 ∧
        |(pf.random i * 2 - 1) * pf.pow (1 - (i : ℚ) / n) d| ≤ pf.pow (1 - (i : ℚ) / n) d ∧
        pf.pow (1 - (i : ℚ) / n) d ≤ 1 := by
  have hnpos : (0 : ℚ) < n := by
    rw [← hn]
    exact mul_pos (by exact_mod_cast hsr) hd
  have hn0 : 0 < n := by exact_mod_cast hnpos
  have hn1 : ¬ ((n : ℚ) < 1) := by
    have : (1 : ℚ) ≤ n := by exact_mod_cast hn0
    linarith
  let buf : ImpulseBuffer :=
    { sampleRate := e.sampleRate
      left := (List.range n).map (impulseSample pf n d)
      right := (List.range n).map (impulseSample pf n d) }
  let e2 : Effects :=
    { e with
      reverbBuffer := some buf
      state := { e.state with reverbDecay := d, reverbImpulseResponse := some buf } }
  have hgen : generateReverbImpulse pf
      { e with state := { e.state with reverbDecay := d } } = Except.ok e2 := by
    simp only [generateReverbImpulse, hctx, hr, hn, hn1, if_false, frameCount_natCast, e2, buf]
  have hk := reconnect_keep e2
  refine ⟨reconnect e2, buf, ?_, ?_, ?_, ?_, hn0, ?_, ?_, ?_⟩
  · simp only [updateReverbEffect, updateReverbState, Option.getD_none, Option.getD_some]
    rw [hgen]
  · rw [hk.1]
  · rw [hk.1]
  · rw [hk.2.1]
  · simp only [buf, List.length_map, List.length_range]
  · simp only [buf, List.length_map, List.length_range]
  · intro i hi
    have hr0 := (hrand i).1
    have hr1 := (hrand i).2
    have hx0 : (0 : ℚ) ≤ 1 - (i : ℚ) / n := by
      have : (i : ℚ) / n ≤ 1 := by
        rw [div_le_one hnpos]
        exact_mod_cast hi.le
      linarith
    have hx1 : 1 - (i : ℚ) / n ≤ 1 := by
      have : (0 : ℚ) ≤ (i : ℚ) / n := div_nonneg (Nat.cast_nonneg i) hnpos.le
      linarith
    have hp := hpow _ d hx0 hx1 hd
    have hs : ((List.range n).map (impulseSample pf n d))[i]? =
        some ((pf.random i * 2 - 1) * pf.pow (1 - (i : ℚ) / n) d) := by
      rw [List.getElem?_map, List.getElem?_range hi]
      rfl
    refine ⟨hs, hs, by linarith, by linarith, ?_, hp.2⟩
    rw [abs_mul, abs_of_nonneg hp.1]
    have habs : |pf.random i * 2 - 1| ≤ 1 := by
      rw [abs_le]
      constructor <;> linarith
    calc |pf.random i * 2 - 1| * pf.pow (1 - (i : ℚ) / n) d
        ≤ 1 * pf.pow (1 - (i : ℚ) / n) d := mul_le_mul_of_nonneg_right habs hp.1
      _ = pf.pow (1 - (i : ℚ) / n) d := one_mul _

theorem updateReverbEffect_decay_witness :
    filterOnlyEffects.audioContext = true ∧ filterOnlyEffects.reverbNode = some 4 ∧
    filterOnlyEffects.sampleRate = 44100 ∧ filterOnlyEffects.state.reverbDecay = 2 ∧
    ∃ e1 buf, updateReverbEffect examplePlatform { decay := some 4 } filterOnlyEffects =
        Except.ok e1 ∧
      e1.state.reverbDecay = 4 ∧ e1.reverbBuffer = some buf ∧
      buf.left.length = 176400 ∧ buf.right.length = 176400 := by
  obtain ⟨e1, buf, h1, h2, _, h4, _, h6, h7, _⟩ :=
    updateReverbEffect_decay examplePlatform filterOnlyEffects 4 4 176400 rfl rfl
      (by decide) (by norm_num)
      (by show ((44100 : ℕ) : ℚ) * 4 = ((176400 : ℕ) : ℚ); norm_num)
      (fun _ => by norm_num [examplePlatform])
      (fun x _ h0 h1 _ => ⟨h0, h1⟩)
  exact ⟨rfl, rfl, rfl, by decide!, e1, buf, h1, h2, h4, h6, h7⟩

/-- The points of a distortion curve: point `i` is `f(x_i)` with
`f(x) = (3 + amount) * x * (20 * pi / 180) / (pi + amount * |x|)` and
`x_i = 2i/44100 - 1` in [-1, 1]. -/
theorem distortionPoint_spec (pf : Platform) (amount : ℚ) (i : Nat) (hi : i < 44100)
    (hamount : 0 ≤ amount) (hpi : 0 < pf.pi) :
    distortionPoint pf amount i =
      (3 + amount) * (2 * (i : ℚ) / 44100 - 1) * (20 * pf.pi / 180) /
        (pf.pi + amount * |2 * (i : ℚ) / 44100 - 1|) ∧
    -1 ≤ 2 * (i : ℚ) / 44100 - 1 ∧ 2 * (i : ℚ) / 44100 - 1 ≤ 1 ∧
    0 < pf.pi + amount * |2 * (i : ℚ) / 44100 - 1| := by
  have hiq : (i : ℚ) < 44100 := by exact_mod_cast hi
  have hi0 : (0 : ℚ) ≤ i := Nat.cast_nonneg i
  refine ⟨?_, ?_, ?_, ?_⟩
  · simp only [distortionPoint]
    have hx : (i : ℚ) * 2 / 44100 - 1 = 2 * (i : ℚ) / 44100 - 1 := by ring
    rw [hx]
    ring
  · have : (0 : ℚ) ≤ 2 * (i : ℚ) / 44100 := by positivity
    linarith
  · have : 2 * (i : ℚ) / 44100 ≤ 2 := by
      rw [div_le_iff₀ (by norm_num)]
      linarith
    linarith
  · have : 0 ≤ amount * |2 * (i : ℚ) / 44100 - 1| := mul_nonneg hamount (abs_nonneg _)
    linarith

/-- When `createEffectNodes` runs with an audio context and the impulse
response has at least one frame, it ends without error and leaves a wave
shaper carrying the curve of the stored amount. -/
theorem createEffectNodes_curve (pf : Platform) (e : Effects) (hctx : e.audioContext = true)
    (hlen : ¬ ((e.sampleRate : ℚ) * e.state.reverbDecay < 1)) :
    (createEffectNodes pf e).2 = none ∧
    (createEffectNodes pf e).1.audioContext = true ∧
    (createEffectNodes pf e).1.distortionNode = some (e.nextNode + 4) ∧
    (createEffectNodes pf e).1.distortionCurve =
      some ((List.range 44100).map (distortionPoint pf e.state.distortionAmount)) ∧
    (createEffectNodes pf e).1.state.distortionAmount = e.state.distortionAmount := by
  simp only [createEffectNodes, hctx, Bool.true_eq_false, if_false, generateReverbImpulse, hlen,
    updateDistortionCurve, and_self]

/-- C25 fails on every wave shaper that carries a curve, which is every wave
shaper `createEffectNodes` has made: `updateDistortionEffect` with an
`amount` stores the amount in `effectsState`, but the second assignment to
`distortionNode.curve` in `updateDistortionCurve` throws `InvalidStateError`;
the call ends there, the wave shaper keeps the curve it had, and the chain is
not reconnected. -/
theorem updateDistortionEffect_keeps_curve (pf : Platform) (e : Effects) (ds : Nat)
    (curve : List ℚ) (amount : ℚ)
    (hctx : e.audioContext = true) (hds : e.distortionNode = some ds)
    (hcurve : e.distortionCurve = some curve) :
    (updateDistortionEffect pf { amount := some amount } e).2 = some "InvalidStateError" ∧
    (updateDistortionEffect pf { amount := some amount } e).1.distortionCurve = some curve ∧
    (updateDistortionEffect pf { amount := some amount } e).1.state.distortionAmount = amount ∧
    (updateDistortionEffect pf { amount := some amount } e).1.connections = e.connections := by
  simp only [updateDistortionEffect, Option.getD_none, updateDistortionCurve, hctx, hds, hcurve,
    and_self]

theorem updateDistortionEffect_keeps_curve_witness :
    (createEffectNodes examplePlatform bareEffects).2 = none ∧
    (createEffectNodes examplePlatform bareEffects).1.state.distortionAmount = 20 ∧
    (createEffectNodes examplePlatform bareEffects).1.distortionCurve =
      some ((List.range 44100).map (distortionPoint examplePlatform 20)) ∧
    (updateDistortionEffect examplePlatform { amount := some 50 }
      (createEffectNodes examplePlatform bareEffects).1).2 = some "InvalidStateError" ∧
    (updateDistortionEffect examplePlatform { amount := some 50 }
      (createEffectNodes examplePlatform bareEffects).1).1.state.distortionAmount = 50 ∧
    (updateDistortionEffect examplePlatform { amount := some 50 }
      (createEffectNodes examplePlatform bareEffects).1).1.distortionCurve =
      some ((List.range 44100).map (distortionPoint examplePlatform 20)) ∧
    distortionPoint examplePlatform 50 0 ≠ distortionPoint examplePlatform 20 0 := by
  have hc := createEffectNodes_curve examplePlatform bareEffects rfl
    (by norm_num [bareEffects, initialEffectsState])
  have h := updateDistortionEffect_keeps_curve examplePlatform
    (createEffectNodes examplePlatform bareEffects).1 8
    ((List.range 44100).map (distortionPoint examplePlatform 20)) 50 hc.2.1 hc.2.2.1 hc.2.2.2.1
  refine ⟨hc.1, hc.2.2.2.2, hc.2.2.2.1, h.1, h.2.2.1, h.2.1, ?_⟩
  norm_num [distortionPoint, examplePlatform]

/-- C26: for every payload object whose `tracks` is missing, is not an array,
or is an array of a length other than 8, `importPattern` rejects with
`Invalid pattern format` and leaves the whole page, the cells of the grid and
the tempo included, exactly as it was. -/
theorem importPattern_invalid_tracks (pf : Platform) (p : PatternPayload) (pg : Page)
    (h : p.tracks = TracksField.missing ∨ (∃ v, p.tracks = TracksField.notArray v) ∨
      ∃ entries, p.tracks = TracksField.array entries ∧ entries.length ≠ 8) :
    importPattern pf (Parsed.object p) pg =
      (ImportResult.rejected "Invalid pattern format", pg) ∧
    (importPattern pf (Parsed.object p) pg).2.world.dom = pg.world.dom ∧
    (importPattern pf (Parsed.object p) pg).2.world.tempo = pg.world.tempo := by
  have key : importPattern pf (Parsed.object p) pg =
      (ImportResult.rejected "Invalid pattern format", pg) := by
    rcases h with h | ⟨v, h⟩ | ⟨entries, h, hlen⟩
    · simp only [importPattern, h]
    · simp only [importPattern, h]
    · simp only [importPattern, h, hlen, ne_eq, not_false_eq_true, if_true]
  rw [key]
  exact ⟨rfl, rfl, rfl⟩

theorem importPattern_invalid_tracks_witness :
    (∃ entries, shortPayload.tracks = TracksField.array entries ∧ entries.length = 7) ∧
    importPattern examplePlatform (Parsed.object shortPayload) examplePage =
      (ImportResult.rejected "Invalid pattern format", examplePage) :=
  ⟨⟨_, rfl, rfl⟩,
    (importPattern_invalid_tracks examplePlatform shortPayload examplePage
      (Or.inr (Or.inr ⟨_, rfl, by decide⟩))).1⟩

/-- C27 fails: the check of `importPattern` looks only at the number of
entries of `tracks`.  On the page with `exampleGrid` drawn, a payload of
eight entries whose second entry is the number 5 is rejected with the
`TypeError` of `track.forEach`, but only after the pattern was cleared, the
tempo set to 90 and the first track applied: the grid afterwards holds the
single note of the first track, not the pattern it held before. -/
theorem importPattern_partially_applied (pf : Platform) :
    (∃ entries, malformedPayload.tracks = TracksField.array entries ∧ entries.length = 8 ∧
      entries[1]? = some (TrackEntry.notArray (JsonScalar.number 5))) ∧
    (importPattern pf (Parsed.object malformedPayload) examplePage).1 =
      ImportResult.rejected "TypeError" ∧
    exportTracks examplePage.world.dom =
      [[0, 4, 8, 12], [], [0, 2, 4, 6, 8, 10, 12, 14], [], [], [4], [], []] ∧
    exportTracks (importPattern pf (Parsed.object malformedPayload) examplePage).2.world.dom =
      [[1], [], [], [], [], [], [], []] ∧
    (importPattern pf (Parsed.object malformedPayload) examplePage).2.world.dom ≠
      examplePage.world.dom ∧
    examplePage.world.tempo = 120 ∧
    (importPattern pf (Parsed.object malformedPayload) examplePage).2.world.tempo = 90 := by
  have key : importPattern pf (Parsed.object malformedPayload) examplePage =
      importPattern examplePlatform (Parsed.object malformedPayload) examplePage := rfl
  rw [key]
  have h1 : exportTracks examplePage.world.dom =
      [[0, 4, 8, 12], [], [0, 2, 4, 6, 8, 10, 12, 14], [], [], [4], [], []] := by decide!
  have h2 : exportTracks
      (importPattern examplePlatform (Parsed.object malformedPayload) examplePage).2.world.dom =
      [[1], [], [], [], [], [], [], []] := by decide!
  refine ⟨⟨_, rfl, rfl, rfl⟩, by decide!, h1, h2, ?_, by decide!, by decide!⟩
  intro h
  rw [h, h1] at h2
  exact absurd h2 (by decide)

theorem mem_initializeGrid (x : Cell) (h : x ∈ initializeGrid) : x.row < 8 ∧ x.col < 16 := by
  simp only [initializeGrid, List.mem_flatMap, List.mem_map, List.mem_range] at h
  obtain ⟨r, hr, c, hc, rfl⟩ := h
  exact ⟨hr, hc⟩

theorem initializeGrid_positions_nodup :
    (initializeGrid.map (fun x => (x.row, x.col))).Nodup := by
  have h : initializeGrid.map (fun x => (x.row, x.col)) =
      List.product (List.range 8) (List.range 16) := by
    simp only [initializeGrid, List.map_flatMap, List.map_map, List.product]
    rfl
  rw [h]
  exact List.Nodup.product (List.nodup_range 8) (List.nodup_range 16)

/-- The cells of `gridDom` depend on the classes of rows below 8 and columns
below 16 only. -/
theorem gridDom_congr (a a2 p p2 : Nat → Nat → Bool)
    (h : ∀ r c, r < 8 → c < 16 → a r c = a2 r c ∧ p r c = p2 r c) :
    gridDom a p = gridDom a2 p2 := by
  unfold gridDom
  apply List.map_congr_left
  intro x hx
  have hx2 := mem_initializeGrid x hx
  rw [(h x.row x.col hx2.1 hx2.2).1, (h x.row x.col hx2.1 hx2.2).2]

/-- On cells at distinct positions, activating the first cell at a position
is activating every cell at that position. -/
theorem activateCell_map (a p : Nat → Nat → Bool) (r c : Nat) (l : List Cell)
    (hnd : (l.map (fun x => (x.row, x.col))).Nodup) :
    activateCell r (c : ℚ)
      (l.map (fun x => { x with active := a x.row x.col, playing := p x.row x.col })) =
    l.map (fun x => { x with active := a x.row x.col || (x.row == r && x.col == c),
                             playing := p x.row x.col }) := by
  induction l with
  | nil => rfl
  | cons x xs ih =>
    rw [List.map_cons, List.nodup_cons] at hnd
    simp only [List.map_cons, activateCell, Nat.cast_inj]
    by_cases hx : x.row = r ∧ x.col = c
    · rw [if_pos hx]
      congr 1
      · simp only [hx.1, hx.2, beq_self_eq_true, Bool.and_self, Bool.or_true]
      · apply List.map_congr_left
        intro y hy
        have hne : ¬ (y.row = r ∧ y.col = c) := by
          rintro ⟨h1, h2⟩
          apply hnd.1
          rw [List.mem_map]
          exact ⟨y, hy, by rw [h1, h2, hx.1, hx.2]⟩
        have hb : (y.row == r && y.col == c) = false := by
          rw [Bool.and_eq_false_iff]
          by_cases h1 : y.row = r
          · right
            exact beq_false_of_ne (fun h2 => hne ⟨h1, h2⟩)
          · left
            exact beq_false_of_ne h1
        rw [hb, Bool.or_false]
    · rw [if_neg hx, ih hnd.2]
      congr 1
      have hb : (x.row == r && x.col == c) = false := by
        rw [Bool.and_eq_false_iff]
        by_cases h1 : x.row = r
        · right
          exact beq_false_of_ne (fun h2 => hx ⟨h1, h2⟩)
        · left
          exact beq_false_of_ne h1
      rw [hb, Bool.or_false]

theorem activateCell_gridDom (a p : Nat → Nat → Bool) (r c : Nat) :
    activateCell r (c : ℚ) (gridDom a p) =
      gridDom (fun r2 c2 => a r2 c2 || (r2 == r && c2 == c)) p :=
  activateCell_map a p r c initializeGrid initializeGrid_positions_nodup

theorem applyTrack_gridDom (r : Nat) (cols : List Nat) (a p : Nat → Nat → Bool) :
    applyTrack r (cols.map (fun (c : Nat) => (c : ℚ))) (gridDom a p) =
      gridDom (fun r2 c2 => a r2 c2 || (r2 == r && decide (c2 ∈ cols))) p := by
  induction cols generalizing a with
  | nil =>
    simp only [applyTrack, List.map_nil, List.foldl_nil, List.not_mem_nil, decide_False,
      Bool.and_false, Bool.or_false]
  | cons c cs ih =>
    have hstep : applyTrack r ((c :: cs).map (fun (c : Nat) => (c : ℚ))) (gridDom a p) =
        applyTrack r (cs.map (fun (c : Nat) => (c : ℚ))) (activateCell r (c : ℚ) (gridDom a p)) := rfl
    rw [hstep, activateCell_gridDom, ih]
    apply gridDom_congr
    intro r2 c2 _ _
    refine ⟨?_, rfl⟩
    by_cases h1 : r2 = r
    · by_cases h2 : c2 = c
      · simp [h1, h2, List.mem_cons]
      · have hb : (c2 == c) = false := beq_false_of_ne h2
        simp [h1, h2, hb, List.mem_cons]
    · have hb : (r2 == r) = false := beq_false_of_ne h1
      simp [hb]
theorem applyTracks_gridDom (tracks : List (List Nat)) (k : Nat) (a p : Nat → Nat → Bool) :
    applyTracks k
      (tracks.map (fun cols => TrackEntry.columns (cols.map (fun (c : Nat) => (c : ℚ)))))
      (gridDom a p) =
    (gridDom (fun r c => a r c || (decide (k ≤ r) && decide (c ∈ (tracks[r - k]?).getD []))) p,
      true) := by
  induction tracks generalizing k a with
  | nil =>
    simp only [List.map_nil, applyTracks, List.getElem?_nil, Option.getD_none, List.not_mem_nil,
      decide_False, Bool.and_false, Bool.or_false]
  | cons t ts ih =>
    simp only [List.map_cons, applyTracks]
    rw [applyTrack_gridDom, ih]
    congr 1
    apply gridDom_congr
    intro r c _ _
    refine ⟨?_, rfl⟩
    rcases Nat.lt_trichotomy r k with h | h | h
    · have h1 : (r == k) = false := beq_false_of_ne (Nat.ne_of_lt h)
      have h2 : decide (k + 1 ≤ r) = false := decide_eq_false (by omega)
      have h3 : decide (k ≤ r) = false := decide_eq_false (by omega)
      simp only [h1, h2, h3, Bool.false_and, Bool.or_false]
    · subst h
      have h2 : decide (r + 1 ≤ r) = false := decide_eq_false (by omega)
      simp only [beq_self_eq_true, Bool.true_and, h2, Bool.false_and, Bool.or_false,
        Nat.le_refl, decide_True, Nat.sub_self, List.getElem?_cons_zero, Option.getD_some]
    · have h1 : (r == k) = false := beq_false_of_ne (Nat.ne_of_gt h)
      have h2 : decide (k + 1 ≤ r) = true := decide_eq_true (by omega)
      have h3 : decide (k ≤ r) = true := decide_eq_true (by omega)
      have h4 : r - k = (r - (k + 1)) + 1 := by omega
      simp only [h1, h2, h3, Bool.false_and, Bool.or_false, Bool.true_and, h4,
        List.getElem?_cons_succ]

theorem flatMap_range_ite {α : Type} (n r : Nat) (xs : List α) :
    (List.range n).flatMap (fun k => if k = r then xs else []) = if r < n then xs else [] := by
  induction n with
  | zero => simp
  | succ n ih =>
    rw [List.range_succ, List.flatMap_append, ih]
    simp only [List.flatMap_cons, List.flatMap_nil, List.append_nil]
    by_cases h1 : r < n
    · have h2 : n ≠ r := by omega
      have h3 : r < n + 1 := by omega
      simp only [h1, h2, h3, if_true, if_false, List.append_nil]
    · by_cases h2 : n = r
      · subst h2
        simp only [Nat.lt_irrefl, Nat.lt_succ_self, if_true, if_false, List.nil_append]
      · have h3 : ¬ r < n + 1 := by omega
        simp only [h1, h2, h3, if_false, List.append_nil]

/-- The `tracks` of `exportPattern` on a grid: list `r` holds the active
columns of row `r` in ascending order. -/
theorem exportTracks_gridDom (a p : Nat → Nat → Bool) :
    exportTracks (gridDom a p) =
      (List.range 8).map (fun r => (List.range 16).filter (fun c => a r c)) := by
  unfold exportTracks
  apply List.map_congr_left
  intro r hr
  rw [List.mem_range] at hr
  have hseg : ∀ row : Nat,
      (((((List.range 16).map (fun col =>
        ({ row := row, col := col, active := false, playing := false } : Cell))).map
          (fun c => { c with active := a c.row c.col, playing := p c.row c.col })).filter
            (fun c => c.active && c.row == r && decide (c.col < 16))).map (fun c => c.col)) =
      if row = r then (List.range 16).filter (fun c => a r c) else [] := by
    intro row
    rw [List.map_map, List.filter_map, List.map_map]
    by_cases h : row = r
    · subst h
      rw [if_pos rfl]
      have hid : ((fun c : Cell => c.col) ∘
          ((fun c : Cell => { c with active := a c.row c.col, playing := p c.row c.col }) ∘
            fun col => ({ row := row, col := col, active := false, playing := false } : Cell))) =
          id := rfl
      rw [hid, List.map_id]
      apply List.filter_congr
      intro c hc
      rw [List.mem_range] at hc
      simp only [Function.comp, beq_self_eq_true, Bool.and_true, hc, decide_True]
    · rw [if_neg h]
      have hb : (row == r) = false := beq_false_of_ne h
      have hf : ((fun c : Cell => c.active && c.row == r && decide (c.col < 16)) ∘
          ((fun c : Cell => { c with active := a c.row c.col, playing := p c.row c.col }) ∘
            fun col => ({ row := row, col := col, active := false, playing := false } : Cell))) =
          fun _ => false := by
        funext c
        simp only [Function.comp, hb, Bool.and_false, Bool.false_and]
      rw [hf]
      simp
  unfold gridDom initializeGrid
  rw [List.map_flatMap, List.filter_flatMap, List.map_flatMap]
  simp only [hseg]
  rw [flatMap_range_ite, if_pos hr]

theorem startSequencer_dom (w : World) : (startSequencer w).dom = w.dom := by
  unfold startSequencer
  simp only []
  split <;> split <;> rfl

/-- After `clearPattern()` and `setTempo(t)` the cells of a grid are those of
the grid with no cell active. -/
theorem setTempo_clearPattern_dom (t : ℚ) (w : World) (a p : Nat → Nat → Bool)
    (h : w.dom = gridDom a p) :
    ∃ p3, (setTempo t (clearPattern w)).dom = gridDom (fun _ _ => false) p3 := by
  unfold setTempo
  simp only []
  split
  · refine ⟨fun _ _ => false, ?_⟩
    rw [startSequencer_dom]
    simp only [stopSequencer, clearInterval, clearPattern, h, gridDom, List.map_map]
    rfl
  · refine ⟨p, ?_⟩
    simp only [clearPattern, h, gridDom, List.map_map]
    rfl

theorem updateFilter_dom (params : FilterParams) (w : World) :
    (updateFilter params w).dom = w.dom := by
  unfold updateFilter
  split
  · rfl
  · split <;> rfl

theorem applyEffects_dom (pf : Platform) (fx : EffectsPayload) (pg : Page) :
    (applyEffects pf fx pg).1.world.dom = pg.world.dom := by
  have h1 : (match fx.filter with
      | some p => updateFilterEffect p pg
      | none => pg).world.dom = pg.world.dom := by
    split
    · exact updateFilter_dom _ _
    · rfl
  unfold applyEffects
  simp only []
  split
  · exact h1
  · split <;> exact h1

/-- The cells `importPattern` leaves when `tracks` has eight entries. -/
theorem importPattern_dom (pf : Platform) (p : PatternPayload) (pg : Page)
    (entries : List TrackEntry) (h : p.tracks = TracksField.array entries)
    (hlen : entries.length = 8) :
    (importPattern pf (Parsed.object p) pg).2.world.dom =
      (applyTracks 0 entries
        (match p.tempo with
          | some t => if t ≠ 0 then setTempo t (clearPattern pg.world) else clearPattern pg.world
          | none => clearPattern pg.world).dom).1 := by
  simp only [importPattern, h, hlen, ne_eq, not_true_eq_false, if_false]
  split
  · rfl
  · split
    · rfl
    · split
      · rename_i pg4 heq
        have hd := congrArg (fun r : Page × Option String => r.1.world.dom) heq
        simp only [applyEffects_dom] at hd
        exact hd.symm
      · rename_i pg4 err heq
        have hd := congrArg (fun r : Page × Option String => r.1.world.dom) heq
        simp only [applyEffects_dom] at hd
        exact hd.symm

/-- C28: for every 8x16 grid `a` of active cells, the `tracks` of
`exportPattern` are 8 lists, list `r` holding exactly the active columns of
row `r`, in ascending order; and `importPattern` run on the payload read back
from that export, on a page whose grid holds any other pattern, leaves the
cells of the grid with exactly the cells of `a` active, so that an export of
the page afterwards gives the same `tracks`. -/
theorem export_import_round_trip (pf : Platform) (g pg : Page) (a p a2 p2 : Nat → Nat → Bool)
    (hg : g.world.dom = gridDom a p) (hpg : pg.world.dom = gridDom a2 p2) :
    (exportPattern g).tracks =
      (List.range 8).map (fun r => (List.range 16).filter (fun c => a r c)) ∧
    (∃ p3, (importPattern pf (Parsed.object (toPayload (exportPattern g))) pg).2.world.dom =
      gridDom a p3) ∧
    exportTracks (importPattern pf (Parsed.object (toPayload (exportPattern g))) pg).2.world.dom =
      (exportPattern g).tracks := by
  have hT : (exportPattern g).tracks =
      (List.range 8).map (fun r => (List.range 16).filter (fun c => a r c)) := by
    simp only [exportPattern]
    rw [hg]
    exact exportTracks_gridDom a p
  have htempo : (exportPattern g).tempo ≠ 0 := by
    simp only [exportPattern]
    split
    · split
      · assumption
      · norm_num
    · norm_num
  have hlen : ((exportPattern g).tracks.map
      (fun cols => TrackEntry.columns (cols.map (fun (c : Nat) => (c : ℚ))))).length = 8 := by
    rw [List.length_map, hT, List.length_map, List.length_range]
  have hdom := importPattern_dom pf (toPayload (exportPattern g)) pg _ rfl hlen
  obtain ⟨p3, hp3⟩ := setTempo_clearPattern_dom (exportPattern g).tempo pg.world a2 p2 hpg
  have hfinal : (importPattern pf (Parsed.object (toPayload (exportPattern g))) pg).2.world.dom =
      gridDom a p3 := by
    rw [hdom]
    simp only [toPayload, htempo, ne_eq, not_false_eq_true, if_true]
    rw [hp3, applyTracks_gridDom]
    simp only []
    apply gridDom_congr
    intro r c hr hc
    refine ⟨?_, rfl⟩
    rw [hT, List.getElem?_map, Nat.sub_zero, List.getElem?_range hr]
    simp only [Bool.false_or, Nat.zero_le, decide_True, Bool.true_and, Option.map_some',
      Option.getD_some, List.mem_filter, List.mem_range, hc, true_and]
    cases a r c <;> rfl
  refine ⟨hT, ⟨p3, hfinal⟩, ?_⟩
  rw [hfinal, exportTracks_gridDom, hT]

theorem export_import_round_trip_witness :
    examplePage.world.dom = gridDom exampleGrid (fun _ _ => false) ∧
    freshPage.world.dom = gridDom (fun _ _ => false) (fun _ _ => false) ∧
    (exportPattern examplePage).tracks =
      [[0, 4, 8, 12], [], [0, 2, 4, 6, 8, 10, 12, 14], [], [], [4], [], []] ∧
    exportTracks (importPattern examplePlatform
      (Parsed.object (toPayload (exportPattern examplePage))) freshPage).2.world.dom =
      [[0, 4, 8, 12], [], [0, 2, 4, 6, 8, 10, 12, 14], [], [], [4], [], []] :=
  have h := export_import_round_trip examplePlatform examplePage freshPage exampleGrid
    (fun _ _ => false) (fun _ _ => false) (fun _ _ => false) rfl rfl
  ⟨rfl, rfl, by decide!, h.2.2.trans (by decide!)⟩

end Zoundboard
